import Mathlib

/-!
FreeTure acquisition thread (`src/AcqThread.cpp`).

A shallow embedding of the scheduling and producer/consumer logic of the acquisition
thread: the schedule table (`sortAcquisitionSchedule`, `selectNextAcquisitionSchedule`),
the shared frame buffer, the day/night exposure controller and the per-frame tick of
`AcqThread::operator()`.

Conventions.
* C++ `int` values are `Int`; the quantities involved (hours, minutes, seconds,
  seconds of day, frame counters) stay far away from the 32-bit range.
* Calls that may throw (`vector::at`) return `Option`/`Except`.
* Values read from collaborators (wall clock, grab result, metering result, single-shot
  results) are explicit inputs.
-/

namespace Freeture

/-! ## Schedule table -/

/-- One long-exposure task, the fields read through `getH`, `getM`, `getS`, `getE`,
`getG`, `getF`, `getN` and written through `setDate`. -/
structure AcqSchedule where
  H : Int
  M : Int
  S : Int
  E : Int
  G : Int
  F : Int
  N : Int
  date : String
  deriving DecidableEq, Repr

/-- Lexicographic "not later than" on (hour, minute, second). -/
def timeLe (a b : AcqSchedule) : Prop :=
  a.H < b.H ∨ (a.H = b.H ∧ (a.M < b.M ∨ (a.M = b.M ∧ a.S ≤ b.S)))

instance (a b : AcqSchedule) : Decidable (timeLe a b) := by
  unfold timeLe; infer_instance

instance : IsTrans AcqSchedule timeLe :=
  ⟨fun a b c h1 h2 => by unfold timeLe at *; omega⟩

/-- Local variables of the inner `for` loop of `sortAcquisitionSchedule`
(`minH`, `minM`, `minS`, `it_select` as a position, `init`). -/
structure MinScan where
  minH : Int
  minM : Int
  minS : Int
  it_select : Nat
  init : Bool
  deriving DecidableEq, Repr

/-- The assignment block `minH = ...; minM = ...; minS = ...; it_select = it`. -/
def MinScan.select (i : Nat) (e : AcqSchedule) : MinScan :=
  { minH := e.H, minM := e.M, minS := e.S, it_select := i, init := true }

/-- Body of the inner `for` loop of `sortAcquisitionSchedule` (lines 616-657) for the
element `e` at position `i`. -/
def scanStep (st : MinScan) (i : Nat) (e : AcqSchedule) : MinScan :=
  if !st.init then MinScan.select i e
  else if e.H < st.minH then MinScan.select i e
  else if e.H = st.minH then
    if e.M < st.minM then MinScan.select i e
    else if e.M = st.minM then
      if e.S < st.minS then MinScan.select i e else st
    else st
  else st

/-- The inner `for(it = begin; it != end; ++it)` loop, from position `i` on. -/
def scanMin : List AcqSchedule → Nat → MinScan → MinScan
  | [], _, st => st
  | e :: rest, i, st => scanMin rest (i + 1) (scanStep st i e)

/-- Values of the locals on entry of the inner loop (`init = false`; the three minima are
not yet assigned). -/
def MinScan.start : MinScan :=
  { minH := 0, minM := 0, minS := 0, it_select := 0, init := false }

/-- The record of the scan describes the entry `e` stored at the selected position. -/
def MinScan.Holds (st : MinScan) (full : List AcqSchedule) (e : AcqSchedule) : Prop :=
  st.init = true ∧ full[st.it_select]? = some e ∧
    st.minH = e.H ∧ st.minM = e.M ∧ st.minS = e.S

/-- The `do { ... } while(ACQ_SCHEDULE.size() != 0)` loop of `sortAcquisitionSchedule`
(lines 607-669). `fuel` bounds the number of iterations; `none` means the bound was hit
before the loop ended. -/
def sortLoop : Nat → List AcqSchedule → List AcqSchedule → Option (List AcqSchedule)
  | 0, _, _ => none
  | fuel + 1, sched, temp =>
    let st := scanMin sched 0 MinScan.start
    let next : List AcqSchedule × List AcqSchedule :=
      if st.init then
        match sched[st.it_select]? with
        | some e => (sched.eraseIdx st.it_select, temp ++ [e])
        | none => (sched, temp)
      else (sched, temp)
    if next.1.length ≠ 0 then sortLoop fuel next.1 next.2 else some next.2

/-- Embedding of `AcqThread::sortAcquisitionSchedule` (lines 600-675): the new value of
`ACQ_SCHEDULE`. -/
def sortAcquisitionSchedule (fuel : Nat) (sched : List AcqSchedule) :
    Option (List AcqSchedule) :=
  if sched.length ≠ 0 then sortLoop fuel sched [] else some sched

/-- The nested test of the search loop of `selectNextAcquisitionSchedule`
(lines 565-588): does the loop take one of the three `indexNextTask = i; break;`
branches for entry `e`? -/
def taskIsLater (currentH currentM currentS : Int) (e : AcqSchedule) : Bool :=
  if currentH < e.H then true
  else if currentH = e.H then
    if currentM < e.M then true
    else if currentM = e.M then
      if currentS < e.S then true else false
    else false
  else false

/-- The `for(int i = 0; i < ACQ_SCHEDULE.size(); i++)` search loop (lines 563-590), from
position `i` on; `idx` is the value of `indexNextTask` before the loop, returned when no
branch is taken. -/
def searchLoop (currentH currentM currentS : Int) : List AcqSchedule → Nat → Int → Int
  | [], _, idx => idx
  | e :: rest, i, idx =>
    if taskIsLater currentH currentM currentS e then (i : Int)
    else searchLoop currentH currentM currentS rest (i + 1) idx

/-- The call `ACQ_SCHEDULE.at(i)` with an `int` argument: `none` stands for the
`std::out_of_range` exception. -/
def scheduleAt (sched : List AcqSchedule) (i : Int) : Option AcqSchedule :=
  if 0 ≤ i then sched[i.toNat]? else none

/-- The members used by the schedule routines. -/
structure ScheduleState where
  ACQ_SCHEDULE : List AcqSchedule
  indexNextTask : Int
  nextTask : AcqSchedule
  deriving DecidableEq, Repr

/-- Embedding of `AcqThread::selectNextAcquisitionSchedule` (lines 535-598); the wall
clock read at line 541 is the argument `(currentH, currentM, currentS)`.
`Except.error` carries the state at the point where `at` throws. -/
def selectNextAcquisitionSchedule (st : ScheduleState) (currentH currentM currentS : Int) :
    Except ScheduleState ScheduleState :=
  if st.ACQ_SCHEDULE.length ≠ 0 then
    let idx := searchLoop currentH currentM currentS st.ACQ_SCHEDULE 0 st.indexNextTask
    match scheduleAt st.ACQ_SCHEDULE idx with
    | some task => .ok { st with indexNextTask := idx, nextTask := task }
    | none => .error { st with indexNextTask := idx }
  else .ok st

/-- Lexicographic "strictly earlier than the entry" on (hour, minute, second): the entry
`e` is strictly later than the time of day `(h, m, s)`. -/
def laterThan (h m s : Int) (e : AcqSchedule) : Prop :=
  h < e.H ∨ (h = e.H ∧ (m < e.M ∨ (m = e.M ∧ s < e.S)))

instance (h m s : Int) (e : AcqSchedule) : Decidable (laterThan h m s e) := by
  unfold laterThan; infer_instance

/-- Lexicographic order on times of day. -/
def todLe (h1 m1 s1 h2 m2 s2 : Int) : Prop :=
  h1 < h2 ∨ (h1 = h2 ∧ (m1 < m2 ∨ (m1 = m2 ∧ s1 ≤ s2)))

/-- A task at `h:m:s` with fixed exposure, gain, format and repeat count. -/
def mkTask (h m s : Int) : AcqSchedule :=
  { H := h, M := m, S := s, E := 0, G := 0, F := 8, N := 1, date := "" }

/-! ## Frame buffer -/

/-- A grabbed frame: its number, the hour, minute and second that the loop reads with
`atoi(frameDate.at(3..5))`, and the accurate date string `getAcqDateMicro()`. -/
structure Frame where
  numFrame : Nat
  hour : Int
  minute : Int
  second : Int
  acqDateMicro : String
  deriving DecidableEq, Repr

/-- State of the shared `boost::circular_buffer<Frame>`: its capacity and its contents,
oldest frame first. -/
structure CircularBuffer where
  capacity : Nat
  items : List Frame
  deriving DecidableEq, Repr

/-- Modelled from the spec: `boost::circular_buffer::push_back`, a library routine whose
code is not part of the repository sources. The frame channel is "FIFO with eviction of
the oldest entry on overflow (ring-buffer semantics)": a full buffer drops its oldest
frame to take the new one (a full buffer of capacity 0 takes nothing), any other buffer
appends. -/
def CircularBuffer.push_back (b : CircularBuffer) (f : Frame) : CircularBuffer :=
  if b.items.length = b.capacity then
    if b.items.isEmpty then b else { b with items := b.items.tail ++ [f] }
  else { b with items := b.items ++ [f] }

/-- Modelled from the spec: `boost::circular_buffer::clear`, "drops all buffered frames". -/
def CircularBuffer.clear (b : CircularBuffer) : CircularBuffer :=
  { b with items := [] }

/-- The successive `frameBuffer->push_back(newFrame)` calls of the loop (line 251) for a
sequence of frames. -/
def pushFrames (b : CircularBuffer) (frames : List Frame) : CircularBuffer :=
  frames.foldl CircularBuffer.push_back b

/-! ## Acquisition loop -/

/-- Values returned by the accessors of the device (`cam->get...()`), and whether the
two consumer threads exist (`stackProcess != NULL`, `detectionProcess != NULL`). -/
structure Config where
  schedule : List AcqSchedule
  acqScheduleEnabled : Bool
  acqRegularEnabled : Bool
  acqRegularTimeInterval : Int
  fps : Int
  acqRegularRepetition : Int
  acqRegularExposure : Int
  acqRegularGain : Int
  acqRegularFormat : Int
  acqDayEnabled : Bool
  sunriseTime : List Int
  sunsetTime : List Int
  sunriseDuration : Int
  sunsetDuration : Int
  dayExposureTime : Int
  dayGain : Int
  nightExposureTime : Int
  nightGain : Int
  videoFramesInput : Bool
  hasStackProcess : Bool
  hasDetectionProcess : Bool
  deriving Repr

/-- What the thread does to its collaborators, in program order. -/
inductive Event where
  | pushFrame (f : Frame)
  | setDetSignal (b : Bool)
  | setStackSignal (b : Bool)
  | interruptStack
  | interruptDetection
  | clearFrameBuffer
  | controlExposureTime (f : Frame)
  | acqStop
  | grabStop
  | acqRestart
  | grabSingleImage (exposure gain format : Int) (repetition : Nat) (ok : Bool)
  | setExposureTime (v : Int)
  | setGain (v : Int)
  | runRegularAcquisition
  | runScheduledAcquisition (task : AcqSchedule)
  deriving DecidableEq, Repr

/-- The four second-of-day boundaries `timeStartSunrise`, `timeStopSunrise`,
`timeStartSunset`, `timeStopSunset`. -/
structure DayNightWindow where
  timeStartSunrise : Int
  timeStopSunrise : Int
  timeStartSunset : Int
  timeStopSunset : Int
  deriving DecidableEq, Repr

/-- Locals of `operator()` and members of `AcqThread` that live across ticks, the shared
frame buffer and wake flags, and the trace of events emitted so far. -/
structure LoopState where
  sched : ScheduleState
  regularAcqFrameInterval : Int
  regularAcqFrameCounter : Int
  exposureControlStatus : Bool
  exposureControlActive : Bool
  cleanStatus : Bool
  autoExposure : Bool
  win : DayNightWindow
  enableStackThread : Bool
  nbFailGrabbedFrames : Nat
  frameBuffer : CircularBuffer
  detSignal : Bool
  stackSignal : Bool
  trace : List Event
  deriving DecidableEq, Repr

/-- What the collaborators answer during one tick: the result of `cam->grabImage`, the
value `controlExposureTime` returns if it is called, the results of the successive
`grabSingleImage` calls of each diversion, and the wall clock read by
`selectNextAcquisitionSchedule`. -/
structure TickInput where
  grab : Option Frame
  controlResult : Bool
  regularShots : Nat → Bool
  scheduledShots : Nat → Bool
  clockH : Int
  clockM : Int
  clockS : Int

/-- Append events to the trace. -/
def LoopState.emit (st : LoopState) (es : List Event) : LoopState :=
  { st with trace := st.trace ++ es }

/-- The window test of line 411 (sunrise or sunset window). -/
def sunriseSunsetTest (w : DayNightWindow) (currentTimeInSec : Int) : Bool :=
  (decide (currentTimeInSec > w.timeStartSunrise) && decide (currentTimeInSec < w.timeStopSunrise))
    || (decide (currentTimeInSec > w.timeStartSunset) && decide (currentTimeInSec < w.timeStopSunset))

/-- The daytime test of line 420. -/
def dayTest (w : DayNightWindow) (currentTimeInSec : Int) : Bool :=
  decide (currentTimeInSec ≥ w.timeStopSunrise) && decide (currentTimeInSec < w.timeStartSunset)

/-- The night test of line 430. -/
def nightTest (w : DayNightWindow) (currentTimeInSec : Int) : Bool :=
  decide (currentTimeInSec ≥ w.timeStopSunset) || decide (currentTimeInSec < w.timeStartSunrise)

/-- The night test of lines 336 and 451 (regular acquisition, stack thread). -/
def regularNightTest (w : DayNightWindow) (currentTimeInSec : Int) : Bool :=
  decide (currentTimeInSec > w.timeStopSunset) || decide (currentTimeInSec < w.timeStartSunrise)

/-- The block "clear the stack wake flag and force an interruption" (lines 278-284,
801-807, 966-972, 460-466). -/
def silenceStack (st : LoopState) : LoopState :=
  ({ st with stackSignal := false }).emit [Event.setStackSignal false, Event.interruptStack]

/-- The block "clear the detection wake flag and interrupt the detection thread"
(lines 291-295, 815-819, 980-984). -/
def silenceDetection (st : LoopState) : LoopState :=
  ({ st with detSignal := false }).emit [Event.setDetSignal false, Event.interruptDetection]

/-- The block "Reset framebuffer" (lines 301-303, 825-827, 990-992). -/
def resetFrameBuffer (st : LoopState) : LoopState :=
  ({ st with frameBuffer := st.frameBuffer.clear }).emit [Event.clearFrameBuffer]

/-- Lines 250-268: the frame is shared with the other threads. -/
def shareFrame (st : LoopState) (newFrame : Frame) : LoopState :=
  let st1 := ({ st with frameBuffer := st.frameBuffer.push_back newFrame,
                        detSignal := true }).emit
    [Event.pushFrame newFrame, Event.setDetSignal true]
  let st2 :=
    if st.enableStackThread then
      ({ st1 with stackSignal := true }).emit [Event.setStackSignal true]
    else st1
  { st2 with cleanStatus := false }

/-- Lines 273-307: the frame is withheld; on the first such tick the consumers are
interrupted and the buffer is cleared. -/
def withholdFrame (cfg : Config) (st : LoopState) : LoopState :=
  if !st.cleanStatus then
    let st1 := if cfg.hasStackProcess then silenceStack st else st
    let st2 := if cfg.hasDetectionProcess then silenceDetection st1 else st1
    { resetFrameBuffer st2 with cleanStatus := true }
  else st

/-- Lines 246-309: share the new frame with the consumers, or withhold it. -/
def frameSharing (cfg : Config) (st : LoopState) (newFrame : Frame) : LoopState :=
  if !st.exposureControlStatus then shareFrame st newFrame else withholdFrame cfg st

/-- Lines 311-312: feed the frame to the metering collaborator. -/
def exposureControl (st : LoopState) (newFrame : Frame) (controlResult : Bool) : LoopState :=
  if st.autoExposure && st.exposureControlActive then
    ({ st with exposureControlStatus := controlResult }).emit
      [Event.controlExposureTime newFrame]
  else st

/-- The prologue shared by both diversions (lines 793-827 and 958-992): stop the device,
silence and interrupt the consumers, clear the frame buffer. -/
def stopAndInvalidate (cfg : Config) (st : LoopState) : LoopState :=
  let st0 := st.emit [Event.acqStop, Event.grabStop]
  let st1 := if cfg.hasStackProcess && st.enableStackThread then silenceStack st0 else st0
  let st2 := if cfg.hasDetectionProcess then silenceDetection st1 else st1
  resetFrameBuffer st2

/-- The single-shot requests of the `for(int i = 0; i < n; i++)` loop of a diversion when
no repetition leaves the routine from inside its save branch: one request per repetition,
from repetition `i` on, `k` repetitions left. The loop with its save branch is
`captureLoop`. -/
def singleShots (exposure gain format : Int) (shots : Nat → Bool) : Nat → Nat → List Event
  | 0, _ => []
  | k + 1, i =>
    Event.grabSingleImage exposure gain format i (shots i)
      :: singleShots exposure gain format shots k (i + 1)

/-- The loop state at the closing brace of `AcqThread::runScheduledAcquisition`
(lines 791-954) when control gets there: prologue, single shots, `acqRestart`. The
routine is declared `bool` and has no `return` statement; how a call of it ends is
`runScheduledAcquisitionCall`. -/
def runScheduledAcquisition (cfg : Config) (st : LoopState) (task : AcqSchedule)
    (shots : Nat → Bool) : LoopState :=
  let st1 := stopAndInvalidate cfg (st.emit [Event.runScheduledAcquisition task])
  let st2 := st1.emit (singleShots task.E task.G task.F shots task.N.toNat 0)
  st2.emit [Event.acqRestart]

/-- The loop state at the closing brace of `AcqThread::runRegularAcquisition`
(lines 956-1117) when control gets there: prologue, single shots, `acqRestart`. The
routine is declared `bool` and has no `return` statement; how a call of it ends is
`runRegularAcquisitionCall`. -/
def runRegularAcquisition (cfg : Config) (st : LoopState) (shots : Nat → Bool) : LoopState :=
  let st1 := stopAndInvalidate cfg (st.emit [Event.runRegularAcquisition])
  let st2 := st1.emit (singleShots cfg.acqRegularExposure cfg.acqRegularGain
    cfg.acqRegularFormat shots cfg.acqRegularRepetition.toNat 0)
  st2.emit [Event.acqRestart]

/-- Lines 334-358: acquisition at regular time interval, for a call of line 341 that is
back in the loop after the last statement of the routine; `regularCheckCall` has the call
as the source has it. -/
def regularCheck (cfg : Config) (st : LoopState) (currentTimeInSec : Int)
    (shots : Nat → Bool) : LoopState :=
  if cfg.acqRegularEnabled then
    if regularNightTest st.win currentTimeInSec then
      if st.regularAcqFrameCounter ≥ st.regularAcqFrameInterval then
        { runRegularAcquisition cfg st shots with regularAcqFrameCounter := 0 }
      else
        { st with regularAcqFrameCounter := st.regularAcqFrameCounter + 1 }
    else
      { st with regularAcqFrameCounter := 0 }
  else st

/-- The call `selectNextAcquisitionSchedule()` inside the loop: only the schedule members
change; an exception leaves the tick. -/
def selectNextInLoop (st : LoopState) (inp : TickInput) : Except LoopState LoopState :=
  match selectNextAcquisitionSchedule st.sched inp.clockH inp.clockM inp.clockS with
  | .ok ss => .ok { st with sched := ss }
  | .error ss => .error { st with sched := ss }

/-- Lines 361-403: check the schedule for long exposure captures, for a call of line 369
that is back in the loop after the last statement of the routine; `scheduleCheckCall` has
the call as the source has it. -/
def scheduleCheck (cfg : Config) (st : LoopState) (f : Frame) (inp : TickInput) :
    Except LoopState LoopState :=
  if st.sched.ACQ_SCHEDULE.length ≠ 0 && cfg.acqScheduleEnabled then
    if st.sched.nextTask.H = f.hour ∧ st.sched.nextTask.M = f.minute
        ∧ f.second = st.sched.nextTask.S then
      let task := { st.sched.nextTask with date := f.acqDateMicro }
      let st1 := { st with sched := { st.sched with nextTask := task } }
      selectNextInLoop (runScheduledAcquisition cfg st1 task inp.scheduledShots) inp
    else
      if f.hour > st.sched.nextTask.H then selectNextInLoop st inp
      else if f.hour = st.sched.nextTask.H then
        if f.minute > st.sched.nextTask.M then selectNextInLoop st inp
        else if f.minute = st.sched.nextTask.M then
          if f.second > st.sched.nextTask.S then selectNextInLoop st inp
          else .ok st
        else .ok st
      else .ok st
  else .ok st

/-- Lines 406-446: enable or disable exposure control at sunrise and sunset, and apply the
day or night exposure when exposure control is switched off. -/
def exposureModeCheck (cfg : Config) (st : LoopState) (currentTimeInSec : Int) : LoopState :=
  if cfg.acqDayEnabled then
    if sunriseSunsetTest st.win currentTimeInSec then
      { st with exposureControlActive := true }
    else
      let st1 :=
        if st.exposureControlActive then
          if dayTest st.win currentTimeInSec then
            st.emit [Event.setExposureTime cfg.dayExposureTime, Event.setGain cfg.dayGain]
          else if nightTest st.win currentTimeInSec then
            st.emit [Event.setExposureTime cfg.nightExposureTime,
              Event.setGain cfg.nightGain]
          else st
        else st
      { st1 with exposureControlActive := false, exposureControlStatus := false }
  else st

/-- Lines 449-476: put the stack thread to sleep in daytime, wake it up at night. -/
def stackCheck (cfg : Config) (st : LoopState) (currentTimeInSec : Int) : LoopState :=
  if cfg.hasStackProcess then
    if regularNightTest st.win currentTimeInSec then
      { st with enableStackThread := true }
    else
      let st1 := if st.enableStackThread then silenceStack st else st
      { st1 with enableStackThread := false }
  else st

/-- The second of day that the loop computes for a frame (line 326). -/
def Frame.timeInSec (f : Frame) : Int :=
  f.hour * 3600 + f.minute * 60 + f.second

/-- Lines 324-478: the time-driven part of a tick, run after a successful grab on a live
input. -/
def timeChecks (cfg : Config) (st : LoopState) (f : Frame) (inp : TickInput) :
    Except LoopState LoopState :=
  let currentTimeInSec := f.timeInSec
  match scheduleCheck cfg (regularCheck cfg st currentTimeInSec inp.regularShots) f inp with
  | .ok st2 => .ok (stackCheck cfg (exposureModeCheck cfg st2 currentTimeInSec) currentTimeInSec)
  | .error st2 => .error st2

/-- One iteration of the inner `do ... while` loop of `AcqThread::operator()`
(lines 226-486). `Except.error` is an exception leaving the iteration. A diversion called
in the tick is taken to be back in the loop after its last statement; `tickCall` is the
tick with the calls as the source has them. -/
def tick (cfg : Config) (st : LoopState) (inp : TickInput) : Except LoopState LoopState :=
  match inp.grab with
  | some newFrame =>
    let st1 := exposureControl (frameSharing cfg st newFrame) newFrame inp.controlResult
    if !cfg.videoFramesInput then timeChecks cfg st1 newFrame inp else .ok st1
  | none => .ok { st with nbFailGrabbedFrames := st.nbFailGrabbedFrames + 1 }

/-- End of a dataset (lines 490-509): the frame buffer is cleared before the next one is
loaded. -/
def datasetRestart (st : LoopState) : LoopState :=
  resetFrameBuffer st

/-- Lines 192-204: the window boundaries; `none` when `at(0)` or `at(1)` throws. -/
def windowBoundaries (cfg : Config) : Option DayNightWindow :=
  if cfg.sunriseTime.length ≠ 0 ∧ cfg.sunsetTime.length ≠ 0 then
    match cfg.sunriseTime[0]?, cfg.sunriseTime[1]?, cfg.sunsetTime[0]?, cfg.sunsetTime[1]? with
    | some rh, some rm, some sh, some sm =>
      some { timeStartSunrise := rh * 3600 + rm * 60,
             timeStopSunrise := rh * 3600 + rm * 60 + cfg.sunriseDuration * 2,
             timeStartSunset := sh * 3600 + sm * 60,
             timeStopSunset := sh * 3600 + sm * 60 + cfg.sunsetDuration * 2 }
    | _, _, _, _ => none
  else some { timeStartSunrise := 0, timeStopSunrise := 0, timeStartSunset := 0,
              timeStopSunset := 0 }

/-- Lines 151-213: the state in which the loop is entered. `index0` and `task0` are the
values of the members `indexNextTask` and `nextTask` before the first selection, `fb`,
`det` and `stack` the shared buffer and wake flags handed to the thread, and the clock is
the one read by the first selection. `none` when an exception escapes the prologue. -/
def startup (cfg : Config) (index0 : Int) (task0 : AcqSchedule) (clockH clockM clockS : Int)
    (fb : CircularBuffer) (det stack : Bool) : Option LoopState :=
  match sortAcquisitionSchedule cfg.schedule.length cfg.schedule with
  | none => none
  | some sorted =>
    match selectNextAcquisitionSchedule
        { ACQ_SCHEDULE := sorted, indexNextTask := index0, nextTask := task0 }
        clockH clockM clockS with
    | .error _ => none
    | .ok ss =>
      match windowBoundaries cfg with
      | none => none
      | some w =>
        some { sched := ss,
               regularAcqFrameInterval :=
                 if cfg.acqRegularEnabled then cfg.acqRegularTimeInterval * cfg.fps else 0,
               regularAcqFrameCounter := 0,
               exposureControlStatus := false,
               exposureControlActive := false,
               cleanStatus := false,
               autoExposure := cfg.acqDayEnabled,
               win := w,
               enableStackThread := cfg.hasStackProcess,
               nbFailGrabbedFrames := 0,
               frameBuffer := fb,
               detSignal := det,
               stackSignal := stack,
               trace := [] }

/-- States the acquisition loop can be in at the start of a tick. -/
inductive Reachable (cfg : Config) : LoopState → Prop where
  | start (index0 : Int) (task0 : AcqSchedule) (clockH clockM clockS : Int)
      (fb : CircularBuffer) (det stack : Bool) (s : LoopState) :
      startup cfg index0 task0 clockH clockM clockS fb det stack = some s → Reachable cfg s
  | tick (s s1 : LoopState) (inp : TickInput) :
      Reachable cfg s → tick cfg s inp = .ok s1 → Reachable cfg s1
  | dataset (s : LoopState) : Reachable cfg s → Reachable cfg (datasetRestart s)

/-! ## Relations between the states before and after a part of a tick -/

/-- Events that hand a frame to the consumers: a push into the frame buffer or a wake
flag raised. -/
def Event.forwards : Event → Bool
  | .pushFrame _ => true
  | .setDetSignal true => true
  | .setStackSignal true => true
  | _ => false

/-- Events that write the exposure time or the gain of the device. -/
def Event.exposureWrite : Event → Bool
  | .setExposureTime _ => true
  | .setGain _ => true
  | _ => false

/-- The exposure and gain writes of a trace, in order. -/
def exposureWrites (tr : List Event) : List Event :=
  tr.filter Event.exposureWrite

/-- The state of whichever way the tick ended. -/
def finalState : Except LoopState LoopState → LoopState
  | .ok s => s
  | .error s => s

/-- From `s` to `s1` the exposure controller was left alone: same window boundaries, same
metering-active flag, same metering object, no exposure or gain written. -/
structure Calm (s s1 : LoopState) : Prop where
  win : s1.win = s.win
  active : s1.exposureControlActive = s.exposureControlActive
  autoExposure : s1.autoExposure = s.autoExposure
  trace : ∃ rest, s1.trace = s.trace ++ rest ∧ ∀ e ∈ rest, e.exposureWrite = false

/-- From `s` to `s1` nothing was handed to the consumers: no frame pushed, no wake flag
raised; the buffer is as before or was cleared. -/
structure Withheld (s s1 : LoopState) : Prop where
  trace : ∃ rest, s1.trace = s.trace ++ rest ∧ ∀ e ∈ rest, e.forwards = false
  buffer : s1.frameBuffer = s.frameBuffer ∨ s1.frameBuffer = s.frameBuffer.clear
  det : s1.detSignal = true → s.detSignal = true
  stack : s1.stackSignal = true → s.stackSignal = true

/-- Both of the above, and the metering result is kept. -/
structure Passive (s s1 : LoopState) : Prop where
  calm : Calm s s1
  withheld : Withheld s s1
  status : s1.exposureControlStatus = s.exposureControlStatus

/-- The ticks of a run, one after the other; an exception ends the run. -/
def runTicks (cfg : Config) : LoopState → List TickInput → Except LoopState LoopState
  | s, [] => .ok s
  | s, inp :: rest =>
    match tick cfg s inp with
    | .ok s1 => runTicks cfg s1 rest
    | .error s1 => .error s1

/-- The three modes of the exposure controller as the specification words them. -/
inductive Mode where
  | night
  | transition
  | day
  deriving DecidableEq, Repr

/-- Classification as the specification words it: `TRANSITION` in
[sunriseStart, sunriseStop) or [sunsetStart, sunsetStop), `DAY` in
[sunriseStop, sunsetStart), `NIGHT` otherwise, that is in [sunsetStop, 24h) or
[0, sunriseStart). -/
def specMode (w : DayNightWindow) (t : Int) : Mode :=
  if (w.timeStartSunrise ≤ t ∧ t < w.timeStopSunrise)
      ∨ (w.timeStartSunset ≤ t ∧ t < w.timeStopSunset) then Mode.transition
  else if w.timeStopSunrise ≤ t ∧ t < w.timeStartSunset then Mode.day
  else Mode.night

/-- The boundaries are in the order sunrise start, sunrise stop, sunset start, sunset
stop. -/
def DayNightWindow.Ordered (w : DayNightWindow) : Prop :=
  w.timeStartSunrise ≤ w.timeStopSunrise ∧ w.timeStopSunrise ≤ w.timeStartSunset ∧
    w.timeStartSunset ≤ w.timeStopSunset

/-- The flag invariant of the loop: metering off implies no metering result pending. -/
def FlagsInv (s : LoopState) : Prop :=
  s.exposureControlActive = false → s.exposureControlStatus = false

instance (w : DayNightWindow) : Decidable w.Ordered := by
  unfold DayNightWindow.Ordered; infer_instance

/-- The exposure and gain writes that belong to a mode: the day values for `DAY`, the
night values for `NIGHT`, none for `TRANSITION`. -/
def modeWrites (cfg : Config) : Mode → List Event
  | .day => [Event.setExposureTime cfg.dayExposureTime, Event.setGain cfg.dayGain]
  | .night => [Event.setExposureTime cfg.nightExposureTime, Event.setGain cfg.nightGain]
  | .transition => []

/-! ## Kinds of events and the events of a diversion -/

/-- What an event is about: handing a frame to the consumers, silencing them (flag down,
interruption, buffer cleared), the metering collaborator, an exposure or gain write, a
device command of a diversion, or the entry into one of the two diversions. -/
inductive Kind where
  | share
  | silence
  | control
  | exposure
  | device
  | runRegular
  | runScheduled
  deriving DecidableEq, Repr

/-- The kind of an event. -/
def Event.kind : Event → Kind
  | .pushFrame _ => Kind.share
  | .setDetSignal true => Kind.share
  | .setStackSignal true => Kind.share
  | .setDetSignal false => Kind.silence
  | .setStackSignal false => Kind.silence
  | .interruptStack => Kind.silence
  | .interruptDetection => Kind.silence
  | .clearFrameBuffer => Kind.silence
  | .controlExposureTime _ => Kind.control
  | .acqStop => Kind.device
  | .grabStop => Kind.device
  | .acqRestart => Kind.device
  | .grabSingleImage _ _ _ _ _ => Kind.device
  | .setExposureTime _ => Kind.exposure
  | .setGain _ => Kind.exposure
  | .runRegularAcquisition => Kind.runRegular
  | .runScheduledAcquisition _ => Kind.runScheduled

/-- The events of kind `k` of a trace, in order. -/
def eventsOfKind (k : Kind) (tr : List Event) : List Event :=
  tr.filter (fun e => decide (e.kind = k))

/-- From `s` to `s1` only events of the kinds `ks` were emitted, the values fixed at
start-up were kept, and a member was kept unless the part of the tick that owns it (told
by its kind of event) was among the ones run: the frame counter belongs to the regular
check, the cursor and armed task to the schedule check, `cleanStatus` to frame sharing,
the metering flags to the metering call and the exposure check. -/
structure Aside (ks : List Kind) (s s1 : LoopState) : Prop where
  trace : ∃ rest, s1.trace = s.trace ++ rest ∧ ∀ e ∈ rest, e.kind ∈ ks
  interval : s1.regularAcqFrameInterval = s.regularAcqFrameInterval
  win : s1.win = s.win
  autoExposure : s1.autoExposure = s.autoExposure
  table : s1.sched.ACQ_SCHEDULE = s.sched.ACQ_SCHEDULE
  nbFail : s1.nbFailGrabbedFrames = s.nbFailGrabbedFrames
  counter : Kind.runRegular ∉ ks → s1.regularAcqFrameCounter = s.regularAcqFrameCounter
  sched : Kind.runScheduled ∉ ks → s1.sched = s.sched
  cleanStatus : Kind.share ∉ ks → s1.cleanStatus = s.cleanStatus
  active : Kind.exposure ∉ ks → s1.exposureControlActive = s.exposureControlActive
  status : Kind.control ∉ ks → Kind.exposure ∉ ks →
    s1.exposureControlStatus = s.exposureControlStatus

/-- The events of the prologue of a diversion (lines 793-827, 958-992), given whether
stacking is enabled: device stop, consumers silenced, buffer cleared. -/
def stopEvents (cfg : Config) (enableStackThread : Bool) : List Event :=
  [Event.acqStop, Event.grabStop]
    ++ (if cfg.hasStackProcess && enableStackThread
          then [Event.setStackSignal false, Event.interruptStack] else [])
    ++ (if cfg.hasDetectionProcess
          then [Event.setDetSignal false, Event.interruptDetection] else [])
    ++ [Event.clearFrameBuffer]

/-- The single-shot requests of a diversion with `n` repetitions, in order. -/
def shotRequests (exposure gain format : Int) (shots : Nat → Bool) (n : Nat) : List Event :=
  (List.range n).map (fun i => Event.grabSingleImage exposure gain format i (shots i))

/-- The events of a whole diversion after its entry: prologue, single shots, restart. -/
def diversionEvents (cfg : Config) (enableStackThread : Bool) (exposure gain format : Int)
    (shots : Nat → Bool) (n : Nat) : List Event :=
  stopEvents cfg enableStackThread ++ shotRequests exposure gain format shots n
    ++ [Event.acqRestart]

/-- The events of the one-shot invalidation of the withholding branch (lines 273-307). -/
def withholdEvents (cfg : Config) : List Event :=
  (if cfg.hasStackProcess then [Event.setStackSignal false, Event.interruptStack] else [])
    ++ (if cfg.hasDetectionProcess
          then [Event.setDetSignal false, Event.interruptDetection] else [])
    ++ [Event.clearFrameBuffer]

/-- The state after a diversion that started in `s` and emitted `events`. -/
def afterDiversion (cfg : Config) (s : LoopState) (events : List Event) : LoopState :=
  { s with
    frameBuffer := s.frameBuffer.clear,
    detSignal := if cfg.hasDetectionProcess then false else s.detSignal,
    stackSignal := if cfg.hasStackProcess && s.enableStackThread then false else s.stackSignal,
    trace := s.trace ++ events }

/-- The commands a trace sends to the device: stop, single shot, restart, exposure and
gain writes. -/
def deviceCommands (tr : List Event) : List Event :=
  tr.filter (fun e => decide (e.kind = Kind.device) || decide (e.kind = Kind.exposure))

/-! ## Sample data -/

/-- A frame numbered `n` stamped `h:m:s`. -/
def frameAt (n : Nat) (h m s : Int) : Frame :=
  { numFrame := n, hour := h, minute := m, second := s, acqDateMicro := "" }

/-- A station with day acquisition enabled, sunrise at 06:00 and sunset at 18:00 with
transition durations of 900, both consumers present, no schedule and no regular
acquisition. -/
def sampleConfig : Config :=
  { schedule := [], acqScheduleEnabled := false,
    acqRegularEnabled := false, acqRegularTimeInterval := 0, fps := 30,
    acqRegularRepetition := 0, acqRegularExposure := 0, acqRegularGain := 0,
    acqRegularFormat := 8,
    acqDayEnabled := true, sunriseTime := [6, 0], sunsetTime := [18, 0],
    sunriseDuration := 900, sunsetDuration := 900,
    dayExposureTime := 100, dayGain := 0, nightExposureTime := 33000, nightGain := 400,
    videoFramesInput := false, hasStackProcess := true, hasDetectionProcess := true }

/-- The window boundaries of `sampleConfig`: 06:00:00, 06:30:00, 18:00:00, 18:30:00. -/
def sampleWindow : DayNightWindow :=
  { timeStartSunrise := 21600, timeStopSunrise := 23400,
    timeStartSunset := 64800, timeStopSunset := 66600 }

/-- The state in which the loop of `sampleConfig` is entered, with an empty frame buffer
of capacity 3 and both wake flags down. -/
def sampleStart : LoopState :=
  { sched := { ACQ_SCHEDULE := [], indexNextTask := 0, nextTask := mkTask 0 0 0 },
    regularAcqFrameInterval := 0, regularAcqFrameCounter := 0,
    exposureControlStatus := false, exposureControlActive := false, cleanStatus := false,
    autoExposure := true, win := sampleWindow, enableStackThread := true,
    nbFailGrabbedFrames := 0, frameBuffer := { capacity := 3, items := [] },
    detSignal := false, stackSignal := false, trace := [] }

/-- A tick that grabs frame `f`; the metering collaborator answers `ctl`. -/
def grabbed (f : Frame) (ctl : Bool) : TickInput :=
  { grab := some f, controlResult := ctl,
    regularShots := fun _ => true, scheduledShots := fun _ => true,
    clockH := f.hour, clockM := f.minute, clockS := f.second }

/-- The sample station with acquisition at regular interval enabled, every 10 frames
(10 seconds at 1 frame per second), one repetition. -/
def regularConfig : Config :=
  { sampleConfig with
    acqRegularEnabled := true, acqRegularTimeInterval := 10, fps := 1,
    acqRegularRepetition := 1, acqRegularExposure := 5000, acqRegularGain := 10 }

/-- The state in which the loop of `regularConfig` is entered: frame interval 10, frame
counter 0. -/
def regularStart : LoopState :=
  { sampleStart with regularAcqFrameInterval := 10 }

/-- The same frame, stamped 01:00:00 (night), grabbed `n` times in a row. -/
def nightTicks (n : Nat) : List TickInput :=
  List.replicate n (grabbed (frameAt 1 1 0 0) false)

/-- The frame is stamped exactly at the time of day of the task (line 364). -/
def frameAtTask (f : Frame) (task : AcqSchedule) : Prop :=
  task.H = f.hour ∧ task.M = f.minute ∧ f.second = task.S

instance (f : Frame) (task : AcqSchedule) : Decidable (frameAtTask f task) := by
  unfold frameAtTask; infer_instance

/-- The time stamp of the frame is lexicographically strictly later than the task. -/
def frameAfterTask (f : Frame) (task : AcqSchedule) : Prop :=
  f.hour > task.H ∨ (f.hour = task.H ∧
    (f.minute > task.M ∨ (f.minute = task.M ∧ f.second > task.S)))

instance (f : Frame) (task : AcqSchedule) : Decidable (frameAfterTask f task) := by
  unfold frameAfterTask; infer_instance

/-- The time stamp of the frame is lexicographically strictly earlier than the task. -/
def frameBeforeTask (f : Frame) (task : AcqSchedule) : Prop :=
  f.hour < task.H ∨ (f.hour = task.H ∧
    (f.minute < task.M ∨ (f.minute = task.M ∧ f.second < task.S)))

instance (f : Frame) (task : AcqSchedule) : Decidable (frameBeforeTask f task) := by
  unfold frameBeforeTask; infer_instance

/-- The armed task stamped with the date of the frame that triggers it (line 366). -/
def datedTask (s : LoopState) (f : Frame) : AcqSchedule :=
  { s.sched.nextTask with date := f.acqDateMicro }

/-- A station with one scheduled task at 06:00:00, exposure 5000, gain 10, one
repetition, and nothing else enabled. -/
def scheduleConfig : Config :=
  { sampleConfig with
    schedule := [{ H := 6, M := 0, S := 0, E := 5000, G := 10, F := 8, N := 1, date := "" }],
    acqScheduleEnabled := true, acqDayEnabled := false }

/-- The state in which the loop of `scheduleConfig` is entered before 06:00:00: the task
is armed. -/
def scheduleStart : LoopState :=
  { sampleStart with
    sched := { ACQ_SCHEDULE :=
                 [{ H := 6, M := 0, S := 0, E := 5000, G := 10, F := 8, N := 1, date := "" }],
               indexNextTask := 0,
               nextTask := { H := 6, M := 0, S := 0, E := 5000, G := 10, F := 8, N := 1,
                             date := "" } },
    autoExposure := false }

/-- The exposure controller has done nothing so far: all four window boundaries are 0,
metering is off, the metering collaborator was never called and no exposure or gain was
written. -/
def Inert (s : LoopState) : Prop :=
  s.win = { timeStartSunrise := 0, timeStopSunrise := 0, timeStartSunset := 0,
            timeStopSunset := 0 } ∧
  s.exposureControlActive = false ∧
  eventsOfKind Kind.control s.trace = [] ∧
  eventsOfKind Kind.exposure s.trace = []

/-- The sample station without a configured sunrise time. -/
def noSunriseConfig : Config :=
  { sampleConfig with sunriseTime := [] }

/-- The state in which the loop of `noSunriseConfig` is entered. -/
def noSunriseStart : LoopState :=
  { sampleStart with
    win := { timeStartSunrise := 0, timeStopSunrise := 0, timeStartSunset := 0,
             timeStopSunset := 0 } }

/-- The state after the one-shot invalidation of the withholding branch (lines 273-307)
performed in `s`. -/
def afterInvalidation (cfg : Config) (s : LoopState) : LoopState :=
  { s with
    stackSignal := if cfg.hasStackProcess then false else s.stackSignal,
    detSignal := if cfg.hasDetectionProcess then false else s.detSignal,
    frameBuffer := s.frameBuffer.clear,
    cleanStatus := true,
    trace := s.trace ++ withholdEvents cfg }

/-! ## Thread body -/

/-- Exceptions that a call made inside the loop can raise: `boost::thread_interrupted`,
an exception derived from `std::exception`, or anything else. -/
inductive Raised where
  | threadInterrupted
  | stdException
  | other
  deriving DecidableEq, Repr

/-- What happens around one pass of the inner `do ... while` loop: the answers of the
collaborators during the tick, an exception raised by a collaborator at the start of the
pass (if any), and the values of `mustStop` and `getDeviceStopStatus()` read at its end
(lines 484-488). -/
structure IterInput where
  tick : TickInput
  raised : Option Raised
  mustStop : Bool
  deviceStopStatus : Bool

/-- What happens around one pass of the outer loop (lines 219-511): the result of
`loadDataset()`, the passes of the inner loop, `getRunStatus()` of the detection thread
and `getDatasetStatus()`. -/
structure DatasetInput where
  loadDataset : Bool
  iterations : List IterInput
  detectionRunStatus : Bool
  datasetStatus : Bool

/-- How far the loops got on the given inputs: still running when the inputs are used
up, ended normally, or left by an exception. -/
inductive LoopOutcome where
  | running
  | ended (s : LoopState)
  | raised (r : Raised) (s : LoopState)

/-- The inner `do { ... } while(stop == false && !cam->getDeviceStopStatus())` loop
(lines 224-488). An exception of `vector::at` inside the tick is a `std::out_of_range`,
derived from `std::exception`. -/
def innerLoop (cfg : Config) : LoopState → List IterInput → LoopOutcome
  | _, [] => LoopOutcome.running
  | s, it :: rest =>
    match it.raised with
    | some r => LoopOutcome.raised r s
    | none =>
      match tick cfg s it.tick with
      | .error s1 => LoopOutcome.raised Raised.stdException s1
      | .ok s1 =>
        if it.mustStop = false && !it.deviceStopStatus then innerLoop cfg s1 rest
        else LoopOutcome.ended s1

/-- The outer `do { ... } while(cam->getDatasetStatus())` loop (lines 219-511). -/
def outerLoop (cfg : Config) : LoopState → List DatasetInput → LoopOutcome
  | _, [] => LoopOutcome.running
  | s, d :: ds =>
    if !d.loadDataset then LoopOutcome.ended s
    else
      match innerLoop cfg s d.iterations with
      | LoopOutcome.running => LoopOutcome.running
      | LoopOutcome.raised r s1 => LoopOutcome.raised r s1
      | LoopOutcome.ended s1 =>
        if cfg.hasDetectionProcess && !d.detectionRunStatus then LoopOutcome.ended s1
        else if d.datasetStatus then outerLoop cfg (datasetRestart s1) ds
        else LoopOutcome.ended (datasetRestart s1)

/-- How the thread body stands on the given inputs: still in its loop, returned (with the
final loop state and the value of `threadTerminated`), or left by an exception that no
handler caught. -/
inductive ThreadResult where
  | running
  | returned (s : LoopState) (threadTerminated : Bool)
  | propagated (r : Raised) (s : LoopState)

/-- Lines 525-528: stop the device and raise `threadTerminated`. -/
def shutdown (s : LoopState) : ThreadResult :=
  ThreadResult.returned (s.emit [Event.acqStop, Event.grabStop]) true

/-- The `try { ... } catch(const boost::thread_interrupted&) { } catch(exception& e) { }`
block around the loops and the code after it (lines 217-533). -/
def threadBody (cfg : Config) (s : LoopState) (script : List DatasetInput) : ThreadResult :=
  match outerLoop cfg s script with
  | LoopOutcome.running => ThreadResult.running
  | LoopOutcome.ended s1 => shutdown s1
  | LoopOutcome.raised Raised.threadInterrupted s1 => shutdown s1
  | LoopOutcome.raised Raised.stdException s1 => shutdown s1
  | LoopOutcome.raised Raised.other s1 => ThreadResult.propagated Raised.other s1

/-- A pass of the inner loop that grabs frame `f` without incident. -/
def pass (f : Frame) (mustStop deviceStop : Bool) : IterInput :=
  { tick := grabbed f false, raised := none, mustStop := mustStop,
    deviceStopStatus := deviceStop }

/-- A pass of the inner loop during which `r` is raised. -/
def passRaising (f : Frame) (r : Raised) : IterInput :=
  { tick := grabbed f false, raised := some r, mustStop := false, deviceStopStatus := false }

/-! ## Saving a single shot: directory and pixel conversion -/

/-- Which of the three directories exist: `DATA_PATH` (`p`), `DATA_PATH/STATION_YYYYMMDD/`
(`p1`) and its `captures/` subdirectory (`p2`), as `fs::exists` reports them. -/
structure Directories where
  dataPath : Bool
  stationDir : Bool
  captures : Bool
  deriving DecidableEq, Repr

/-- A directory can only exist inside an existing parent. -/
def Directories.WellFormed (d : Directories) : Prop :=
  (d.captures = true → d.stationDir = true) ∧ (d.stationDir = true → d.dataPath = true)

instance (d : Directories) : Decidable d.WellFormed := by
  unfold Directories.WellFormed; infer_instance

/-- What `fs::create_directory` answers for each of the three paths if it is called on
it; a call that answers true leaves the directory in place. -/
structure CreateResults where
  dataPath : Bool
  stationDir : Bool
  captures : Bool
  deriving DecidableEq, Repr

/-- Embedding of `AcqThread::buildRegularAcquisitionDirectory` (lines 677-789): the value
returned and the directories afterwards. `none` stands for control reaching the closing
brace of the function without a `return` statement. -/
def buildRegularAcquisitionDirectory (fs : Directories) (mk : CreateResults) :
    Option Bool × Directories :=
  if fs.dataPath then
    if fs.stationDir then
      if !fs.captures then
        if !mk.captures then (some false, fs)
        else (some true, { fs with captures := true })
      else (none, fs)
    else
      if !mk.stationDir then (some false, fs)
      else
        if !mk.captures then (some false, { fs with stationDir := true })
        else (some true, { fs with stationDir := true, captures := true })
  else
    if !mk.dataPath then (some false, fs)
    else
      if !mk.stationDir then (some false, { fs with dataPath := true })
      else
        if !mk.captures then (some false, { fs with dataPath := true, stationDir := true })
        else (some true, { dataPath := true, stationDir := true, captures := true })

/-- Conversion of an `int` to `short`: the value is kept modulo 2^16 in the range
-32768 .. 32767. -/
def toShort (x : Int) : Int :=
  (x + 32768) % 65536 - 32768

/-- The test of lines 918 and 1085, `ptr[j] - 32768 > 32767`, on the pixel value `v` read
through `unsigned short *` and promoted to `int`. -/
def saturationTaken (v : Nat) : Bool :=
  decide ((v : Int) - 32768 > 32767)

/-- Body of the inner loop of the MONO_12 conversion (lines 918-925 and 1085-1092): the
`short` stored in `ptr2[j]` for the pixel value `v`. -/
def convertPixel (v : Nat) : Int :=
  if saturationTaken v then 32767 else toShort ((v : Int) - 32768)

/-- The two nested loops over rows and columns (lines 911-927 and 1078-1094). -/
def convertImage (img : List (List Nat)) : List (List Int) :=
  img.map (fun row => row.map convertPixel)

/-- The value a reader of the file shows for a stored pixel: `bzero + bscale * stored`. -/
def physicalValue (bzero bscale stored : Int) : Int :=
  bzero + bscale * stored

/-! ## The call of a diversion, statement by statement -/

/-- What the save branch of one repetition meets once the single shot has succeeded:
whether the grabbed image holds data (`frame.getImg().data`, lines 850 and 1013), what
`fs::create_directory` would answer, and how many integers
`TimeDate::getIntVectorFromDateString` extracts from the date string
(`firstDateInt.size()`, lines 864 and 1029). -/
structure SaveInput where
  hasData : Bool
  create : CreateResults
  dateFields : Nat

/-- How control leaves a call of `runScheduledAcquisition` or `runRegularAcquisition`,
with the loop state and the directories at that point. Both routines are declared `bool`
and contain no `return` statement, so there is no case for a returned value:
`closingBrace` is control reaching the closing brace of the routine (lines 954, 1117)
after `acqRestart`, `builderClosingBrace` is control reaching the closing brace of
`buildRegularAcquisitionDirectory` without a `return` (line 789) inside the save branch,
and `outOfRange` is `std::out_of_range` thrown by `firstDateInt.at(..)` (lines 865, 1030),
which has no handler inside the routine. -/
inductive CallEnd where
  | closingBrace (s : LoopState) (dirs : Directories)
  | builderClosingBrace (s : LoopState) (dirs : Directories)
  | outOfRange (s : LoopState) (dirs : Directories)

/-- The loop state when control leaves the call. -/
def CallEnd.state : CallEnd → LoopState
  | .closingBrace s _ => s
  | .builderClosingBrace s _ => s
  | .outOfRange s _ => s

/-- The `for(int i = 0; i < n; i++)` loop of a diversion (lines 829-949 and 994-1112)
with its save branch, from repetition `i` on, `k` repetitions left: the single shot is
requested; if it succeeds and the image holds data, `buildRegularAcquisitionDirectory` is
called and, when it returns true, the date fields 3, 4 and 5 are read with `at`. The
loop either gets through all repetitions (`Except.ok`) or control leaves the routine from
inside the save branch. Writing the file only touches the file system. -/
def captureLoop (exposure gain format : Int) (shots : Nat → Bool) (saves : Nat → SaveInput) :
    Nat → Nat → LoopState → Directories → Except CallEnd (LoopState × Directories)
  | 0, _, st, dirs => .ok (st, dirs)
  | k + 1, i, st, dirs =>
    let st1 := st.emit [Event.grabSingleImage exposure gain format i (shots i)]
    if shots i then
      if (saves i).hasData then
        match buildRegularAcquisitionDirectory dirs (saves i).create with
        | (none, dirs1) => .error (CallEnd.builderClosingBrace st1 dirs1)
        | (some true, dirs1) =>
          if (saves i).dateFields < 6 then .error (CallEnd.outOfRange st1 dirs1)
          else captureLoop exposure gain format shots saves k (i + 1) st1 dirs1
        | (some false, dirs1) => captureLoop exposure gain format shots saves k (i + 1) st1 dirs1
      else captureLoop exposure gain format shots saves k (i + 1) st1 dirs
    else captureLoop exposure gain format shots saves k (i + 1) st1 dirs

/-- A call of `AcqThread::runScheduledAcquisition` (lines 791-954), statement by
statement, up to the point where control leaves it. -/
def runScheduledAcquisitionCall (cfg : Config) (st : LoopState) (task : AcqSchedule)
    (shots : Nat → Bool) (saves : Nat → SaveInput) (dirs : Directories) : CallEnd :=
  let st1 := stopAndInvalidate cfg (st.emit [Event.runScheduledAcquisition task])
  match captureLoop task.E task.G task.F shots saves task.N.toNat 0 st1 dirs with
  | .error e => e
  | .ok (st2, dirs2) => CallEnd.closingBrace (st2.emit [Event.acqRestart]) dirs2

/-- A call of `AcqThread::runRegularAcquisition` (lines 956-1117), statement by
statement, up to the point where control leaves it. -/
def runRegularAcquisitionCall (cfg : Config) (st : LoopState) (shots : Nat → Bool)
    (saves : Nat → SaveInput) (dirs : Directories) : CallEnd :=
  let st1 := stopAndInvalidate cfg (st.emit [Event.runRegularAcquisition])
  match captureLoop cfg.acqRegularExposure cfg.acqRegularGain cfg.acqRegularFormat shots saves
      cfg.acqRegularRepetition.toNat 0 st1 dirs with
  | .error e => e
  | .ok (st2, dirs2) => CallEnd.closingBrace (st2.emit [Event.acqRestart]) dirs2

/-- How a part of a tick ends: normally, by an exception leaving the tick, or with
control at a point from which the language defines no behaviour (the closing brace of a
`bool` function reached without a `return`). The state is the one at that point. -/
inductive Outcome where
  | ok (s : LoopState)
  | error (s : LoopState)
  | undefined (s : LoopState)

/-- The state in which a part of a tick ends. -/
def Outcome.state : Outcome → LoopState
  | .ok s => s
  | .error s => s
  | .undefined s => s

/-- A part of a tick that can only return or throw. -/
def Outcome.ofExcept : Except LoopState LoopState → Outcome
  | .ok s => Outcome.ok s
  | .error s => Outcome.error s

/-- What the caller of a diversion sees: an exception propagates, and a closing brace
reached without `return` leaves no defined behaviour. -/
def CallEnd.toOutcome : CallEnd → Outcome
  | .closingBrace s _ => Outcome.undefined s
  | .builderClosingBrace s _ => Outcome.undefined s
  | .outOfRange s _ => Outcome.error s

/-- What the collaborators answer during one tick, with what the save branches of the
diversions meet: the directories at the start of the tick and, per repetition, the
`SaveInput` of the regular and of the scheduled diversion. -/
structure CallInput where
  base : TickInput
  dirs : Directories
  regularSaves : Nat → SaveInput
  scheduledSaves : Nat → SaveInput

/-- Lines 334-358 with the call of line 341 as the source has it: control is handed to
`runRegularAcquisition`, which never hands back a value, so `sleep(1)` and the reset of
the counter (lines 342-343) are not part of the defined behaviour. -/
def regularCheckCall (cfg : Config) (st : LoopState) (currentTimeInSec : Int)
    (inp : CallInput) : Outcome :=
  if cfg.acqRegularEnabled then
    if regularNightTest st.win currentTimeInSec then
      if st.regularAcqFrameCounter ≥ st.regularAcqFrameInterval then
        (runRegularAcquisitionCall cfg st inp.base.regularShots inp.regularSaves
          inp.dirs).toOutcome
      else
        Outcome.ok { st with regularAcqFrameCounter := st.regularAcqFrameCounter + 1 }
    else
      Outcome.ok { st with regularAcqFrameCounter := 0 }
  else Outcome.ok st

/-- Lines 361-403 with the call of line 369 as the source has it: control is handed to
`runScheduledAcquisition`, which never hands back a value, so the re-selection of line
374 is not part of the defined behaviour. -/
def scheduleCheckCall (cfg : Config) (st : LoopState) (f : Frame) (inp : CallInput) :
    Outcome :=
  if st.sched.ACQ_SCHEDULE.length ≠ 0 && cfg.acqScheduleEnabled then
    if st.sched.nextTask.H = f.hour ∧ st.sched.nextTask.M = f.minute
        ∧ f.second = st.sched.nextTask.S then
      let task := { st.sched.nextTask with date := f.acqDateMicro }
      let st1 := { st with sched := { st.sched with nextTask := task } }
      (runScheduledAcquisitionCall cfg st1 task inp.base.scheduledShots inp.scheduledSaves
        inp.dirs).toOutcome
    else
      if f.hour > st.sched.nextTask.H then Outcome.ofExcept (selectNextInLoop st inp.base)
      else if f.hour = st.sched.nextTask.H then
        if f.minute > st.sched.nextTask.M then Outcome.ofExcept (selectNextInLoop st inp.base)
        else if f.minute = st.sched.nextTask.M then
          if f.second > st.sched.nextTask.S then
            Outcome.ofExcept (selectNextInLoop st inp.base)
          else Outcome.ok st
        else Outcome.ok st
      else Outcome.ok st
  else Outcome.ok st

/-- Lines 324-478 with the diversions called as the source has them. -/
def timeChecksCall (cfg : Config) (st : LoopState) (f : Frame) (inp : CallInput) : Outcome :=
  let currentTimeInSec := f.timeInSec
  match regularCheckCall cfg st currentTimeInSec inp with
  | .ok st1 =>
    match scheduleCheckCall cfg st1 f inp with
    | .ok st2 =>
      Outcome.ok (stackCheck cfg (exposureModeCheck cfg st2 currentTimeInSec) currentTimeInSec)
    | .error st2 => Outcome.error st2
    | .undefined st2 => Outcome.undefined st2
  | .error st1 => Outcome.error st1
  | .undefined st1 => Outcome.undefined st1

/-- One iteration of the inner loop (lines 226-486) with the diversions called as the
source has them: a tick in which a diversion is called does not end normally. -/
def tickCall (cfg : Config) (st : LoopState) (inp : CallInput) : Outcome :=
  match inp.base.grab with
  | some newFrame =>
    let st1 := exposureControl (frameSharing cfg st newFrame) newFrame inp.base.controlResult
    if !cfg.videoFramesInput then timeChecksCall cfg st1 newFrame inp else Outcome.ok st1
  | none => Outcome.ok { st with nbFailGrabbedFrames := st.nbFailGrabbedFrames + 1 }

/-- Consecutive ticks, as long as each ends normally. -/
def runTicksCall (cfg : Config) : LoopState → List CallInput → Outcome
  | s, [] => Outcome.ok s
  | s, inp :: rest =>
    match tickCall cfg s inp with
    | .ok s1 => runTicksCall cfg s1 rest
    | .error s1 => Outcome.error s1
    | .undefined s1 => Outcome.undefined s1

/-- The regular check of this tick hands control to `runRegularAcquisition` (tests of
lines 334, 336 and 338). -/
def regularDue (cfg : Config) (s : LoopState) (f : Frame) : Prop :=
  cfg.acqRegularEnabled = true ∧ regularNightTest s.win f.timeInSec = true ∧
    s.regularAcqFrameCounter ≥ s.regularAcqFrameInterval

instance (cfg : Config) (s : LoopState) (f : Frame) : Decidable (regularDue cfg s f) := by
  unfold regularDue; infer_instance

/-- A save branch in which everything goes through: the image holds data, every
directory can be created and the date string yields six integers. -/
def smoothSave : SaveInput :=
  { hasData := true, create := { dataPath := true, stationDir := true, captures := true },
    dateFields := 6 }

/-- The tick input `inp` on a station whose data directory exists, with no directory of
the day yet, every save going through. -/
def withSaves (inp : TickInput) : CallInput :=
  { base := inp, dirs := { dataPath := true, stationDir := false, captures := false },
    regularSaves := fun _ => smoothSave, scheduledSaves := fun _ => smoothSave }

/-- The same frame, stamped 01:00:00 (night), grabbed `n` times in a row. -/
def nightCalls (n : Nat) : List CallInput :=
  List.replicate n (withSaves (grabbed (frameAt 1 1 0 0) false))

/-- A frame numbered `n` stamped `h:m:s` on 21 January 2015. -/
def frameOn (n : Nat) (h m s : Int) : Frame :=
  { numFrame := n, hour := h, minute := m, second := s, acqDateMicro := "2015-01-21" }

/-- A station with two scheduled tasks, at 06:00:00 and 07:00:00, reading its frames
from a video file. -/
def videoScheduleConfig : Config :=
  { sampleConfig with
    schedule := [mkTask 6 0 0, mkTask 7 0 0],
    acqScheduleEnabled := true, acqDayEnabled := false, videoFramesInput := true }

/-- The state in which the loop of `videoScheduleConfig` is entered before 06:00:00: the
first task is armed. -/
def videoScheduleStart : LoopState :=
  { sampleStart with
    sched := { ACQ_SCHEDULE := [mkTask 6 0 0, mkTask 7 0 0], indexNextTask := 0,
               nextTask := mkTask 6 0 0 },
    autoExposure := false }

/-- The station of `regularConfig` with two scheduled tasks, at 00:30:00 and 02:00:00. -/
def regularScheduleConfig : Config :=
  { regularConfig with
    schedule := [mkTask 0 30 0, mkTask 2 0 0], acqScheduleEnabled := true,
    acqDayEnabled := false }

/-- A state of the loop of `regularScheduleConfig`: the task of 00:30:00 is armed and the
frame counter has reached the interval. -/
def regularScheduleDue : LoopState :=
  { sampleStart with
    sched := { ACQ_SCHEDULE := [mkTask 0 30 0, mkTask 2 0 0], indexNextTask := 0,
               nextTask := mkTask 0 30 0 },
    regularAcqFrameInterval := 10, regularAcqFrameCounter := 10, autoExposure := false }

/-- The station of `regularConfig` reading its frames from a video file. -/
def videoRegularConfig : Config :=
  { regularConfig with videoFramesInput := true }

/-- A task at 06:00:00 with three repetitions. -/
def threeShotTask : AcqSchedule :=
  { H := 6, M := 0, S := 0, E := 5000, G := 10, F := 8, N := 3, date := "2015-01-21" }

/-! ## Lemmas on the schedule table -/

theorem timeLe_refl (a : AcqSchedule) : timeLe a a := by
  unfold timeLe; omega

theorem timeLe_trans {a b c : AcqSchedule} (h1 : timeLe a b) (h2 : timeLe b c) :
    timeLe a c := by
  unfold timeLe at *; omega

theorem timeLe_total (a b : AcqSchedule) : timeLe a b ∨ timeLe b a := by
  unfold timeLe; omega

theorem scanStep_holds (pre rest : List AcqSchedule) (a e0 : AcqSchedule) (st : MinScan)
    (h : st.Holds (pre ++ a :: rest) e0) (hle : ∀ x ∈ pre, timeLe e0 x) :
    ∃ e, (scanStep st pre.length a).Holds (pre ++ a :: rest) e ∧
      ∀ x ∈ pre ++ [a], timeLe e x := by
  obtain ⟨hi, hsel, hH, hM, hS⟩ := h
  have hnew : (MinScan.select pre.length a).Holds (pre ++ a :: rest) a := by
    refine ⟨rfl, ?_, rfl, rfl, rfl⟩
    show (pre ++ a :: rest)[pre.length]? = some a
    rw [List.getElem?_append_right (Nat.le_refl _)]
    simp
  have hkeep : timeLe e0 a → ∃ e, st.Holds (pre ++ a :: rest) e ∧
      ∀ x ∈ pre ++ [a], timeLe e x := by
    intro h0
    refine ⟨e0, ⟨hi, hsel, hH, hM, hS⟩, ?_⟩
    intro x hx
    rcases List.mem_append.1 hx with hx | hx
    · exact hle x hx
    · simp at hx; subst hx; exact h0
  have htake : timeLe a e0 → ∃ e, (MinScan.select pre.length a).Holds (pre ++ a :: rest) e ∧
      ∀ x ∈ pre ++ [a], timeLe e x := by
    intro h0
    refine ⟨a, hnew, ?_⟩
    intro x hx
    rcases List.mem_append.1 hx with hx | hx
    · exact timeLe_trans h0 (hle x hx)
    · simp at hx; subst hx; exact timeLe_refl _
  unfold scanStep
  simp only [hi, Bool.not_true, Bool.false_eq_true, if_false]
  by_cases c1 : a.H < st.minH
  · rw [if_pos c1]; exact htake (by unfold timeLe; omega)
  · rw [if_neg c1]
    by_cases c2 : a.H = st.minH
    · rw [if_pos c2]
      by_cases c3 : a.M < st.minM
      · rw [if_pos c3]; exact htake (by unfold timeLe; omega)
      · rw [if_neg c3]
        by_cases c4 : a.M = st.minM
        · rw [if_pos c4]
          by_cases c5 : a.S < st.minS
          · rw [if_pos c5]; exact htake (by unfold timeLe; omega)
          · rw [if_neg c5]; exact hkeep (by unfold timeLe; omega)
        · rw [if_neg c4]; exact hkeep (by unfold timeLe; omega)
    · rw [if_neg c2]; exact hkeep (by unfold timeLe; omega)

theorem scanMin_holds (rest : List AcqSchedule) :
    ∀ (pre : List AcqSchedule) (st : MinScan) (e0 : AcqSchedule),
      st.Holds (pre ++ rest) e0 → (∀ x ∈ pre, timeLe e0 x) →
      ∃ e, (scanMin rest pre.length st).Holds (pre ++ rest) e ∧
        ∀ x ∈ pre ++ rest, timeLe e x := by
  induction rest with
  | nil =>
    intro pre st e0 h hle
    refine ⟨e0, by simpa [scanMin] using h, ?_⟩
    simpa using hle
  | cons a rest ih =>
    intro pre st e0 h hle
    obtain ⟨e, he, hle2⟩ := scanStep_holds pre rest a e0 st h hle
    have := ih (pre ++ [a]) (scanStep st pre.length a) e (by simpa using he) hle2
    simpa [scanMin] using this

/-- On a non-empty table the inner loop selects the position of a least entry. -/
theorem scanMin_start (a : AcqSchedule) (rest : List AcqSchedule) :
    ∃ e, (scanMin (a :: rest) 0 MinScan.start).Holds (a :: rest) e ∧
      ∀ x ∈ a :: rest, timeLe e x := by
  have h0 : (scanStep MinScan.start 0 a).Holds ([a] ++ rest) a := by
    refine ⟨rfl, ?_, rfl, rfl, rfl⟩
    simp [scanStep, MinScan.start, MinScan.select]
  have := scanMin_holds rest [a] (scanStep MinScan.start 0 a) a h0
    (by intro x hx; simp at hx; subst hx; exact timeLe_refl _)
  simpa [scanMin] using this

theorem perm_eraseIdx_of_getElem? :
    ∀ (l : List AcqSchedule) (i : Nat) (e : AcqSchedule),
      l[i]? = some e → l.Perm (e :: l.eraseIdx i) := by
  intro l
  induction l with
  | nil => intro i e h; simp at h
  | cons a l ih =>
    intro i e h
    cases i with
    | zero => simp at h; subst h; simp
    | succ i =>
      simp at h
      have := ih i e h
      simp only [List.eraseIdx_cons_succ]
      exact (List.Perm.cons a this).trans (List.Perm.swap e a _)

/-- Invariant of the outer loop of the selection sort: with enough fuel it ends, the
result is ordered and it is a rearrangement of what was collected plus what is left. -/
theorem sortLoop_spec :
    ∀ (fuel : Nat) (sched temp : List AcqSchedule),
      sched ≠ [] → sched.length ≤ fuel →
      temp.Pairwise timeLe → (∀ x ∈ temp, ∀ y ∈ sched, timeLe x y) →
      ∃ r, sortLoop fuel sched temp = some r ∧ r.Pairwise timeLe ∧
        r.Perm (temp ++ sched) := by
  intro fuel
  induction fuel with
  | zero =>
    intro sched temp hne hlen
    cases sched with
    | nil => exact absurd rfl hne
    | cons a l => simp at hlen
  | succ fuel ih =>
    intro sched temp hne hlen hsorted hsep
    cases sched with
    | nil => exact absurd rfl hne
    | cons a l =>
      obtain ⟨e, ⟨hinit, hsel, -, -, -⟩, hmin⟩ := scanMin_start a l
      have hperm := perm_eraseIdx_of_getElem? (a :: l) _ e hsel
      have hlen2 : ((a :: l).eraseIdx (scanMin (a :: l) 0 MinScan.start).it_select).length
          = l.length := by
        have := hperm.length_eq
        simp at this; omega
      have hsorted2 : (temp ++ [e]).Pairwise timeLe := by
        rw [List.pairwise_append]
        refine ⟨hsorted, List.pairwise_singleton _ _, ?_⟩
        intro x hx y hy
        simp at hy; subst hy
        exact hsep x hx y (hperm.mem_iff.2 (List.mem_cons_self _ _))
      have hsep2 : ∀ x ∈ temp ++ [e],
          ∀ y ∈ (a :: l).eraseIdx (scanMin (a :: l) 0 MinScan.start).it_select,
            timeLe x y := by
        intro x hx y hy
        have hy2 : y ∈ a :: l := hperm.mem_iff.2 (List.mem_cons_of_mem _ hy)
        rcases List.mem_append.1 hx with hx | hx
        · exact hsep x hx y hy2
        · simp at hx; subst hx; exact hmin y hy2
      have hpermAll : (temp ++ [e] ++
          (a :: l).eraseIdx (scanMin (a :: l) 0 MinScan.start).it_select).Perm
          (temp ++ (a :: l)) := by
        rw [List.append_assoc]
        exact List.Perm.append_left temp hperm.symm
      unfold sortLoop
      simp only [hinit, if_true, hsel]
      by_cases hrest : ((a :: l).eraseIdx
          (scanMin (a :: l) 0 MinScan.start).it_select).length ≠ 0
      · rw [if_pos hrest]
        have hne2 : (a :: l).eraseIdx (scanMin (a :: l) 0 MinScan.start).it_select ≠ [] := by
          intro h; rw [h] at hrest; simp at hrest
        obtain ⟨r, hr, hrs, hrp⟩ := ih _ (temp ++ [e]) hne2
          (by rw [hlen2]; simpa using hlen) hsorted2 hsep2
        exact ⟨r, hr, hrs, hrp.trans hpermAll⟩
      · rw [if_neg hrest]
        refine ⟨temp ++ [e], rfl, hsorted2, ?_⟩
        have hnil : (a :: l).eraseIdx (scanMin (a :: l) 0 MinScan.start).it_select = [] := by
          apply List.eq_nil_of_length_eq_zero; omega
        rw [hnil] at hpermAll
        simpa using hpermAll

theorem taskIsLater_iff (h m s : Int) (e : AcqSchedule) :
    taskIsLater h m s e = true ↔ laterThan h m s e := by
  unfold taskIsLater laterThan
  by_cases c1 : h < e.H
  · simp [c1]
  · by_cases c2 : h = e.H
    · by_cases c3 : m < e.M
      · simp [c2, c3]
      · by_cases c4 : m = e.M
        · by_cases c5 : s < e.S
          · simp [c2, c4, c5]
          · simp [c2, c4, c5]
        · simp [c1, c2, c3, c4]
    · simp [c1, c2]

/-- When some entry is strictly later, the search loop stops at the first such entry. -/
theorem searchLoop_found (h m s : Int) :
    ∀ (l : List AcqSchedule) (i : Nat) (idx : Int),
      (∃ e ∈ l, laterThan h m s e) →
      ∃ (k : Nat) (task : AcqSchedule), searchLoop h m s l i idx = ((i + k : Nat) : Int) ∧
        l[k]? = some task ∧ laterThan h m s task ∧
        ∀ j, j < k → ∀ e, l[j]? = some e → ¬ laterThan h m s e := by
  intro l
  induction l with
  | nil => intro i idx ⟨e, he, _⟩; simp at he
  | cons a l ih =>
    intro i idx hex
    by_cases ha : laterThan h m s a
    · refine ⟨0, a, ?_, by simp, ha, ?_⟩
      · simp [searchLoop, (taskIsLater_iff h m s a).2 ha]
      · intro j hj; omega
    · have hex2 : ∃ e ∈ l, laterThan h m s e := by
        obtain ⟨e, he, hl⟩ := hex
        rcases List.mem_cons.1 he with rfl | he
        · exact absurd hl ha
        · exact ⟨e, he, hl⟩
      obtain ⟨k, task, hk, hget, hlater, hmin⟩ := ih (i + 1) idx hex2
      have hfalse : taskIsLater h m s a = false := by
        cases hb : taskIsLater h m s a with
        | false => rfl
        | true => exact absurd ((taskIsLater_iff h m s a).1 hb) ha
      refine ⟨k + 1, task, ?_, by simpa using hget, hlater, ?_⟩
      · simp only [searchLoop, hfalse, Bool.false_eq_true, if_false, hk]
        congr 1; omega
      · intro j hj e he
        cases j with
        | zero => simp at he; subst he; exact ha
        | succ j => exact hmin j (by omega) e (by simpa using he)

/-- When no entry is strictly later, the search loop leaves the cursor untouched. -/
theorem searchLoop_none (h m s : Int) :
    ∀ (l : List AcqSchedule) (i : Nat) (idx : Int),
      (∀ e ∈ l, ¬ laterThan h m s e) → searchLoop h m s l i idx = idx := by
  intro l
  induction l with
  | nil => intro i idx _; rfl
  | cons a l ih =>
    intro i idx hno
    have hfalse : taskIsLater h m s a = false := by
      cases hb : taskIsLater h m s a with
      | false => rfl
      | true => exact absurd ((taskIsLater_iff h m s a).1 hb) (hno a (List.mem_cons_self _ _))
    simp only [searchLoop, hfalse, Bool.false_eq_true, if_false]
    exact ih (i + 1) idx (fun e he => hno e (List.mem_cons_of_mem _ he))

theorem scheduleAt_natCast (l : List AcqSchedule) (k : Nat) :
    scheduleAt l (k : Int) = l[k]? := by
  simp [scheduleAt]

/-- Full description of a call that finds a later entry. -/
theorem selectNext_found (st : ScheduleState) (h m s : Int)
    (hex : ∃ e ∈ st.ACQ_SCHEDULE, laterThan h m s e) :
    ∃ (k : Nat) (task : AcqSchedule),
      selectNextAcquisitionSchedule st h m s
        = .ok { st with indexNextTask := (k : Int), nextTask := task } ∧
      st.ACQ_SCHEDULE[k]? = some task ∧ laterThan h m s task ∧
      ∀ j, j < k → ∀ e, st.ACQ_SCHEDULE[j]? = some e → ¬ laterThan h m s e := by
  obtain ⟨k, task, hk, hget, hlater, hmin⟩ :=
    searchLoop_found h m s st.ACQ_SCHEDULE 0 st.indexNextTask hex
  have hne : st.ACQ_SCHEDULE.length ≠ 0 := by
    obtain ⟨e, he, _⟩ := hex
    intro h0
    rw [List.length_eq_zero] at h0
    rw [h0] at he; simp at he
  refine ⟨k, task, ?_, hget, hlater, hmin⟩
  unfold selectNextAcquisitionSchedule
  simp only [hne, ne_eq, not_false_eq_true, if_true, hk, Nat.zero_add,
    scheduleAt_natCast, hget]

/-- Full description of a call that finds no later entry. -/
theorem selectNext_not_found (st : ScheduleState) (h m s : Int)
    (hne : st.ACQ_SCHEDULE ≠ [])
    (hno : ∀ e ∈ st.ACQ_SCHEDULE, ¬ laterThan h m s e) :
    selectNextAcquisitionSchedule st h m s =
      match scheduleAt st.ACQ_SCHEDULE st.indexNextTask with
      | some task => .ok { st with nextTask := task }
      | none => .error st := by
  have hlen : st.ACQ_SCHEDULE.length ≠ 0 := by
    intro h0; exact hne (List.length_eq_zero.1 h0)
  unfold selectNextAcquisitionSchedule
  simp only [hlen, ne_eq, not_false_eq_true, if_true,
    searchLoop_none h m s st.ACQ_SCHEDULE 0 st.indexNextTask hno]

/-- A normal return never changes the table, and the new cursor points into it at the
armed task. -/
theorem selectNext_ok_inv (st st1 : ScheduleState) (h m s : Int)
    (hne : st.ACQ_SCHEDULE ≠ [])
    (hok : selectNextAcquisitionSchedule st h m s = .ok st1) :
    st1.ACQ_SCHEDULE = st.ACQ_SCHEDULE ∧
      scheduleAt st1.ACQ_SCHEDULE st1.indexNextTask = some st1.nextTask := by
  by_cases hex : ∃ e ∈ st.ACQ_SCHEDULE, laterThan h m s e
  · obtain ⟨k, task, hsel, hget, -, -⟩ := selectNext_found st h m s hex
    rw [hsel] at hok
    cases hok
    exact ⟨rfl, by simpa [scheduleAt_natCast] using hget⟩
  · have hno : ∀ e ∈ st.ACQ_SCHEDULE, ¬ laterThan h m s e := by
      intro e he hl; exact hex ⟨e, he, hl⟩
    rw [selectNext_not_found st h m s hne hno] at hok
    cases hc : scheduleAt st.ACQ_SCHEDULE st.indexNextTask with
    | none => rw [hc] at hok; cases hok
    | some task =>
      rw [hc] at hok
      cases hok
      exact ⟨rfl, hc⟩

/-- With a cursor that points into the table the call returns normally. -/
theorem selectNext_ok_of_valid (st : ScheduleState) (h m s : Int)
    (hc : (scheduleAt st.ACQ_SCHEDULE st.indexNextTask).isSome = true) :
    ∃ st1, selectNextAcquisitionSchedule st h m s = .ok st1 := by
  by_cases hne : st.ACQ_SCHEDULE = []
  · refine ⟨st, ?_⟩
    simp [selectNextAcquisitionSchedule, hne]
  · by_cases hex : ∃ e ∈ st.ACQ_SCHEDULE, laterThan h m s e
    · obtain ⟨k, task, hsel, -⟩ := selectNext_found st h m s hex
      exact ⟨_, hsel⟩
    · have hno : ∀ e ∈ st.ACQ_SCHEDULE, ¬ laterThan h m s e := by
        intro e he hl; exact hex ⟨e, he, hl⟩
      rw [selectNext_not_found st h m s hne hno]
      cases hc2 : scheduleAt st.ACQ_SCHEDULE st.indexNextTask with
      | none => rw [hc2] at hc; simp at hc
      | some task => exact ⟨_, rfl⟩

/-! ## Claims on the schedule table -/

/-- C1: for every schedule table, `sortAcquisitionSchedule` ends (any iteration bound of
at least the table size is enough) and in the resulting table every adjacent pair of
entries is non-decreasing in the lexicographic order on (hour, minute, second). -/
theorem sortAcquisitionSchedule_ordered (fuel : Nat) (sched : List AcqSchedule)
    (hfuel : sched.length ≤ fuel) :
    ∃ r, sortAcquisitionSchedule fuel sched = some r ∧
      ∀ (i : Nat) (a b : AcqSchedule), r[i]? = some a → r[i + 1]? = some b → timeLe a b := by
  unfold sortAcquisitionSchedule
  by_cases hne : sched.length ≠ 0
  · rw [if_pos hne]
    have hne2 : sched ≠ [] := by
      intro h; rw [h] at hne; simp at hne
    obtain ⟨r, hr, hsorted, -⟩ := sortLoop_spec fuel sched [] hne2 hfuel
      List.Pairwise.nil (by intro x hx; simp at hx)
    refine ⟨r, hr, ?_⟩
    intro i a b ha hb
    obtain ⟨hi, rfl⟩ := List.getElem?_eq_some.1 ha
    obtain ⟨hj, rfl⟩ := List.getElem?_eq_some.1 hb
    exact (List.pairwise_iff_getElem.1 hsorted) i (i + 1) hi hj (Nat.lt_succ_self i)
  · rw [if_neg hne]
    refine ⟨sched, rfl, ?_⟩
    intro i a b ha
    have h0 : sched = [] := List.length_eq_zero.1 (by omega)
    rw [h0] at ha; simp at ha

/-- Witness for C1 on a table of three tasks. -/
theorem sortAcquisitionSchedule_ordered_witness :
    ∃ r, sortAcquisitionSchedule 3 [mkTask 6 0 0, mkTask 3 30 0, mkTask 3 10 5] = some r ∧
      ∀ (i : Nat) (a b : AcqSchedule), r[i]? = some a → r[i + 1]? = some b → timeLe a b :=
  sortAcquisitionSchedule_ordered 3 [mkTask 6 0 0, mkTask 3 30 0, mkTask 3 10 5] (by decide)

/-- C2: on a table holding an entry strictly later than the time of day `(h, m, s)`,
`selectNextAcquisitionSchedule` returns normally, sets the cursor to the least index `k`
whose entry is strictly later and arms that entry. Hence it arms entry 0 when the time
is strictly before all entries, and on an ordered table it arms entry `i + 1` when
entry `i` is not later than the time and entry `i + 1` is. -/
theorem selectNext_first_later (st : ScheduleState) (h m s : Int)
    (hne : st.ACQ_SCHEDULE ≠ [])
    (hex : ∃ e ∈ st.ACQ_SCHEDULE, laterThan h m s e) :
    ∃ (k : Nat) (task : AcqSchedule),
      selectNextAcquisitionSchedule st h m s
        = .ok { st with indexNextTask := (k : Int), nextTask := task } ∧
      st.ACQ_SCHEDULE[k]? = some task ∧ laterThan h m s task ∧
      (∀ j, j < k → ∀ e, st.ACQ_SCHEDULE[j]? = some e → ¬ laterThan h m s e) ∧
      ((∀ e ∈ st.ACQ_SCHEDULE, laterThan h m s e) → k = 0) ∧
      (st.ACQ_SCHEDULE.Chain' timeLe →
        ∀ (i : Nat) (a b : AcqSchedule), st.ACQ_SCHEDULE[i]? = some a →
          st.ACQ_SCHEDULE[i + 1]? = some b → ¬ laterThan h m s a → laterThan h m s b →
          k = i + 1 ∧ task = b) := by
  have _ := hne
  obtain ⟨k, task, hsel, hget, hlater, hmin⟩ := selectNext_found st h m s hex
  refine ⟨k, task, hsel, hget, hlater, hmin, ?_, ?_⟩
  · intro hall
    cases k with
    | zero => rfl
    | succ k =>
      cases hl : st.ACQ_SCHEDULE with
      | nil => rw [hl] at hget; simp at hget
      | cons a l =>
        exact absurd (hall a (by rw [hl]; exact List.mem_cons_self _ _))
          (hmin 0 (Nat.succ_pos k) a (by rw [hl]; simp))
  · intro hchain i a b ha hb hna hlb
    have hpw : st.ACQ_SCHEDULE.Pairwise timeLe := List.chain'_iff_pairwise.1 hchain
    have hki : k ≤ i + 1 := by
      by_contra hcon
      exact hmin (i + 1) (by omega) b hb hlb
    have hik : i < k := by
      by_contra hcon
      have hk_le : k ≤ i := by omega
      rcases Nat.eq_or_lt_of_le hk_le with heq | hlt
      · rw [heq, ha] at hget
        cases hget
        exact hna hlater
      · obtain ⟨hk1, hk2⟩ := List.getElem?_eq_some.1 hget
        obtain ⟨hi1, hi2⟩ := List.getElem?_eq_some.1 ha
        have := (List.pairwise_iff_getElem.1 hpw) k i hk1 hi1 hlt
        rw [hk2, hi2] at this
        apply hna
        unfold timeLe at this
        unfold laterThan at hlater ⊢
        omega
    have hk : k = i + 1 := by omega
    refine ⟨hk, ?_⟩
    rw [hk, hb] at hget
    cases hget; rfl

/-- Witness for C2: at 03:20:00 the table 03:10:05, 03:30:00, 06:00:00 has later entries. -/
theorem selectNext_first_later_witness :
    ∃ (k : Nat) (task : AcqSchedule),
      selectNextAcquisitionSchedule
        { ACQ_SCHEDULE := [mkTask 3 10 5, mkTask 3 30 0, mkTask 6 0 0],
          indexNextTask := 0, nextTask := mkTask 0 0 0 } 3 20 0
        = .ok { ACQ_SCHEDULE := [mkTask 3 10 5, mkTask 3 30 0, mkTask 6 0 0],
                indexNextTask := (k : Int), nextTask := task } ∧
      k = 1 ∧ task = mkTask 3 30 0 := by
  obtain ⟨k, task, hsel, hget, -, -, -, hbetween⟩ :=
    selectNext_first_later
      { ACQ_SCHEDULE := [mkTask 3 10 5, mkTask 3 30 0, mkTask 6 0 0],
        indexNextTask := 0, nextTask := mkTask 0 0 0 } 3 20 0
      (by decide) ⟨mkTask 6 0 0, by decide, by decide⟩
  have := hbetween (by simp [timeLe, mkTask]) 0 (mkTask 3 10 5) (mkTask 3 30 0) rfl rfl
    (by decide) (by decide)
  exact ⟨k, task, hsel, by simpa using this.1, this.2⟩

/-- C3: on a non-empty table in which no entry is strictly later than `(h, m, s)`, with
the previous cursor `c` pointing at the entry `task` of the table,
`selectNextAcquisitionSchedule` returns normally with the cursor still equal to `c` and
with `task` (the entry at `c`) armed: no wrap to the first entry, no cleared task. -/
theorem selectNext_keeps_cursor (st : ScheduleState) (h m s : Int) (task : AcqSchedule)
    (hne : st.ACQ_SCHEDULE ≠ [])
    (hno : ∀ e ∈ st.ACQ_SCHEDULE, ¬ laterThan h m s e)
    (hc : scheduleAt st.ACQ_SCHEDULE st.indexNextTask = some task) :
    selectNextAcquisitionSchedule st h m s
      = .ok { ACQ_SCHEDULE := st.ACQ_SCHEDULE, indexNextTask := st.indexNextTask,
              nextTask := task } := by
  rw [selectNext_not_found st h m s hne hno, hc]

/-- Witness for C3: at 07:00:00 every entry has passed; the cursor stays on index 1. -/
theorem selectNext_keeps_cursor_witness :
    selectNextAcquisitionSchedule
        { ACQ_SCHEDULE := [mkTask 3 10 5, mkTask 3 30 0, mkTask 6 0 0],
          indexNextTask := 1, nextTask := mkTask 0 0 0 } 7 0 0
      = .ok { ACQ_SCHEDULE := [mkTask 3 10 5, mkTask 3 30 0, mkTask 6 0 0],
              indexNextTask := 1, nextTask := mkTask 3 30 0 } :=
  selectNext_keeps_cursor
    { ACQ_SCHEDULE := [mkTask 3 10 5, mkTask 3 30 0, mkTask 6 0 0],
      indexNextTask := 1, nextTask := mkTask 0 0 0 } 7 0 0 (mkTask 3 30 0)
    (by decide) (by decide) (by decide)

/-- C4: the cursor never moves backwards between two successive selections at times of
day `t1 ≤ t2` (lexicographic): on every non-empty table and for every starting cursor,
when `selectNext(t1)` and then `selectNext(t2)` return, the cursor after the second call
is at least the cursor after the first; and both calls do return whenever the starting
cursor points into the table. -/
theorem selectNext_cursor_monotone (st : ScheduleState) (h1 m1 s1 h2 m2 s2 : Int)
    (hne : st.ACQ_SCHEDULE ≠ [])
    (hle : todLe h1 m1 s1 h2 m2 s2) :
    (∀ st1 st2, selectNextAcquisitionSchedule st h1 m1 s1 = .ok st1 →
        selectNextAcquisitionSchedule st1 h2 m2 s2 = .ok st2 →
        st1.indexNextTask ≤ st2.indexNextTask) ∧
    ((scheduleAt st.ACQ_SCHEDULE st.indexNextTask).isSome = true →
      ∃ st1 st2, selectNextAcquisitionSchedule st h1 m1 s1 = .ok st1 ∧
        selectNextAcquisitionSchedule st1 h2 m2 s2 = .ok st2) := by
  constructor
  · intro st1 st2 hok1 hok2
    obtain ⟨hsched, -⟩ := selectNext_ok_inv st st1 h1 m1 s1 hne hok1
    have hne1 : st1.ACQ_SCHEDULE ≠ [] := by rw [hsched]; exact hne
    by_cases hex2 : ∃ e ∈ st1.ACQ_SCHEDULE, laterThan h2 m2 s2 e
    · obtain ⟨k2, task2, hsel2, hget2, hlater2, -⟩ := selectNext_found st1 h2 m2 s2 hex2
      have hex1 : ∃ e ∈ st.ACQ_SCHEDULE, laterThan h1 m1 s1 e := by
        obtain ⟨e, he, hl⟩ := hex2
        refine ⟨e, by rw [← hsched]; exact he, ?_⟩
        unfold laterThan at hl ⊢
        unfold todLe at hle
        omega
      obtain ⟨k1, task1, hsel1, -, -, hmin1⟩ := selectNext_found st h1 m1 s1 hex1
      rw [hsel1] at hok1
      cases hok1
      rw [hsel2] at hok2
      cases hok2
      show (k1 : Int) ≤ (k2 : Int)
      have : k1 ≤ k2 := by
        by_contra hcon
        apply hmin1 k2 (by omega) task2 hget2
        unfold laterThan at hlater2 ⊢
        unfold todLe at hle
        omega
      exact_mod_cast this
    · have hno : ∀ e ∈ st1.ACQ_SCHEDULE, ¬ laterThan h2 m2 s2 e := by
        intro e he hl; exact hex2 ⟨e, he, hl⟩
      rw [selectNext_not_found st1 h2 m2 s2 hne1 hno] at hok2
      cases hc : scheduleAt st1.ACQ_SCHEDULE st1.indexNextTask with
      | none => rw [hc] at hok2; cases hok2
      | some task =>
        rw [hc] at hok2
        cases hok2
        exact le_refl _
  · intro hc
    obtain ⟨st1, hok1⟩ := selectNext_ok_of_valid st h1 m1 s1 hc
    obtain ⟨-, hvalid⟩ := selectNext_ok_inv st st1 h1 m1 s1 hne hok1
    obtain ⟨st2, hok2⟩ := selectNext_ok_of_valid st1 h2 m2 s2 (by rw [hvalid]; rfl)
    exact ⟨st1, st2, hok1, hok2⟩

/-- Witness for C4: selections at 03:00:00 and then 03:20:00 move the cursor from 0 to 1. -/
theorem selectNext_cursor_monotone_witness :
    (∀ st1 st2,
        selectNextAcquisitionSchedule
          { ACQ_SCHEDULE := [mkTask 3 10 5, mkTask 3 30 0, mkTask 6 0 0],
            indexNextTask := 2, nextTask := mkTask 0 0 0 } 3 0 0 = .ok st1 →
        selectNextAcquisitionSchedule st1 3 20 0 = .ok st2 →
        st1.indexNextTask ≤ st2.indexNextTask) ∧
    ∃ st1 st2,
      selectNextAcquisitionSchedule
        { ACQ_SCHEDULE := [mkTask 3 10 5, mkTask 3 30 0, mkTask 6 0 0],
          indexNextTask := 2, nextTask := mkTask 0 0 0 } 3 0 0 = .ok st1 ∧
      selectNextAcquisitionSchedule st1 3 20 0 = .ok st2 :=
  ⟨(selectNext_cursor_monotone
      { ACQ_SCHEDULE := [mkTask 3 10 5, mkTask 3 30 0, mkTask 6 0 0],
        indexNextTask := 2, nextTask := mkTask 0 0 0 } 3 0 0 3 20 0
      (by decide) (by unfold todLe; decide)).1,
   (selectNext_cursor_monotone
      { ACQ_SCHEDULE := [mkTask 3 10 5, mkTask 3 30 0, mkTask 6 0 0],
        indexNextTask := 2, nextTask := mkTask 0 0 0 } 3 0 0 3 20 0
      (by decide) (by unfold todLe; decide)).2 (by decide)⟩

/-! ## Claims on the frame buffer -/

/-- Pushing into an empty buffer of capacity `C` keeps the last `C` frames. -/
theorem pushFrames_from_empty (C : Nat) (frames : List Frame) :
    pushFrames { capacity := C, items := [] } frames
      = { capacity := C, items := frames.drop (frames.length - C) } := by
  induction frames using List.reverseRecOn with
  | nil => simp [pushFrames]
  | append_singleton l a ih =>
    have hstep : pushFrames { capacity := C, items := [] } (l ++ [a])
        = (pushFrames { capacity := C, items := [] } l).push_back a := by
      simp [pushFrames, List.foldl_append]
    rw [hstep, ih]
    unfold CircularBuffer.push_back
    simp only [List.length_drop, List.length_append, List.length_singleton]
    by_cases hfull : l.length - (l.length - C) = C
    · rw [if_pos hfull]
      by_cases hC : C = 0
      · subst hC
        simp
      · have hle : l.length - C + 1 ≤ l.length := by omega
        have hne : (List.drop (l.length - C) l).isEmpty = false := by
          rw [List.isEmpty_eq_false_iff_exists_mem]
          have : 0 < (List.drop (l.length - C) l).length := by
            rw [List.length_drop]; omega
          obtain ⟨x, hx⟩ := List.exists_mem_of_length_pos this
          exact ⟨x, hx⟩
        simp only [hne, Bool.false_eq_true, if_false, List.tail_drop]
        congr 1
        have h2 : l.length + 1 - C = l.length - C + 1 := by omega
        rw [h2, List.drop_append_of_le_length hle]
    · rw [if_neg hfull]
      have h1 : l.length - C = 0 := by omega
      have h2 : l.length + 1 - C = 0 := by omega
      simp [h1, h2]

/-- C5: for every capacity `C` and every sequence of `N` frames pushed into an initially
empty frame buffer of capacity `C`, the buffer ends holding exactly the last `min N C`
pushed frames in push order, it never holds more than `C` frames on the way, and a
capacity-3 buffer receiving frames 1, 2, 3, 4 ends as 2, 3, 4. -/
theorem pushFrames_keeps_last (C : Nat) (frames : List Frame) :
    (pushFrames { capacity := C, items := [] } frames).items
        = frames.drop (frames.length - min frames.length C) ∧
    (pushFrames { capacity := C, items := [] } frames).items.length = min frames.length C ∧
    (∀ n, (pushFrames { capacity := C, items := [] } (frames.take n)).items.length ≤ C) ∧
    (pushFrames { capacity := 3, items := [] }
        [frameAt 1 0 0 0, frameAt 2 0 0 0, frameAt 3 0 0 0, frameAt 4 0 0 0]).items
      = [frameAt 2 0 0 0, frameAt 3 0 0 0, frameAt 4 0 0 0] := by
  refine ⟨?_, ?_, ?_, ?_⟩
  · rw [pushFrames_from_empty]
    show frames.drop _ = frames.drop _
    congr 1; omega
  · rw [pushFrames_from_empty]
    show (frames.drop _).length = _
    rw [List.length_drop]; omega
  · intro n
    rw [pushFrames_from_empty]
    show (List.drop _ _).length ≤ C
    rw [List.length_drop]; omega
  · rw [pushFrames_from_empty]; rfl

/-! ## Claims on the day/night tests -/

/-- C6 (evaluation at the failing input): with the boundaries 06:00:00, 06:30:00, 18:00:00,
18:30:00 and the second of day 21600 (the start of the sunrise window), none of the three
tests of the loop holds; the same happens at 64800, the start of the sunset window. -/
theorem no_test_holds_at_window_start :
    sunriseSunsetTest sampleWindow 21600 = false ∧ dayTest sampleWindow 21600 = false ∧
      nightTest sampleWindow 21600 = false ∧
    sunriseSunsetTest sampleWindow 64800 = false ∧ dayTest sampleWindow 64800 = false ∧
      nightTest sampleWindow 64800 = false := by
  decide

/-- C7 (evaluation at the failing input): the loop of `sampleConfig` is entered in
`sampleStart` with the sunrise window starting at second 21600; a frame grabbed at
06:00:00, the first second of that window, leaves `exposureControlActive` false, while a
frame grabbed one second later sets it. -/
theorem metering_off_at_sunrise_start :
    startup sampleConfig 0 (mkTask 0 0 0) 5 59 59 { capacity := 3, items := [] } false false
      = some sampleStart ∧
    (∃ s1, tick sampleConfig sampleStart (grabbed (frameAt 1 6 0 0) false) = .ok s1 ∧
      s1.exposureControlActive = false) ∧
    (∃ s1, tick sampleConfig sampleStart (grabbed (frameAt 1 6 0 1) false) = .ok s1 ∧
      s1.exposureControlActive = true) := by
  refine ⟨by decide, ⟨_, rfl, by decide⟩, ⟨_, rfl, by decide⟩⟩

/-! ## How the parts of a tick act on the state -/

theorem clear_clear (b : CircularBuffer) : b.clear.clear = b.clear := rfl

theorem Calm.calm_refl (s : LoopState) : Calm s s :=
  ⟨rfl, rfl, rfl, [], by simp, by simp⟩

theorem Calm.calm_then {a b c : LoopState} (h1 : Calm a b) (h2 : Calm b c) : Calm a c := by
  obtain ⟨w1, a1, x1, r1, t1, p1⟩ := h1
  obtain ⟨w2, a2, x2, r2, t2, p2⟩ := h2
  refine ⟨w2.trans w1, a2.trans a1, x2.trans x1, r1 ++ r2, ?_, ?_⟩
  · rw [t2, t1, List.append_assoc]
  · intro e he
    rcases List.mem_append.1 he with he | he
    · exact p1 e he
    · exact p2 e he

theorem Withheld.withheld_refl (s : LoopState) : Withheld s s :=
  ⟨⟨[], by simp, by simp⟩, Or.inl rfl, id, id⟩

theorem Withheld.withheld_then {a b c : LoopState} (h1 : Withheld a b) (h2 : Withheld b c) :
    Withheld a c := by
  obtain ⟨⟨r1, t1, p1⟩, b1, d1, k1⟩ := h1
  obtain ⟨⟨r2, t2, p2⟩, b2, d2, k2⟩ := h2
  refine ⟨⟨r1 ++ r2, ?_, ?_⟩, ?_, fun h => d1 (d2 h), fun h => k1 (k2 h)⟩
  · rw [t2, t1, List.append_assoc]
  · intro e he
    rcases List.mem_append.1 he with he | he
    · exact p1 e he
    · exact p2 e he
  · rcases b1 with b1 | b1 <;> rcases b2 with b2 | b2
    · exact Or.inl (b2.trans b1)
    · exact Or.inr (by rw [b2, b1])
    · exact Or.inr (b2.trans b1)
    · exact Or.inr (by rw [b2, b1, clear_clear])

theorem Passive.passive_refl (s : LoopState) : Passive s s :=
  ⟨Calm.calm_refl s, Withheld.withheld_refl s, rfl⟩

theorem Passive.passive_then {a b c : LoopState} (h1 : Passive a b) (h2 : Passive b c) :
    Passive a c :=
  ⟨h1.calm.calm_then h2.calm, h1.withheld.withheld_then h2.withheld, h2.status.trans h1.status⟩

/-- Emitting events that neither forward a frame nor write the exposure is passive. -/
theorem passive_emit (s : LoopState) (es : List Event)
    (h : ∀ e ∈ es, e.forwards = false ∧ e.exposureWrite = false) :
    Passive s (s.emit es) :=
  ⟨⟨rfl, rfl, rfl, es, rfl, fun e he => (h e he).2⟩,
   ⟨⟨es, rfl, fun e he => (h e he).1⟩, Or.inl rfl, id, id⟩, rfl⟩

theorem passive_cleanStatus (s : LoopState) (b : Bool) :
    Passive s { s with cleanStatus := b } :=
  ⟨⟨rfl, rfl, rfl, [], by simp, by simp⟩,
   ⟨⟨[], by simp, by simp⟩, Or.inl rfl, id, id⟩, rfl⟩

theorem passive_counter (s : LoopState) (n : Int) :
    Passive s { s with regularAcqFrameCounter := n } :=
  ⟨⟨rfl, rfl, rfl, [], by simp, by simp⟩,
   ⟨⟨[], by simp, by simp⟩, Or.inl rfl, id, id⟩, rfl⟩

theorem passive_enable (s : LoopState) (b : Bool) :
    Passive s { s with enableStackThread := b } :=
  ⟨⟨rfl, rfl, rfl, [], by simp, by simp⟩,
   ⟨⟨[], by simp, by simp⟩, Or.inl rfl, id, id⟩, rfl⟩

theorem passive_sched (s : LoopState) (ss : ScheduleState) :
    Passive s { s with sched := ss } :=
  ⟨⟨rfl, rfl, rfl, [], by simp, by simp⟩,
   ⟨⟨[], by simp, by simp⟩, Or.inl rfl, id, id⟩, rfl⟩

theorem silenceStack_passive (s : LoopState) : Passive s (silenceStack s) :=
  ⟨⟨rfl, rfl, rfl, _, rfl, by intro e he; simp at he; rcases he with rfl | rfl <;> rfl⟩,
   ⟨⟨_, rfl, by intro e he; simp at he; rcases he with rfl | rfl <;> rfl⟩,
    Or.inl rfl, id, (fun h => by cases h)⟩, rfl⟩

theorem silenceDetection_passive (s : LoopState) : Passive s (silenceDetection s) :=
  ⟨⟨rfl, rfl, rfl, _, rfl, by intro e he; simp at he; rcases he with rfl | rfl <;> rfl⟩,
   ⟨⟨_, rfl, by intro e he; simp at he; rcases he with rfl | rfl <;> rfl⟩,
    Or.inl rfl, (fun h => by cases h), id⟩, rfl⟩

theorem resetFrameBuffer_passive (s : LoopState) : Passive s (resetFrameBuffer s) :=
  ⟨⟨rfl, rfl, rfl, _, rfl, by intro e he; simp at he; subst he; rfl⟩,
   ⟨⟨_, rfl, by intro e he; simp at he; subst he; rfl⟩, Or.inr rfl, id, id⟩, rfl⟩

theorem passive_ite (c : Prop) [Decidable c] {s a b : LoopState}
    (ha : Passive s a) (hb : Passive s b) : Passive s (if c then a else b) := by
  split
  · exact ha
  · exact hb

theorem singleShots_quiet (exposure gain format : Int) (shots : Nat → Bool) :
    ∀ (k i : Nat), ∀ e ∈ singleShots exposure gain format shots k i,
      e.forwards = false ∧ e.exposureWrite = false := by
  intro k
  induction k with
  | zero => intro i e he; simp [singleShots] at he
  | succ k ih =>
    intro i e he
    simp only [singleShots, List.mem_cons] at he
    rcases he with rfl | he
    · exact ⟨rfl, rfl⟩
    · exact ih (i + 1) e he

theorem stopAndInvalidate_passive (cfg : Config) (s : LoopState) :
    Passive s (stopAndInvalidate cfg s) := by
  have h0 : Passive s (s.emit [Event.acqStop, Event.grabStop]) :=
    passive_emit s _ (by intro e he; simp at he; rcases he with rfl | rfl <;> exact ⟨rfl, rfl⟩)
  have h1 : Passive s (if (cfg.hasStackProcess && s.enableStackThread) = true
      then silenceStack (s.emit [Event.acqStop, Event.grabStop])
      else s.emit [Event.acqStop, Event.grabStop]) :=
    passive_ite _ (h0.passive_then (silenceStack_passive _)) h0
  have h2 := passive_ite (cfg.hasDetectionProcess = true)
    (h1.passive_then (silenceDetection_passive _)) h1
  exact h2.passive_then (resetFrameBuffer_passive _)

theorem runScheduledAcquisition_passive (cfg : Config) (s : LoopState) (task : AcqSchedule)
    (shots : Nat → Bool) : Passive s (runScheduledAcquisition cfg s task shots) := by
  unfold runScheduledAcquisition
  refine (((passive_emit s [Event.runScheduledAcquisition task] ?_).passive_then
    (stopAndInvalidate_passive cfg _)).passive_then
    (passive_emit _ _ (singleShots_quiet _ _ _ _ _ _))).passive_then (passive_emit _ _ ?_)
  · intro e he; simp at he; subst he; exact ⟨rfl, rfl⟩
  · intro e he; simp at he; subst he; exact ⟨rfl, rfl⟩

theorem runRegularAcquisition_passive (cfg : Config) (s : LoopState) (shots : Nat → Bool) :
    Passive s (runRegularAcquisition cfg s shots) := by
  unfold runRegularAcquisition
  refine (((passive_emit s [Event.runRegularAcquisition] ?_).passive_then
    (stopAndInvalidate_passive cfg _)).passive_then
    (passive_emit _ _ (singleShots_quiet _ _ _ _ _ _))).passive_then (passive_emit _ _ ?_)
  · intro e he; simp at he; subst he; exact ⟨rfl, rfl⟩
  · intro e he; simp at he; subst he; exact ⟨rfl, rfl⟩

theorem regularCheck_passive (cfg : Config) (s : LoopState) (t : Int) (shots : Nat → Bool) :
    Passive s (regularCheck cfg s t shots) := by
  unfold regularCheck
  exact passive_ite _
    (passive_ite _
      (passive_ite _
        ((runRegularAcquisition_passive cfg s shots).passive_then (passive_counter _ 0))
        (passive_counter s _))
      (passive_counter s 0))
    (Passive.passive_refl s)

theorem selectNextInLoop_passive (s : LoopState) (inp : TickInput) :
    Passive s (finalState (selectNextInLoop s inp)) := by
  unfold selectNextInLoop
  split <;> exact passive_sched s _

theorem scheduleCheck_passive (cfg : Config) (s : LoopState) (f : Frame) (inp : TickInput) :
    Passive s (finalState (scheduleCheck cfg s f inp)) := by
  unfold scheduleCheck
  split
  · split
    · exact ((passive_sched s _).passive_then (runScheduledAcquisition_passive cfg _ _ _)).passive_then
        (selectNextInLoop_passive _ inp)
    · split
      · exact selectNextInLoop_passive s inp
      · split
        · split
          · exact selectNextInLoop_passive s inp
          · split
            · split
              · exact selectNextInLoop_passive s inp
              · exact Passive.passive_refl s
            · exact Passive.passive_refl s
        · exact Passive.passive_refl s
  · exact Passive.passive_refl s

theorem stackCheck_passive (cfg : Config) (s : LoopState) (t : Int) :
    Passive s (stackCheck cfg s t) := by
  unfold stackCheck
  exact passive_ite _
    (passive_ite _ (passive_enable s true)
      ((passive_ite (s.enableStackThread = true) (silenceStack_passive s)
        (Passive.passive_refl s)).passive_then (passive_enable _ false)))
    (Passive.passive_refl s)

theorem datasetRestart_passive (s : LoopState) : Passive s (datasetRestart s) :=
  resetFrameBuffer_passive s

theorem withholdFrame_passive (cfg : Config) (s : LoopState) :
    Passive s (withholdFrame cfg s) := by
  unfold withholdFrame
  have h1 := passive_ite (cfg.hasStackProcess = true) (silenceStack_passive s) (Passive.passive_refl s)
  have h2 := passive_ite (cfg.hasDetectionProcess = true)
    (h1.passive_then (silenceDetection_passive _)) h1
  exact passive_ite _
    ((h2.passive_then (resetFrameBuffer_passive _)).passive_then (passive_cleanStatus _ true))
    (Passive.passive_refl s)

/-- What `shareFrame` does to the buffer, the flags and the trace. -/
theorem shareFrame_effect (s : LoopState) (f : Frame) :
    (shareFrame s f).frameBuffer = s.frameBuffer.push_back f ∧
    (shareFrame s f).detSignal = true ∧
    (shareFrame s f).stackSignal = (if s.enableStackThread then true else s.stackSignal) ∧
    (shareFrame s f).trace = s.trace ++ ([Event.pushFrame f, Event.setDetSignal true]
      ++ (if s.enableStackThread then [Event.setStackSignal true] else [])) ∧
    (shareFrame s f).exposureControlStatus = s.exposureControlStatus ∧
    (shareFrame s f).exposureControlActive = s.exposureControlActive ∧
    (shareFrame s f).autoExposure = s.autoExposure ∧
    (shareFrame s f).win = s.win := by
  unfold shareFrame
  cases h : s.enableStackThread <;> simp [LoopState.emit]

theorem frameSharing_calm (cfg : Config) (s : LoopState) (f : Frame) :
    Calm s (frameSharing cfg s f) ∧
      (frameSharing cfg s f).exposureControlStatus = s.exposureControlStatus := by
  unfold frameSharing
  split
  · obtain ⟨-, -, -, htr, hst, hact, hauto, hwin⟩ := shareFrame_effect s f
    refine ⟨⟨hwin, hact, hauto, _, htr, ?_⟩, hst⟩
    cases h : s.enableStackThread <;> simp [Event.exposureWrite]
  · exact ⟨(withholdFrame_passive cfg s).calm, (withholdFrame_passive cfg s).status⟩

theorem exposureControl_calm (s : LoopState) (f : Frame) (c : Bool) :
    Calm s (exposureControl s f c) ∧ Withheld s (exposureControl s f c) := by
  unfold exposureControl
  split
  · refine ⟨⟨rfl, rfl, rfl, _, rfl, ?_⟩, ⟨⟨_, rfl, ?_⟩, Or.inl rfl, id, id⟩⟩
    · intro e he; simp at he; subst he; rfl
    · intro e he; simp at he; subst he; rfl
  · exact ⟨Calm.calm_refl s, Withheld.withheld_refl s⟩

theorem exposureModeCheck_withheld (cfg : Config) (s : LoopState) (t : Int) :
    Withheld s (exposureModeCheck cfg s t) := by
  have hemit : ∀ a b : Int, Withheld s (s.emit [Event.setExposureTime a, Event.setGain b]) := by
    intro a b
    refine ⟨⟨_, rfl, ?_⟩, Or.inl rfl, id, id⟩
    intro e he; simp at he; rcases he with rfl | rfl <;> rfl
  have hflags : ∀ (u : LoopState), Withheld s u → Withheld s
      { u with exposureControlActive := false, exposureControlStatus := false } := by
    intro u hu
    exact ⟨hu.trace, hu.buffer, hu.det, hu.stack⟩
  unfold exposureModeCheck
  split
  · split
    · exact ⟨⟨[], by simp, by simp⟩, Or.inl rfl, id, id⟩
    · apply hflags
      split
      · split
        · exact hemit _ _
        · split
          · exact hemit _ _
          · exact Withheld.withheld_refl s
      · exact Withheld.withheld_refl s
  · exact Withheld.withheld_refl s

theorem exposureModeCheck_flags (cfg : Config) (s : LoopState) (t : Int)
    (h : FlagsInv s) : FlagsInv (exposureModeCheck cfg s t) := by
  unfold exposureModeCheck
  split
  · split
    · intro hc; simp at hc
    · intro _; rfl
  · exact h

theorem passive_flags {s s1 : LoopState} (hp : Passive s s1) (h : FlagsInv s) :
    FlagsInv s1 := by
  intro ha
  rw [hp.status]
  exact h (by rw [← hp.calm.active]; exact ha)

/-- A tick that ends normally went through the schedule check and then ran the exposure
and stack checks; one that ends by an exception stopped inside the schedule check. -/
theorem timeChecks_cases (cfg : Config) (s : LoopState) (f : Frame) (inp : TickInput) :
    (∃ s2, Passive s s2 ∧ timeChecks cfg s f inp
        = .ok (stackCheck cfg (exposureModeCheck cfg s2 f.timeInSec) f.timeInSec)) ∨
    (∃ s2, Passive s s2 ∧ timeChecks cfg s f inp = .error s2) := by
  have hreg := regularCheck_passive cfg s f.timeInSec inp.regularShots
  have hsch := scheduleCheck_passive cfg
    (regularCheck cfg s f.timeInSec inp.regularShots) f inp
  cases hc : scheduleCheck cfg (regularCheck cfg s f.timeInSec inp.regularShots) f inp with
  | ok s2 =>
    rw [hc] at hsch
    refine Or.inl ⟨s2, hreg.passive_then hsch, ?_⟩
    unfold timeChecks
    simp only [hc]
  | error s2 =>
    rw [hc] at hsch
    refine Or.inr ⟨s2, hreg.passive_then hsch, ?_⟩
    unfold timeChecks
    simp only [hc]

theorem timeChecks_withheld (cfg : Config) (s : LoopState) (f : Frame) (inp : TickInput) :
    Withheld s (finalState (timeChecks cfg s f inp)) := by
  rcases timeChecks_cases cfg s f inp with ⟨s2, hp, heq⟩ | ⟨s2, hp, heq⟩
  · rw [heq]
    exact (hp.withheld.withheld_then (exposureModeCheck_withheld cfg s2 _)).withheld_then
      (stackCheck_passive cfg _ _).withheld
  · rw [heq]; exact hp.withheld

theorem timeChecks_flags (cfg : Config) (s s1 : LoopState) (f : Frame) (inp : TickInput)
    (h : FlagsInv s) (hok : timeChecks cfg s f inp = .ok s1) : FlagsInv s1 := by
  rcases timeChecks_cases cfg s f inp with ⟨s2, hp, heq⟩ | ⟨s2, hp, heq⟩
  · rw [heq] at hok
    cases hok
    exact passive_flags (stackCheck_passive cfg _ _)
      (exposureModeCheck_flags cfg s2 _ (passive_flags hp h))
  · rw [heq] at hok; cases hok

theorem tick_flags (cfg : Config) (s s1 : LoopState) (inp : TickInput)
    (h : FlagsInv s) (hok : tick cfg s inp = .ok s1) : FlagsInv s1 := by
  unfold tick at hok
  cases hg : inp.grab with
  | none =>
    rw [hg] at hok
    cases hok
    exact h
  | some f =>
    rw [hg] at hok
    simp only [] at hok
    have h1 : FlagsInv (exposureControl (frameSharing cfg s f) f inp.controlResult) := by
      obtain ⟨hcalm, hst⟩ := frameSharing_calm cfg s f
      unfold exposureControl
      split
      · rename_i hc
        intro ha
        simp only [LoopState.emit] at ha
        simp only [Bool.and_eq_true] at hc
        rw [hc.2] at ha; cases ha
      · intro ha
        rw [hst]
        exact h (by rw [← hcalm.active]; exact ha)
    split at hok
    · exact timeChecks_flags cfg _ s1 f inp h1 hok
    · cases hok; exact h1

theorem startup_flags (cfg : Config) (index0 : Int) (task0 : AcqSchedule)
    (clockH clockM clockS : Int) (fb : CircularBuffer) (det stack : Bool) (s : LoopState)
    (h : startup cfg index0 task0 clockH clockM clockS fb det stack = some s) :
    s.exposureControlStatus = false ∧ s.exposureControlActive = false := by
  unfold startup at h
  split at h
  · cases h
  · split at h
    · cases h
    · split at h
      · cases h
      · cases h; exact ⟨rfl, rfl⟩

/-- In every reachable state, metering off implies that no metering result is pending. -/
theorem reachable_flags (cfg : Config) (s : LoopState) (h : Reachable cfg s) :
    FlagsInv s := by
  induction h with
  | start index0 task0 clockH clockM clockS fb det stack s hs =>
    intro _
    exact (startup_flags cfg index0 task0 clockH clockM clockS fb det stack s hs).1
  | tick s s1 inp _ hok ih => exact tick_flags cfg s s1 inp ih hok
  | dataset s _ ih => exact passive_flags (datasetRestart_passive s) ih

theorem Calm.writes {s s1 : LoopState} (h : Calm s s1) :
    exposureWrites s1.trace = exposureWrites s.trace := by
  obtain ⟨rest, htr, hrest⟩ := h.trace
  unfold exposureWrites
  rw [htr, List.filter_append]
  have : rest.filter Event.exposureWrite = [] := by
    rw [List.filter_eq_nil_iff]
    intro e he
    rw [hrest e he]; simp
  rw [this, List.append_nil]

/-- Outside the transition windows the exposure check switches metering off and, when
metering was on, writes the exposure and gain of the mode. -/
theorem exposureModeCheck_settled (cfg : Config) (s : LoopState) (t : Int)
    (hday : cfg.acqDayEnabled = true) (hord : s.win.Ordered)
    (hm : specMode s.win t ≠ Mode.transition) :
    (exposureModeCheck cfg s t).trace
        = s.trace ++ (if s.exposureControlActive then modeWrites cfg (specMode s.win t) else []) ∧
      (exposureModeCheck cfg s t).exposureControlActive = false ∧
      (exposureModeCheck cfg s t).win = s.win := by
  obtain ⟨h1, h2, h3⟩ := hord
  unfold specMode at hm ⊢
  unfold exposureModeCheck sunriseSunsetTest dayTest nightTest
  simp only [hday, if_true]
  split at hm
  · exact absurd rfl hm
  · rename_i hnt
    have hno : ¬ ((decide (t > s.win.timeStartSunrise) && decide (t < s.win.timeStopSunrise)
        || decide (t > s.win.timeStartSunset) && decide (t < s.win.timeStopSunset)) = true) := by
      simp only [Bool.or_eq_true, Bool.and_eq_true, decide_eq_true_eq]
      omega
    rw [if_neg hno, if_neg hnt]
    cases hact : s.exposureControlActive
    · simp
    · by_cases hd : s.win.timeStopSunrise ≤ t ∧ t < s.win.timeStartSunset
      · have hd2 : (decide (t ≥ s.win.timeStopSunrise) && decide (t < s.win.timeStartSunset))
            = true := by
          simp only [Bool.and_eq_true, decide_eq_true_eq]; omega
        simp [hd, hd2, modeWrites, LoopState.emit]
      · have hd2 : ¬ ((decide (t ≥ s.win.timeStopSunrise) && decide (t < s.win.timeStartSunset))
            = true) := by
          simp only [Bool.and_eq_true, decide_eq_true_eq]; omega
        have hn2 : (decide (t ≥ s.win.timeStopSunset) || decide (t < s.win.timeStartSunrise))
            = true := by
          simp only [Bool.or_eq_true, decide_eq_true_eq]; omega
        simp [hd, hd2, hn2, modeWrites, LoopState.emit]

/-- A live tick with day acquisition enabled that ends normally: everything before the
exposure check leaves the exposure controller alone. -/
theorem tick_live_ok (cfg : Config) (s s1 : LoopState) (inp : TickInput) (f : Frame)
    (hlive : cfg.videoFramesInput = false) (hgrab : inp.grab = some f)
    (hok : tick cfg s inp = .ok s1) :
    ∃ s2, Calm s s2 ∧
      s1 = stackCheck cfg (exposureModeCheck cfg s2 f.timeInSec) f.timeInSec := by
  unfold tick at hok
  rw [hgrab] at hok
  simp only [hlive, Bool.not_false, if_true] at hok
  have hc : Calm s (exposureControl (frameSharing cfg s f) f inp.controlResult) :=
    (frameSharing_calm cfg s f).1.calm_then (exposureControl_calm _ f _).1
  rcases timeChecks_cases cfg (exposureControl (frameSharing cfg s f) f inp.controlResult)
    f inp with ⟨s2, hp, heq⟩ | ⟨s2, hp, heq⟩
  · rw [heq] at hok
    cases hok
    exact ⟨s2, hc.calm_then hp.calm, rfl⟩
  · rw [heq] at hok; cases hok

theorem tick_settled (cfg : Config) (s s1 : LoopState) (inp : TickInput) (f : Frame)
    (hday : cfg.acqDayEnabled = true) (hlive : cfg.videoFramesInput = false)
    (hord : s.win.Ordered) (hgrab : inp.grab = some f)
    (hm : specMode s.win f.timeInSec ≠ Mode.transition)
    (hok : tick cfg s inp = .ok s1) :
    exposureWrites s1.trace = exposureWrites s.trace ++
        (if s.exposureControlActive then modeWrites cfg (specMode s.win f.timeInSec) else []) ∧
      s1.exposureControlActive = false ∧ s1.win = s.win := by
  obtain ⟨s2, hc, rfl⟩ := tick_live_ok cfg s s1 inp f hlive hgrab hok
  have hord2 : s2.win.Ordered := by rw [hc.win]; exact hord
  have hm2 : specMode s2.win f.timeInSec ≠ Mode.transition := by rw [hc.win]; exact hm
  obtain ⟨htr, hact, hwin⟩ := exposureModeCheck_settled cfg s2 f.timeInSec hday hord2 hm2
  have hst := (stackCheck_passive cfg (exposureModeCheck cfg s2 f.timeInSec) f.timeInSec).calm
  refine ⟨?_, by rw [hst.active, hact], by rw [hst.win, hwin, hc.win]⟩
  rw [hst.writes]
  unfold exposureWrites
  rw [htr, List.filter_append]
  have := hc.writes
  unfold exposureWrites at this
  rw [this, hc.active, hc.win]
  congr 1
  cases s.exposureControlActive
  · rfl
  · cases specMode s.win f.timeInSec <;> rfl

theorem runTicks_settled (cfg : Config) (m : Mode)
    (hday : cfg.acqDayEnabled = true) (hlive : cfg.videoFramesInput = false)
    (hm : m ≠ Mode.transition) :
    ∀ (inps : List TickInput) (s s1 : LoopState), s.win.Ordered → inps ≠ [] →
      (∀ inp ∈ inps, ∃ f, inp.grab = some f ∧ specMode s.win f.timeInSec = m) →
      runTicks cfg s inps = .ok s1 →
      exposureWrites s1.trace = exposureWrites s.trace ++
          (if s.exposureControlActive then modeWrites cfg m else []) ∧
        s1.exposureControlActive = false := by
  intro inps
  induction inps with
  | nil => intro s s1 _ hne; exact absurd rfl hne
  | cons inp rest ih =>
    intro s s1 hord _ hin hrun
    obtain ⟨f, hgrab, hmode⟩ := hin inp (List.mem_cons_self _ _)
    unfold runTicks at hrun
    cases ht : tick cfg s inp with
    | error e => rw [ht] at hrun; cases hrun
    | ok s2 =>
      rw [ht] at hrun
      simp only [] at hrun
      obtain ⟨hw, hact, hwin⟩ := tick_settled cfg s s2 inp f hday hlive hord hgrab
        (by rw [hmode]; exact hm) ht
      rw [hmode] at hw
      cases rest with
      | nil =>
        unfold runTicks at hrun
        cases hrun
        exact ⟨hw, hact⟩
      | cons inp2 rest2 =>
        obtain ⟨hw2, hact2⟩ := ih s2 s1 (by rw [hwin]; exact hord) (by simp)
          (by
            intro i hi
            rw [hwin]
            exact hin i (List.mem_cons_of_mem _ hi)) hrun
        rw [hact] at hw2
        simp only [Bool.false_eq_true, if_false, List.append_nil] at hw2
        exact ⟨hw2.trans hw, hact2⟩

theorem push_back_getLast (b : CircularBuffer) (f : Frame) (hcap : 0 < b.capacity) :
    (b.push_back f).items.getLast? = some f := by
  unfold CircularBuffer.push_back
  split
  · rename_i hfull
    split
    · rename_i hempty
      simp only [List.isEmpty_iff] at hempty
      rw [hempty] at hfull
      simp at hfull
      omega
    · simp
  · simp

theorem tick_after_sharing (cfg : Config) (s : LoopState) (inp : TickInput) (f : Frame)
    (hgrab : inp.grab = some f) :
    Withheld (frameSharing cfg s f) (finalState (tick cfg s inp)) := by
  unfold tick
  rw [hgrab]
  simp only []
  split
  · exact (exposureControl_calm _ f _).2.withheld_then (timeChecks_withheld cfg _ f inp)
  · exact (exposureControl_calm _ f _).2

/-! ## Claims on the exposure controller and on frame forwarding -/

/-- C9: in every state reachable by the acquisition loop, when `exposureControlActive` is
false at the start of a tick that grabs frame `f`, the frame-sharing step pushes `f` into
the frame buffer (as its newest element, for a buffer of non-zero capacity), sets the
detection wake flag, and sets the stacking wake flag if `enableStackThread` holds and
leaves it unchanged otherwise; these are the first events of the tick. -/
theorem frame_shared_when_metering_inactive (cfg : Config) (s : LoopState)
    (inp : TickInput) (f : Frame)
    (hreach : Reachable cfg s) (hact : s.exposureControlActive = false)
    (hgrab : inp.grab = some f) :
    (frameSharing cfg s f).frameBuffer = s.frameBuffer.push_back f ∧
    (0 < s.frameBuffer.capacity →
      (frameSharing cfg s f).frameBuffer.items.getLast? = some f) ∧
    (frameSharing cfg s f).detSignal = true ∧
    (frameSharing cfg s f).stackSignal
      = (if s.enableStackThread then true else s.stackSignal) ∧
    ∃ rest, (finalState (tick cfg s inp)).trace
      = s.trace ++ ([Event.pushFrame f, Event.setDetSignal true]
          ++ (if s.enableStackThread then [Event.setStackSignal true] else [])) ++ rest := by
  have hst : s.exposureControlStatus = false := reachable_flags cfg s hreach hact
  have hfs : frameSharing cfg s f = shareFrame s f := by
    unfold frameSharing
    simp [hst]
  obtain ⟨hbuf, hdet, hstack, htr, -⟩ := shareFrame_effect s f
  obtain ⟨rest, hrest, -⟩ := (tick_after_sharing cfg s inp f hgrab).trace
  rw [hfs]
  refine ⟨hbuf, ?_, hdet, hstack, rest, ?_⟩
  · intro hcap
    rw [hbuf]
    exact push_back_getLast _ f hcap
  · rw [hrest, hfs, htr]

/-- Witness for C9: the state in which the sample station enters its loop. -/
theorem frame_shared_when_metering_inactive_witness :
    (frameSharing sampleConfig sampleStart (frameAt 1 5 50 0)).frameBuffer.items
        = [frameAt 1 5 50 0] ∧
    (frameSharing sampleConfig sampleStart (frameAt 1 5 50 0)).detSignal = true := by
  obtain ⟨h1, -, h3, -⟩ := frame_shared_when_metering_inactive sampleConfig sampleStart
    (grabbed (frameAt 1 5 50 0) false) (frameAt 1 5 50 0)
    (Reachable.start 0 (mkTask 0 0 0) 5 49 59 { capacity := 3, items := [] } false false
      sampleStart (by decide))
    rfl rfl
  exact ⟨by rw [h1]; rfl, h3⟩

/-- C10 (counterexample): the sample station, three frames inside the sunrise window. The
first switches metering on; on the second the metering collaborator is called and
answers false; so at the start of the third tick metering is active and the last
`controlExposureTime` result is false, and the third frame is pushed into the frame
buffer and the detection wake flag is raised (stacking is disabled in daytime). -/
theorem frame_forwarded_while_metering_active :
    ∃ s1 s2 s3,
      tick sampleConfig sampleStart (grabbed (frameAt 1 6 10 0) false) = .ok s1 ∧
      tick sampleConfig s1 (grabbed (frameAt 2 6 10 1) false) = .ok s2 ∧
      Event.controlExposureTime (frameAt 2 6 10 1) ∈ s2.trace ∧
      s2.exposureControlActive = true ∧ s2.exposureControlStatus = false ∧
      tick sampleConfig s2 (grabbed (frameAt 3 6 10 2) false) = .ok s3 ∧
      s3.trace = s2.trace ++ [Event.pushFrame (frameAt 3 6 10 2), Event.setDetSignal true,
        Event.controlExposureTime (frameAt 3 6 10 2)] ∧
      s3.frameBuffer.items = [frameAt 1 6 10 0, frameAt 2 6 10 1, frameAt 3 6 10 2] :=
  ⟨_, _, _, rfl, rfl, by decide, by decide, by decide, rfl, by decide, by decide⟩

/-- C10 (amended): on every successfully grabbed tick at whose start the last
`controlExposureTime` result `exposureControlStatus` is true, whichever way the tick
ends, no frame is pushed into the frame buffer and neither wake flag is set to true: the
events of the tick contain no push and no flag raise, the buffer is unchanged or
emptied, and a flag that is up after the tick was up before. -/
theorem frame_withheld_when_status_true (cfg : Config) (s : LoopState) (inp : TickInput)
    (f : Frame) (hst : s.exposureControlStatus = true) (hgrab : inp.grab = some f) :
    (∃ rest, (finalState (tick cfg s inp)).trace = s.trace ++ rest ∧
      (∀ g, Event.pushFrame g ∉ rest) ∧ Event.setDetSignal true ∉ rest ∧
      Event.setStackSignal true ∉ rest) ∧
    ((finalState (tick cfg s inp)).frameBuffer.items = s.frameBuffer.items ∨
      (finalState (tick cfg s inp)).frameBuffer.items = []) ∧
    ((finalState (tick cfg s inp)).detSignal = true → s.detSignal = true) ∧
    ((finalState (tick cfg s inp)).stackSignal = true → s.stackSignal = true) := by
  have hfs : frameSharing cfg s f = withholdFrame cfg s := by
    unfold frameSharing
    simp [hst]
  have hw : Withheld s (finalState (tick cfg s inp)) := by
    have h1 := tick_after_sharing cfg s inp f hgrab
    rw [hfs] at h1
    exact (withholdFrame_passive cfg s).withheld.withheld_then h1
  obtain ⟨⟨rest, htr, hrest⟩, hbuf, hdet, hstack⟩ := hw
  refine ⟨⟨rest, htr, ?_, ?_, ?_⟩, ?_, hdet, hstack⟩
  · intro g hg
    have := hrest _ hg
    simp [Event.forwards] at this
  · intro hg
    have := hrest _ hg
    simp [Event.forwards] at this
  · intro hg
    have := hrest _ hg
    simp [Event.forwards] at this
  · rcases hbuf with h | h
    · exact Or.inl (by rw [h])
    · exact Or.inr (by rw [h]; rfl)

/-- Witness for C10 (amended): the sample station with a metering result of true
pending, a frame in its buffer and both flags up. -/
theorem frame_withheld_when_status_true_witness :
    (finalState (tick sampleConfig
      { sampleStart with exposureControlStatus := true, exposureControlActive := true,
                         frameBuffer := { capacity := 3, items := [frameAt 1 6 10 0] },
                         detSignal := true, stackSignal := true }
      (grabbed (frameAt 2 6 10 1) true))).frameBuffer.items = [] := by
  have h := (frame_withheld_when_status_true sampleConfig
      { sampleStart with exposureControlStatus := true, exposureControlActive := true,
                         frameBuffer := { capacity := 3, items := [frameAt 1 6 10 0] },
                         detSignal := true, stackSignal := true }
      (grabbed (frameAt 2 6 10 1) true) (frameAt 2 6 10 1) rfl rfl).2.1
  rcases h with h | h
  · exact absurd h (by decide)
  · exact h

/-! ## The diversions in closed form -/

theorem singleShots_eq (exposure gain format : Int) (shots : Nat → Bool) :
    ∀ (k i : Nat), singleShots exposure gain format shots k i
      = (List.range k).map
          (fun j => Event.grabSingleImage exposure gain format (i + j) (shots (i + j))) := by
  intro k
  induction k with
  | zero => intro i; rfl
  | succ k ih =>
    intro i
    rw [singleShots, ih (i + 1), List.range_succ_eq_map, List.map_cons, List.map_map]
    congr 1
    apply List.map_congr_left
    intro j _
    simp only [Function.comp, Nat.add_zero]
    have h : i + 1 + j = i + (j + 1) := by omega
    rw [h]

theorem singleShots_requests (exposure gain format : Int) (shots : Nat → Bool) (n : Nat) :
    singleShots exposure gain format shots n 0 = shotRequests exposure gain format shots n := by
  rw [singleShots_eq]
  unfold shotRequests
  apply List.map_congr_left
  intro j _
  simp

theorem stopAndInvalidate_eq (cfg : Config) (s : LoopState) :
    stopAndInvalidate cfg s = afterDiversion cfg s (stopEvents cfg s.enableStackThread) := by
  cases s
  cases h1 : cfg.hasStackProcess <;> cases h3 : cfg.hasDetectionProcess <;>
    rename_i en _ _ _ _ _ <;> cases en <;>
    simp [stopAndInvalidate, afterDiversion, stopEvents, silenceStack, silenceDetection,
      resetFrameBuffer, LoopState.emit, h1, h3]

theorem runScheduledAcquisition_eq (cfg : Config) (s : LoopState) (task : AcqSchedule)
    (shots : Nat → Bool) :
    runScheduledAcquisition cfg s task shots
      = afterDiversion cfg s (Event.runScheduledAcquisition task
          :: diversionEvents cfg s.enableStackThread task.E task.G task.F shots task.N.toNat) := by
  unfold runScheduledAcquisition
  simp only [stopAndInvalidate_eq, singleShots_requests]
  simp [afterDiversion, diversionEvents, LoopState.emit, clear_clear]

theorem runRegularAcquisition_eq (cfg : Config) (s : LoopState) (shots : Nat → Bool) :
    runRegularAcquisition cfg s shots
      = afterDiversion cfg s (Event.runRegularAcquisition
          :: diversionEvents cfg s.enableStackThread cfg.acqRegularExposure
              cfg.acqRegularGain cfg.acqRegularFormat shots cfg.acqRegularRepetition.toNat) := by
  unfold runRegularAcquisition
  simp only [stopAndInvalidate_eq, singleShots_requests]
  simp [afterDiversion, diversionEvents, LoopState.emit, clear_clear]

theorem shotRequests_kind (exposure gain format : Int) (shots : Nat → Bool) (n : Nat) :
    ∀ e ∈ shotRequests exposure gain format shots n, e.kind = Kind.device := by
  intro e he
  unfold shotRequests at he
  obtain ⟨i, -, rfl⟩ := List.mem_map.1 he
  rfl

theorem stopEvents_kind (cfg : Config) (en : Bool) :
    ∀ e ∈ stopEvents cfg en, e.kind = Kind.device ∨ e.kind = Kind.silence := by
  unfold stopEvents
  cases h1 : (cfg.hasStackProcess && en) <;> cases h2 : cfg.hasDetectionProcess <;>
    simp [Event.kind]

theorem diversionEvents_kind (cfg : Config) (en : Bool) (exposure gain format : Int)
    (shots : Nat → Bool) (n : Nat) :
    ∀ e ∈ diversionEvents cfg en exposure gain format shots n,
      e.kind = Kind.device ∨ e.kind = Kind.silence := by
  intro e he
  unfold diversionEvents at he
  simp only [List.mem_append, List.mem_singleton] at he
  rcases he with (he | he) | he
  · exact stopEvents_kind cfg en e he
  · exact Or.inl (shotRequests_kind _ _ _ _ _ e he)
  · subst he; exact Or.inl rfl

theorem deviceCommands_append (a b : List Event) :
    deviceCommands (a ++ b) = deviceCommands a ++ deviceCommands b := by
  unfold deviceCommands; exact List.filter_append _ _

theorem deviceCommands_shotRequests (exposure gain format : Int) (shots : Nat → Bool)
    (n : Nat) :
    deviceCommands (shotRequests exposure gain format shots n)
      = shotRequests exposure gain format shots n := by
  unfold deviceCommands
  rw [List.filter_eq_self]
  intro e he
  rw [shotRequests_kind _ _ _ _ _ e he]
  rfl

theorem deviceCommands_stopEvents (cfg : Config) (en : Bool) :
    deviceCommands (stopEvents cfg en) = [Event.acqStop, Event.grabStop] := by
  unfold stopEvents
  cases h1 : (cfg.hasStackProcess && en) <;> cases h2 : cfg.hasDetectionProcess <;>
    simp [deviceCommands, Event.kind]

theorem deviceCommands_diversionEvents (cfg : Config) (en : Bool) (exposure gain format : Int)
    (shots : Nat → Bool) (n : Nat) :
    deviceCommands (diversionEvents cfg en exposure gain format shots n)
      = [Event.acqStop, Event.grabStop] ++ shotRequests exposure gain format shots n
          ++ [Event.acqRestart] := by
  unfold diversionEvents
  rw [deviceCommands_append, deviceCommands_append, deviceCommands_stopEvents,
    deviceCommands_shotRequests]
  rfl

/-! ## Claims on the diversions, on failed grabs and on the night tests -/

/-- When control gets to the closing brace of either diversion, the routine has sent to
the device, in this order, `acqStop`,
`grabStop`, then exactly `N` single-shot requests (repetitions 0 to `N - 1`) each carrying
the exposure, gain and format of the task (for the regular diversion: the configured
values and repetition count), then one `acqRestart`, and nothing else; this holds for
every pattern `shots` of single-shot successes and failures. -/
theorem closingBrace_device_sequence (cfg : Config) (s : LoopState) (task : AcqSchedule)
    (shots : Nat → Bool) :
    deviceCommands (runScheduledAcquisition cfg s task shots).trace
        = deviceCommands s.trace ++ ([Event.acqStop, Event.grabStop]
            ++ (List.range task.N.toNat).map
                (fun i => Event.grabSingleImage task.E task.G task.F i (shots i))
            ++ [Event.acqRestart]) ∧
    deviceCommands (runRegularAcquisition cfg s shots).trace
        = deviceCommands s.trace ++ ([Event.acqStop, Event.grabStop]
            ++ (List.range cfg.acqRegularRepetition.toNat).map
                (fun i => Event.grabSingleImage cfg.acqRegularExposure cfg.acqRegularGain
                  cfg.acqRegularFormat i (shots i))
            ++ [Event.acqRestart]) ∧
    ((List.range task.N.toNat).map
        (fun i => Event.grabSingleImage task.E task.G task.F i (shots i))).length
      = task.N.toNat := by
  refine ⟨?_, ?_, by simp⟩
  · rw [runScheduledAcquisition_eq]
    show deviceCommands (s.trace ++ _ :: _) = _
    rw [deviceCommands_append]
    congr 1
    rw [show ∀ (e : Event) (l : List Event), e :: l = [e] ++ l from fun _ _ => rfl,
      deviceCommands_append, deviceCommands_diversionEvents]
    rfl
  · rw [runRegularAcquisition_eq]
    show deviceCommands (s.trace ++ _ :: _) = _
    rw [deviceCommands_append]
    congr 1
    rw [show ∀ (e : Event) (l : List Event), e :: l = [e] ++ l from fun _ _ => rfl,
      deviceCommands_append, deviceCommands_diversionEvents]
    rfl

/-- What a diversion entered with the event `marker` leaves behind. -/
theorem afterDiversion_effect (cfg : Config) (s : LoopState) (marker : Event)
    (exposure gain format : Int) (shots : Nat → Bool) (n : Nat)
    (hm : ∀ g, marker ≠ Event.pushFrame g) :
    (afterDiversion cfg s (marker ::
        diversionEvents cfg s.enableStackThread exposure gain format shots n)).frameBuffer.items
      = [] ∧
    (cfg.hasDetectionProcess = true →
      (afterDiversion cfg s (marker ::
        diversionEvents cfg s.enableStackThread exposure gain format shots n)).detSignal
        = false) ∧
    (cfg.hasStackProcess = true → s.enableStackThread = true →
      (afterDiversion cfg s (marker ::
        diversionEvents cfg s.enableStackThread exposure gain format shots n)).stackSignal
        = false) ∧
    (afterDiversion cfg s (marker ::
        diversionEvents cfg s.enableStackThread exposure gain format shots n)).trace
      = s.trace ++ ([marker, Event.acqStop, Event.grabStop]
        ++ (if cfg.hasStackProcess && s.enableStackThread
              then [Event.setStackSignal false, Event.interruptStack] else [])
        ++ (if cfg.hasDetectionProcess
              then [Event.setDetSignal false, Event.interruptDetection] else [])
        ++ [Event.clearFrameBuffer]
        ++ (List.range n).map (fun i => Event.grabSingleImage exposure gain format i (shots i))
        ++ [Event.acqRestart]) ∧
    ∀ g, Event.pushFrame g ∉ (afterDiversion cfg s (marker ::
        diversionEvents cfg s.enableStackThread exposure gain format shots n)).trace.drop
          s.trace.length := by
  refine ⟨rfl, ?_, ?_, ?_, ?_⟩
  · intro hd; simp [afterDiversion, hd]
  · intro hs he; simp [afterDiversion, hs, he]
  · simp [afterDiversion, diversionEvents, stopEvents, shotRequests]
  · intro g hg
    simp only [afterDiversion, List.drop_left] at hg
    rcases List.mem_cons.1 hg with h1 | h1
    · exact hm g h1.symm
    · rcases diversionEvents_kind _ _ _ _ _ _ _ _ h1 with h2 | h2 <;> simp [Event.kind] at h2

/-- C15: when either diversion returns, whatever the prior state `s`, the frame buffer is
empty, and no frame was pushed during the diversion; the detection wake flag is false if
the detection consumer exists and the stacking wake flag is false if the stacking
consumer exists and stacking is enabled; and the events of the diversion are, in order:
device stopped (`acqStop`, `grabStop`), stacking consumer silenced and interrupted,
detection consumer silenced and interrupted, buffer cleared, single shots, restart. The
first five conjuncts are for the scheduled diversion, the last five for the regular one. -/
theorem diversion_leaves_buffer_empty (cfg : Config) (s : LoopState) (task : AcqSchedule)
    (shots : Nat → Bool) :
    ((runScheduledAcquisition cfg s task shots).frameBuffer.items = [] ∧
      (cfg.hasDetectionProcess = true →
        (runScheduledAcquisition cfg s task shots).detSignal = false) ∧
      (cfg.hasStackProcess = true → s.enableStackThread = true →
        (runScheduledAcquisition cfg s task shots).stackSignal = false) ∧
      (runScheduledAcquisition cfg s task shots).trace
        = s.trace ++ ([Event.runScheduledAcquisition task, Event.acqStop, Event.grabStop]
          ++ (if cfg.hasStackProcess && s.enableStackThread
                then [Event.setStackSignal false, Event.interruptStack] else [])
          ++ (if cfg.hasDetectionProcess
                then [Event.setDetSignal false, Event.interruptDetection] else [])
          ++ [Event.clearFrameBuffer]
          ++ (List.range task.N.toNat).map
              (fun i => Event.grabSingleImage task.E task.G task.F i (shots i))
          ++ [Event.acqRestart]) ∧
      ∀ g, Event.pushFrame g ∉
        (runScheduledAcquisition cfg s task shots).trace.drop s.trace.length) ∧
    ((runRegularAcquisition cfg s shots).frameBuffer.items = [] ∧
      (cfg.hasDetectionProcess = true →
        (runRegularAcquisition cfg s shots).detSignal = false) ∧
      (cfg.hasStackProcess = true → s.enableStackThread = true →
        (runRegularAcquisition cfg s shots).stackSignal = false) ∧
      (runRegularAcquisition cfg s shots).trace
        = s.trace ++ ([Event.runRegularAcquisition, Event.acqStop, Event.grabStop]
          ++ (if cfg.hasStackProcess && s.enableStackThread
                then [Event.setStackSignal false, Event.interruptStack] else [])
          ++ (if cfg.hasDetectionProcess
                then [Event.setDetSignal false, Event.interruptDetection] else [])
          ++ [Event.clearFrameBuffer]
          ++ (List.range cfg.acqRegularRepetition.toNat).map
              (fun i => Event.grabSingleImage cfg.acqRegularExposure cfg.acqRegularGain
                cfg.acqRegularFormat i (shots i))
          ++ [Event.acqRestart]) ∧
      ∀ g, Event.pushFrame g ∉
        (runRegularAcquisition cfg s shots).trace.drop s.trace.length) := by
  constructor
  · rw [runScheduledAcquisition_eq]
    exact afterDiversion_effect cfg s _ _ _ _ shots _ (by intro g; simp)
  · rw [runRegularAcquisition_eq]
    exact afterDiversion_effect cfg s _ _ _ _ shots _ (by intro g; simp)

/-- C16: on a tick whose grab fails the failure counter grows by one and nothing else in
the loop state changes: no event is emitted (no push, no flag, no diversion), and the
counters, cursor, armed task and flags keep their values; the tick ends normally. -/
theorem failed_grab_only_counts (cfg : Config) (s : LoopState) (inp : TickInput)
    (hgrab : inp.grab = none) :
    tick cfg s inp = .ok { s with nbFailGrabbedFrames := s.nbFailGrabbedFrames + 1 } := by
  unfold tick
  rw [hgrab]

/-- Witness for C16: a failed grab in the state in which the sample station starts. -/
theorem failed_grab_only_counts_witness :
    tick sampleConfig sampleStart
        { grab := none, controlResult := true, regularShots := fun _ => true,
          scheduledShots := fun _ => true, clockH := 1, clockM := 0, clockS := 0 }
      = .ok { sampleStart with nbFailGrabbedFrames := 1 } :=
  failed_grab_only_counts sampleConfig sampleStart _ rfl

/-- C19 (evaluation at the failing input): with the sunset window ending at second 66600
(18:30:00), at that very second the `NIGHT` test of the exposure controller (line 430)
holds while the night test that gates the regular acquisition and the stack thread
(lines 336 and 451) does not; one second later both hold. -/
theorem night_tests_differ_at_sunset_stop :
    nightTest sampleWindow 66600 = true ∧ regularNightTest sampleWindow 66600 = false ∧
    nightTest sampleWindow 66601 = true ∧ regularNightTest sampleWindow 66601 = true := by
  decide

/-! ## Parts of a tick that stay aside of a given concern -/

theorem aside_refl (ks : List Kind) (s : LoopState) : Aside ks s s :=
  ⟨⟨[], by simp, by simp⟩, rfl, rfl, rfl, rfl, rfl, fun _ => rfl, fun _ => rfl,
    fun _ => rfl, fun _ => rfl, fun _ _ => rfl⟩

theorem aside_mono {ks ks2 : List Kind} {s s1 : LoopState} (hsub : ∀ k ∈ ks, k ∈ ks2)
    (h : Aside ks s s1) : Aside ks2 s s1 := by
  obtain ⟨⟨rest, htr, hk⟩, h1, h2, h3, h4, h5, h6, h7, h8, h9, h10⟩ := h
  exact ⟨⟨rest, htr, fun e he => hsub _ (hk e he)⟩, h1, h2, h3, h4, h5,
    fun hn => h6 (fun hm => hn (hsub _ hm)), fun hn => h7 (fun hm => hn (hsub _ hm)),
    fun hn => h8 (fun hm => hn (hsub _ hm)), fun hn => h9 (fun hm => hn (hsub _ hm)),
    fun hn hn2 => h10 (fun hm => hn (hsub _ hm)) (fun hm => hn2 (hsub _ hm))⟩

theorem aside_then {ks : List Kind} {a b c : LoopState} (h1 : Aside ks a b)
    (h2 : Aside ks b c) : Aside ks a c := by
  obtain ⟨⟨r1, t1, k1⟩, a1, a2, a3, a4, a5, a6, a7, a8, a9, a10⟩ := h1
  obtain ⟨⟨r2, t2, k2⟩, b1, b2, b3, b4, b5, b6, b7, b8, b9, b10⟩ := h2
  refine ⟨⟨r1 ++ r2, by rw [t2, t1, List.append_assoc], ?_⟩, b1.trans a1, b2.trans a2,
    b3.trans a3, b4.trans a4, b5.trans a5, fun h => (b6 h).trans (a6 h),
    fun h => (b7 h).trans (a7 h), fun h => (b8 h).trans (a8 h),
    fun h => (b9 h).trans (a9 h), fun h g => (b10 h g).trans (a10 h g)⟩
  intro e he
  rcases List.mem_append.1 he with he | he
  · exact k1 e he
  · exact k2 e he

/-- Events of a kind that a part of the tick stays aside of are not added to the trace. -/
theorem aside_eventsOfKind {ks : List Kind} {s s1 : LoopState} (h : Aside ks s s1)
    (k : Kind) (hk : k ∉ ks) : eventsOfKind k s1.trace = eventsOfKind k s.trace := by
  obtain ⟨rest, htr, hrest⟩ := h.trace
  unfold eventsOfKind
  rw [htr, List.filter_append]
  have : rest.filter (fun e => decide (e.kind = k)) = [] := by
    rw [List.filter_eq_nil_iff]
    intro e he
    simp only [decide_eq_true_eq]
    intro hek
    exact hk (hek ▸ hrest e he)
  rw [this, List.append_nil]

theorem aside_ite (c : Prop) [Decidable c] {ks : List Kind} {s a b : LoopState}
    (ha : Aside ks s a) (hb : Aside ks s b) : Aside ks s (if c then a else b) := by
  split
  · exact ha
  · exact hb

theorem aside_emit (ks : List Kind) (s : LoopState) (es : List Event)
    (h : ∀ e ∈ es, e.kind ∈ ks) : Aside ks s (s.emit es) :=
  ⟨⟨es, rfl, h⟩, rfl, rfl, rfl, rfl, rfl, fun _ => rfl, fun _ => rfl,
    fun _ => rfl, fun _ => rfl, fun _ _ => rfl⟩

theorem aside_afterDiversion (ks : List Kind) (cfg : Config) (s : LoopState)
    (es : List Event) (h : ∀ e ∈ es, e.kind ∈ ks) : Aside ks s (afterDiversion cfg s es) :=
  ⟨⟨es, rfl, h⟩, rfl, rfl, rfl, rfl, rfl, fun _ => rfl, fun _ => rfl,
    fun _ => rfl, fun _ => rfl, fun _ _ => rfl⟩

theorem aside_stackSignal (ks : List Kind) (s : LoopState) (b : Bool) :
    Aside ks s { s with stackSignal := b } :=
  ⟨⟨[], by simp, by simp⟩, rfl, rfl, rfl, rfl, rfl, fun _ => rfl, fun _ => rfl,
    fun _ => rfl, fun _ => rfl, fun _ _ => rfl⟩

theorem aside_detSignal (ks : List Kind) (s : LoopState) (b : Bool) :
    Aside ks s { s with detSignal := b } :=
  ⟨⟨[], by simp, by simp⟩, rfl, rfl, rfl, rfl, rfl, fun _ => rfl, fun _ => rfl,
    fun _ => rfl, fun _ => rfl, fun _ _ => rfl⟩

theorem aside_frameBuffer (ks : List Kind) (s : LoopState) (b : CircularBuffer) :
    Aside ks s { s with frameBuffer := b } :=
  ⟨⟨[], by simp, by simp⟩, rfl, rfl, rfl, rfl, rfl, fun _ => rfl, fun _ => rfl,
    fun _ => rfl, fun _ => rfl, fun _ _ => rfl⟩

theorem aside_enable (ks : List Kind) (s : LoopState) (b : Bool) :
    Aside ks s { s with enableStackThread := b } :=
  ⟨⟨[], by simp, by simp⟩, rfl, rfl, rfl, rfl, rfl, fun _ => rfl, fun _ => rfl,
    fun _ => rfl, fun _ => rfl, fun _ _ => rfl⟩

theorem aside_cleanStatus (ks : List Kind) (s : LoopState) (b : Bool)
    (hk : Kind.share ∈ ks) : Aside ks s { s with cleanStatus := b } :=
  ⟨⟨[], by simp, by simp⟩, rfl, rfl, rfl, rfl, rfl, fun _ => rfl, fun _ => rfl,
    fun h => absurd hk h, fun _ => rfl, fun _ _ => rfl⟩

theorem aside_counter (ks : List Kind) (s : LoopState) (n : Int)
    (hk : Kind.runRegular ∈ ks) : Aside ks s { s with regularAcqFrameCounter := n } :=
  ⟨⟨[], by simp, by simp⟩, rfl, rfl, rfl, rfl, rfl, fun h => absurd hk h, fun _ => rfl,
    fun _ => rfl, fun _ => rfl, fun _ _ => rfl⟩

theorem aside_sched (ks : List Kind) (s : LoopState) (ss : ScheduleState)
    (hk : Kind.runScheduled ∈ ks) (htable : ss.ACQ_SCHEDULE = s.sched.ACQ_SCHEDULE) :
    Aside ks s { s with sched := ss } :=
  ⟨⟨[], by simp, by simp⟩, rfl, rfl, rfl, htable, rfl, fun _ => rfl, fun h => absurd hk h,
    fun _ => rfl, fun _ => rfl, fun _ _ => rfl⟩

theorem aside_status (ks : List Kind) (s : LoopState) (b : Bool)
    (hk : Kind.control ∈ ks ∨ Kind.exposure ∈ ks) :
    Aside ks s { s with exposureControlStatus := b } :=
  ⟨⟨[], by simp, by simp⟩, rfl, rfl, rfl, rfl, rfl, fun _ => rfl, fun _ => rfl,
    fun _ => rfl, fun _ => rfl,
    fun h1 h2 => by rcases hk with hk | hk; exact absurd hk h1; exact absurd hk h2⟩

theorem aside_flags (ks : List Kind) (s : LoopState) (a b : Bool)
    (hk : Kind.exposure ∈ ks) :
    Aside ks s { s with exposureControlActive := a, exposureControlStatus := b } :=
  ⟨⟨[], by simp, by simp⟩, rfl, rfl, rfl, rfl, rfl, fun _ => rfl, fun _ => rfl,
    fun _ => rfl, fun h => absurd hk h, fun _ h => absurd hk h⟩

theorem silenceStack_aside (ks : List Kind) (s : LoopState) (hk : Kind.silence ∈ ks) :
    Aside ks s (silenceStack s) :=
  aside_then (aside_stackSignal ks s false)
    (aside_emit ks _ _ (by simp [Event.kind, hk]))

theorem silenceDetection_aside (ks : List Kind) (s : LoopState) (hk : Kind.silence ∈ ks) :
    Aside ks s (silenceDetection s) :=
  aside_then (aside_detSignal ks s false)
    (aside_emit ks _ _ (by simp [Event.kind, hk]))

theorem resetFrameBuffer_aside (ks : List Kind) (s : LoopState) (hk : Kind.silence ∈ ks) :
    Aside ks s (resetFrameBuffer s) :=
  aside_then (aside_frameBuffer ks s _)
    (aside_emit ks _ _ (by simp [Event.kind, hk]))

theorem frameSharing_aside (cfg : Config) (s : LoopState) (f : Frame) :
    Aside [Kind.share, Kind.silence] s (frameSharing cfg s f) := by
  unfold frameSharing
  apply aside_ite
  · obtain ⟨-, -, -, htr, hst, hact, hauto, hwin⟩ := shareFrame_effect s f
    refine ⟨⟨_, htr, ?_⟩, ?_, hwin, hauto, ?_, ?_, ?_, ?_, fun h => absurd (by simp) h,
      fun _ => hact, fun _ _ => hst⟩
    · cases s.enableStackThread <;> simp [Event.kind]
    all_goals (unfold shareFrame; simp only []; split <;> intros <;> rfl)
  · unfold withholdFrame
    have h1 := aside_ite (cfg.hasStackProcess = true)
      (silenceStack_aside [Kind.share, Kind.silence] s (by simp)) (aside_refl _ s)
    have h2 := aside_ite (cfg.hasDetectionProcess = true)
      (aside_then h1 (silenceDetection_aside _ _ (by simp))) h1
    exact aside_ite _
      (aside_then (aside_then h2 (resetFrameBuffer_aside _ _ (by simp)))
        (aside_cleanStatus _ _ true (by simp)))
      (aside_refl _ s)

theorem exposureControl_aside (s : LoopState) (f : Frame) (c : Bool) :
    Aside [Kind.control] s (exposureControl s f c) := by
  unfold exposureControl
  exact aside_ite _
    (aside_then (aside_status _ s c (Or.inl (by simp)))
      (aside_emit _ _ _ (by simp [Event.kind])))
    (aside_refl _ s)

theorem runRegularAcquisition_aside (cfg : Config) (s : LoopState) (shots : Nat → Bool) :
    Aside [Kind.runRegular, Kind.device, Kind.silence] s
      (runRegularAcquisition cfg s shots) := by
  rw [runRegularAcquisition_eq]
  apply aside_afterDiversion
  intro e he
  rcases List.mem_cons.1 he with rfl | he
  · simp [Event.kind]
  · rcases diversionEvents_kind _ _ _ _ _ _ _ e he with h | h <;> simp [h]

theorem runScheduledAcquisition_aside (cfg : Config) (s : LoopState) (task : AcqSchedule)
    (shots : Nat → Bool) :
    Aside [Kind.runScheduled, Kind.device, Kind.silence] s
      (runScheduledAcquisition cfg s task shots) := by
  rw [runScheduledAcquisition_eq]
  apply aside_afterDiversion
  intro e he
  rcases List.mem_cons.1 he with rfl | he
  · simp [Event.kind]
  · rcases diversionEvents_kind _ _ _ _ _ _ _ e he with h | h <;> simp [h]

theorem regularCheck_aside (cfg : Config) (s : LoopState) (t : Int) (shots : Nat → Bool) :
    Aside [Kind.runRegular, Kind.device, Kind.silence] s (regularCheck cfg s t shots) := by
  unfold regularCheck
  exact aside_ite _ (aside_ite _ (aside_ite _
    (aside_then (runRegularAcquisition_aside cfg s shots) (aside_counter _ _ 0 (by simp)))
    (aside_counter _ s _ (by simp)))
    (aside_counter _ s 0 (by simp))) (aside_refl _ s)

theorem selectNext_table (st : ScheduleState) (h m s : Int) :
    (match selectNextAcquisitionSchedule st h m s with
      | .ok ss => ss.ACQ_SCHEDULE
      | .error ss => ss.ACQ_SCHEDULE) = st.ACQ_SCHEDULE := by
  unfold selectNextAcquisitionSchedule
  by_cases hlen : st.ACQ_SCHEDULE.length ≠ 0
  · rw [if_pos hlen]
    simp only []
    cases scheduleAt st.ACQ_SCHEDULE (searchLoop h m s st.ACQ_SCHEDULE 0 st.indexNextTask) <;> rfl
  · rw [if_neg hlen]

theorem selectNextInLoop_aside (s : LoopState) (inp : TickInput) :
    Aside [Kind.runScheduled, Kind.device, Kind.silence] s
      (finalState (selectNextInLoop s inp)) := by
  have ht := selectNext_table s.sched inp.clockH inp.clockM inp.clockS
  unfold selectNextInLoop
  cases hsel : selectNextAcquisitionSchedule s.sched inp.clockH inp.clockM inp.clockS with
  | ok ss =>
    rw [hsel] at ht
    exact aside_sched _ s ss (by simp) ht
  | error ss =>
    rw [hsel] at ht
    exact aside_sched _ s ss (by simp) ht

theorem scheduleCheck_aside (cfg : Config) (s : LoopState) (f : Frame) (inp : TickInput) :
    Aside [Kind.runScheduled, Kind.device, Kind.silence] s
      (finalState (scheduleCheck cfg s f inp)) := by
  unfold scheduleCheck
  split
  · split
    · have e1 : Aside [Kind.runScheduled, Kind.device, Kind.silence] s
          { s with sched := { s.sched with
              nextTask := { s.sched.nextTask with date := f.acqDateMicro } } } :=
        aside_sched [Kind.runScheduled, Kind.device, Kind.silence] s _ (by simp) rfl
      exact aside_then (aside_then e1 (runScheduledAcquisition_aside cfg _ _ _))
        (selectNextInLoop_aside _ inp)
    · split
      · exact selectNextInLoop_aside s inp
      · split
        · split
          · exact selectNextInLoop_aside s inp
          · split
            · split
              · exact selectNextInLoop_aside s inp
              · exact aside_refl _ s
            · exact aside_refl _ s
        · exact aside_refl _ s
  · exact aside_refl _ s

theorem exposureModeCheck_aside (cfg : Config) (s : LoopState) (t : Int) :
    Aside [Kind.exposure] s (exposureModeCheck cfg s t) := by
  unfold exposureModeCheck
  refine aside_ite _ (aside_ite _ ?_ ?_) (aside_refl _ s)
  · have := aside_flags [Kind.exposure] s true s.exposureControlStatus (by simp)
    exact this
  · refine aside_then ?_ (aside_flags _ _ false false (by simp))
    exact aside_ite _
      (aside_ite _ (aside_emit _ s _ (by simp [Event.kind]))
        (aside_ite _ (aside_emit _ s _ (by simp [Event.kind])) (aside_refl _ s)))
      (aside_refl _ s)

theorem stackCheck_aside (cfg : Config) (s : LoopState) (t : Int) :
    Aside [Kind.silence] s (stackCheck cfg s t) := by
  unfold stackCheck
  exact aside_ite _
    (aside_ite _ (aside_enable _ s true)
      (aside_then (aside_ite (s.enableStackThread = true)
        (silenceStack_aside _ s (by simp)) (aside_refl _ s)) (aside_enable _ _ false)))
    (aside_refl _ s)

/-! ## The regular acquisition counter -/

/-- A tick of a live input that grabbed frame `f`, spelled out part by part. -/
theorem tick_unfold (cfg : Config) (s : LoopState) (inp : TickInput) (f : Frame)
    (hlive : cfg.videoFramesInput = false) (hgrab : inp.grab = some f) :
    tick cfg s inp =
      match scheduleCheck cfg
          (regularCheck cfg (exposureControl (frameSharing cfg s f) f inp.controlResult)
            f.timeInSec inp.regularShots) f inp with
      | .ok d => .ok (stackCheck cfg (exposureModeCheck cfg d f.timeInSec) f.timeInSec)
      | .error d => .error d := by
  unfold tick timeChecks
  simp [hgrab, hlive]

theorem pre_regular_aside (cfg : Config) (s : LoopState) (f : Frame) (c : Bool) :
    Aside [Kind.share, Kind.silence, Kind.control] s
      (exposureControl (frameSharing cfg s f) f c) :=
  aside_then (aside_mono (by simp) (frameSharing_aside cfg s f))
    (aside_mono (by simp) (exposureControl_aside _ f c))

theorem post_schedule_aside (cfg : Config) (s : LoopState) (t : Int) :
    Aside [Kind.exposure, Kind.silence] s (stackCheck cfg (exposureModeCheck cfg s t) t) :=
  aside_then (aside_mono (by simp) (exposureModeCheck_aside cfg s t))
    (aside_mono (by simp) (stackCheck_aside cfg _ t))

theorem eventsOfKind_append (k : Kind) (a b : List Event) :
    eventsOfKind k (a ++ b) = eventsOfKind k a ++ eventsOfKind k b := by
  unfold eventsOfKind; exact List.filter_append _ _

theorem eventsOfKind_diversionEvents (k : Kind) (hd : k ≠ Kind.device) (hs : k ≠ Kind.silence)
    (cfg : Config) (en : Bool) (exposure gain format : Int) (shots : Nat → Bool) (n : Nat) :
    eventsOfKind k (diversionEvents cfg en exposure gain format shots n) = [] := by
  unfold eventsOfKind
  rw [List.filter_eq_nil_iff]
  intro e he
  simp only [decide_eq_true_eq]
  intro hk
  rcases diversionEvents_kind _ _ _ _ _ _ _ e he with h | h
  · exact hd (hk ▸ h)
  · exact hs (hk ▸ h)

/-- The regular check on a night frame with regular acquisition enabled: the diversion
runs when the counter has reached the interval, else the counter is incremented. -/
theorem regularCheck_night (cfg : Config) (s : LoopState) (t : Int) (shots : Nat → Bool)
    (hreg : cfg.acqRegularEnabled = true) (hnight : regularNightTest s.win t = true) :
    (regularCheck cfg s t shots).regularAcqFrameCounter
        = (if s.regularAcqFrameCounter ≥ s.regularAcqFrameInterval then 0
            else s.regularAcqFrameCounter + 1) ∧
    eventsOfKind Kind.runRegular (regularCheck cfg s t shots).trace
        = eventsOfKind Kind.runRegular s.trace ++
          (if s.regularAcqFrameCounter ≥ s.regularAcqFrameInterval
            then [Event.runRegularAcquisition] else []) := by
  unfold regularCheck
  simp only [hreg, hnight, if_true]
  by_cases hc : s.regularAcqFrameCounter ≥ s.regularAcqFrameInterval
  · simp only [hc, if_true]
    refine ⟨trivial, ?_⟩
    rw [runRegularAcquisition_eq]
    show eventsOfKind Kind.runRegular (s.trace ++ _ :: _) = _
    rw [eventsOfKind_append,
      show ∀ (e : Event) (l : List Event), e :: l = [e] ++ l from fun _ _ => rfl,
      eventsOfKind_append, eventsOfKind_diversionEvents _ (by decide) (by decide)]
    rfl
  · simp only [hc, if_false]
    exact ⟨trivial, by rw [List.append_nil]⟩

/-- One live night tick with regular acquisition enabled, seen from the frame counter. -/
theorem tick_regular (cfg : Config) (s s1 : LoopState) (inp : TickInput) (f : Frame)
    (hreg : cfg.acqRegularEnabled = true) (hlive : cfg.videoFramesInput = false)
    (hgrab : inp.grab = some f) (hnight : regularNightTest s.win f.timeInSec = true)
    (hok : tick cfg s inp = .ok s1) :
    s1.regularAcqFrameCounter
        = (if s.regularAcqFrameCounter ≥ s.regularAcqFrameInterval then 0
            else s.regularAcqFrameCounter + 1) ∧
    eventsOfKind Kind.runRegular s1.trace
        = eventsOfKind Kind.runRegular s.trace ++
          (if s.regularAcqFrameCounter ≥ s.regularAcqFrameInterval
            then [Event.runRegularAcquisition] else []) ∧
    s1.regularAcqFrameInterval = s.regularAcqFrameInterval ∧ s1.win = s.win := by
  rw [tick_unfold cfg s inp f hlive hgrab] at hok
  have hpre := pre_regular_aside cfg s f inp.controlResult
  generalize exposureControl (frameSharing cfg s f) f inp.controlResult = b at hok hpre
  have hreg2 := regularCheck_night cfg b f.timeInSec inp.regularShots hreg
    (by rw [hpre.win]; exact hnight)
  have hregA := regularCheck_aside cfg b f.timeInSec inp.regularShots
  generalize regularCheck cfg b f.timeInSec inp.regularShots = c at hok hreg2 hregA
  have hsch := scheduleCheck_aside cfg c f inp
  cases hd : scheduleCheck cfg c f inp with
  | error d => rw [hd] at hok; cases hok
  | ok d =>
    rw [hd] at hok hsch
    simp only [finalState] at hsch
    cases hok
    have hpost := post_schedule_aside cfg d f.timeInSec
    refine ⟨?_, ?_, ?_, ?_⟩
    · rw [hpost.counter (by decide), hsch.counter (by decide), hreg2.1,
        hpre.counter (by decide), hpre.interval]
    · rw [aside_eventsOfKind hpost _ (by decide), aside_eventsOfKind hsch _ (by decide),
        hreg2.2, aside_eventsOfKind hpre _ (by decide), hpre.counter (by decide),
        hpre.interval]
    · rw [hpost.interval, hsch.interval, hregA.interval, hpre.interval]
    · rw [hpost.win, hsch.win, hregA.win, hpre.win]

theorem runTicks_append (cfg : Config) :
    ∀ (a b : List TickInput) (s : LoopState),
      runTicks cfg s (a ++ b) =
        match runTicks cfg s a with
        | .ok s1 => runTicks cfg s1 b
        | .error s1 => .error s1 := by
  intro a
  induction a with
  | nil => intro b s; rfl
  | cons inp a ih =>
    intro b s
    simp only [List.cons_append, runTicks]
    cases tick cfg s inp with
    | ok s1 => exact ih b s1
    | error s1 => rfl

/-- A run that ends normally also ends normally after each of its first `n` ticks. -/
theorem runTicks_take (cfg : Config) (inps : List TickInput) (s s1 : LoopState) (n : Nat)
    (hrun : runTicks cfg s inps = .ok s1) :
    ∃ sn, runTicks cfg s (inps.take n) = .ok sn := by
  have h := runTicks_append cfg (inps.take n) (inps.drop n) s
  rw [List.take_append_drop, hrun] at h
  cases hp : runTicks cfg s (inps.take n) with
  | ok sn => exact ⟨sn, rfl⟩
  | error sn => rw [hp] at h; cases h

theorem runTicks_regular (cfg : Config) (K : Nat)
    (hreg : cfg.acqRegularEnabled = true) (hlive : cfg.videoFramesInput = false) :
    ∀ (inps : List TickInput) (s s1 : LoopState) (c : Nat),
      s.regularAcqFrameInterval = (K : Int) → s.regularAcqFrameCounter = (c : Int) → c ≤ K →
      (∀ inp ∈ inps, ∃ f, inp.grab = some f ∧ regularNightTest s.win f.timeInSec = true) →
      runTicks cfg s inps = .ok s1 →
      s1.regularAcqFrameCounter = (((c + inps.length) % (K + 1) : Nat) : Int) ∧
      (eventsOfKind Kind.runRegular s1.trace).length
        = (eventsOfKind Kind.runRegular s.trace).length + (c + inps.length) / (K + 1) := by
  intro inps
  induction inps with
  | nil =>
    intro s s1 c _ hc hcK _ hrun
    unfold runTicks at hrun
    cases hrun
    have h1 : c % (K + 1) = c := Nat.mod_eq_of_lt (by omega)
    have h2 : c / (K + 1) = 0 := Nat.div_eq_of_lt (by omega)
    simp [hc, h1, h2]
  | cons inp rest ih =>
    intro s s1 c hK hc hcK hin hrun
    obtain ⟨f, hgrab, hnight⟩ := hin inp (List.mem_cons_self _ _)
    unfold runTicks at hrun
    cases ht : tick cfg s inp with
    | error e => rw [ht] at hrun; cases hrun
    | ok s2 =>
      rw [ht] at hrun
      simp only [] at hrun
      obtain ⟨hcnt, hev, hint, hwin⟩ := tick_regular cfg s s2 inp f hreg hlive hgrab hnight ht
      have hin2 : ∀ i ∈ rest,
          ∃ f, i.grab = some f ∧ regularNightTest s2.win f.timeInSec = true := by
        intro i hi
        rw [hwin]
        exact hin i (List.mem_cons_of_mem _ hi)
      rw [hK, hc] at hcnt hev
      by_cases hfire : (c : Int) ≥ (K : Int)
      · have hcK2 : c = K := by omega
        simp only [hfire, if_true] at hcnt hev
        obtain ⟨h1, h2⟩ := ih s2 s1 0 (hint.trans hK) (by simpa using hcnt) (Nat.zero_le _)
          hin2 hrun
        have e1 : c + (inp :: rest).length = rest.length + (K + 1) := by
          simp only [List.length_cons]; omega
        rw [e1, Nat.add_mod_right, Nat.add_div_right _ (Nat.succ_pos K)]
        rw [Nat.zero_add] at h1 h2
        refine ⟨h1, ?_⟩
        rw [h2, hev]
        simp only [List.length_append, List.length_singleton, Nat.succ_eq_add_one]
        omega
      · simp only [hfire, if_false] at hcnt hev
        obtain ⟨h1, h2⟩ := ih s2 s1 (c + 1) (hint.trans hK) (by rw [hcnt]; push_cast; rfl)
          (by omega) hin2 hrun
        have e1 : c + (inp :: rest).length = c + 1 + rest.length := by
          simp only [List.length_cons]; omega
        rw [e1]
        refine ⟨h1, ?_⟩
        rw [h2, hev, List.append_nil]

/-! ## The schedule check -/

/-- The call of `selectNextAcquisitionSchedule` inside the loop changes the schedule
members only, to whatever the routine leaves (on return or on exception). -/
theorem selectNextInLoop_final (st : LoopState) (inp : TickInput) :
    ∃ ss, (selectNextAcquisitionSchedule st.sched inp.clockH inp.clockM inp.clockS = .ok ss ∨
        selectNextAcquisitionSchedule st.sched inp.clockH inp.clockM inp.clockS = .error ss) ∧
      finalState (selectNextInLoop st inp) = { st with sched := ss } := by
  unfold selectNextInLoop
  cases selectNextAcquisitionSchedule st.sched inp.clockH inp.clockM inp.clockS with
  | ok ss => exact ⟨ss, Or.inl rfl, rfl⟩
  | error ss => exact ⟨ss, Or.inr rfl, rfl⟩

theorem scheduleCheck_hit (cfg : Config) (c : LoopState) (f : Frame) (inp : TickInput)
    (hne : c.sched.ACQ_SCHEDULE ≠ []) (hen : cfg.acqScheduleEnabled = true)
    (hhit : frameAtTask f c.sched.nextTask) :
    scheduleCheck cfg c f inp
      = selectNextInLoop
          (runScheduledAcquisition cfg
            { c with sched := { c.sched with nextTask := datedTask c f } }
            (datedTask c f) inp.scheduledShots) inp := by
  have hlen : c.sched.ACQ_SCHEDULE.length ≠ 0 := fun h => hne (List.length_eq_zero.1 h)
  unfold scheduleCheck
  unfold frameAtTask at hhit
  simp only [hlen, hen, ne_eq, not_false_eq_true, decide_True, Bool.and_self, if_true]
  rw [if_pos hhit]
  rfl

theorem scheduleCheck_miss (cfg : Config) (c : LoopState) (f : Frame) (inp : TickInput)
    (hne : c.sched.ACQ_SCHEDULE ≠ []) (hen : cfg.acqScheduleEnabled = true)
    (hmiss : ¬ frameAtTask f c.sched.nextTask) :
    scheduleCheck cfg c f inp
      = (if frameAfterTask f c.sched.nextTask then selectNextInLoop c inp else .ok c) := by
  have hlen : c.sched.ACQ_SCHEDULE.length ≠ 0 := fun h => hne (List.length_eq_zero.1 h)
  unfold scheduleCheck
  unfold frameAtTask at hmiss
  unfold frameAfterTask
  simp only [hlen, hen, ne_eq, not_false_eq_true, decide_True, Bool.and_self, if_true]
  rw [if_neg hmiss]
  by_cases h1 : f.hour > c.sched.nextTask.H
  · rw [if_pos h1, if_pos (Or.inl h1)]
  · rw [if_neg h1]
    by_cases h2 : f.hour = c.sched.nextTask.H
    · rw [if_pos h2]
      by_cases h3 : f.minute > c.sched.nextTask.M
      · rw [if_pos h3, if_pos (Or.inr ⟨h2, Or.inl h3⟩)]
      · rw [if_neg h3]
        by_cases h4 : f.minute = c.sched.nextTask.M
        · rw [if_pos h4]
          by_cases h5 : f.second > c.sched.nextTask.S
          · rw [if_pos h5, if_pos (Or.inr ⟨h2, Or.inr ⟨h4, h5⟩⟩)]
          · rw [if_neg h5, if_neg (by omega)]
        · rw [if_neg h4, if_neg (by omega)]
    · rw [if_neg h2, if_neg (by omega)]

/-- A live tick seen from the schedule check: the parts before it and the parts after it
leave the cursor and the armed task alone and run no scheduled diversion; with regular
acquisition disabled the parts before it send nothing to the device either. -/
theorem tick_schedule_view (cfg : Config) (s : LoopState) (inp : TickInput) (f : Frame)
    (hlive : cfg.videoFramesInput = false) (hgrab : inp.grab = some f) :
    ∃ c, Aside [Kind.share, Kind.silence, Kind.control, Kind.runRegular, Kind.device] s c ∧
      Aside [Kind.exposure, Kind.silence] (finalState (scheduleCheck cfg c f inp))
        (finalState (tick cfg s inp)) ∧
      (∀ d, scheduleCheck cfg c f inp = .ok d → ∃ s1, tick cfg s inp = .ok s1) ∧
      (cfg.acqRegularEnabled = false → Aside [Kind.share, Kind.silence, Kind.control] s c) := by
  refine ⟨regularCheck cfg (exposureControl (frameSharing cfg s f) f inp.controlResult)
    f.timeInSec inp.regularShots, ?_, ?_, ?_, ?_⟩
  · exact aside_then (aside_mono (by simp) (pre_regular_aside cfg s f inp.controlResult))
      (aside_mono (by simp) (regularCheck_aside cfg _ _ _))
  · rw [tick_unfold cfg s inp f hlive hgrab]
    cases scheduleCheck cfg (regularCheck cfg
        (exposureControl (frameSharing cfg s f) f inp.controlResult)
        f.timeInSec inp.regularShots) f inp with
    | ok d => exact post_schedule_aside cfg d f.timeInSec
    | error d => exact aside_refl _ d
  · intro d hd
    rw [tick_unfold cfg s inp f hlive hgrab, hd]
    exact ⟨_, rfl⟩
  · intro hreg
    have : regularCheck cfg (exposureControl (frameSharing cfg s f) f inp.controlResult)
        f.timeInSec inp.regularShots
        = exposureControl (frameSharing cfg s f) f inp.controlResult := by
      unfold regularCheck
      simp [hreg]
    rw [this]
    exact pre_regular_aside cfg s f inp.controlResult

/-- What the schedule check leaves behind, by position of the frame time relative to the
armed task. -/
theorem scheduleCheck_final (cfg : Config) (c : LoopState) (f : Frame) (inp : TickInput)
    (hne : c.sched.ACQ_SCHEDULE ≠ []) (hen : cfg.acqScheduleEnabled = true) :
    (frameAtTask f c.sched.nextTask →
      eventsOfKind Kind.runScheduled (finalState (scheduleCheck cfg c f inp)).trace
        = eventsOfKind Kind.runScheduled c.trace
            ++ [Event.runScheduledAcquisition (datedTask c f)] ∧
      ∃ ss, (selectNextAcquisitionSchedule { c.sched with nextTask := datedTask c f }
                inp.clockH inp.clockM inp.clockS = .ok ss ∨
             selectNextAcquisitionSchedule { c.sched with nextTask := datedTask c f }
                inp.clockH inp.clockM inp.clockS = .error ss) ∧
        (finalState (scheduleCheck cfg c f inp)).sched = ss) ∧
    (¬ frameAtTask f c.sched.nextTask →
      (finalState (scheduleCheck cfg c f inp)).trace = c.trace) ∧
    (frameAfterTask f c.sched.nextTask →
      ∃ ss, (selectNextAcquisitionSchedule c.sched inp.clockH inp.clockM inp.clockS = .ok ss ∨
             selectNextAcquisitionSchedule c.sched inp.clockH inp.clockM inp.clockS
               = .error ss) ∧
        (finalState (scheduleCheck cfg c f inp)).sched = ss) ∧
    (frameBeforeTask f c.sched.nextTask → scheduleCheck cfg c f inp = .ok c) := by
  have hnot_after : frameAfterTask f c.sched.nextTask → ¬ frameAtTask f c.sched.nextTask := by
    unfold frameAfterTask frameAtTask; omega
  have hnot_before : frameBeforeTask f c.sched.nextTask →
      ¬ frameAtTask f c.sched.nextTask := by
    unfold frameBeforeTask frameAtTask; omega
  refine ⟨?_, ?_, ?_, ?_⟩
  · intro hhit
    rw [scheduleCheck_hit cfg c f inp hne hen hhit]
    obtain ⟨ss, hss, hfin⟩ := selectNextInLoop_final
      (runScheduledAcquisition cfg
        { c with sched := { c.sched with nextTask := datedTask c f } }
        (datedTask c f) inp.scheduledShots) inp
    rw [hfin, runScheduledAcquisition_eq] at *
    refine ⟨?_, ss, hss, rfl⟩
    show eventsOfKind Kind.runScheduled (c.trace ++ _ :: _) = _
    rw [eventsOfKind_append,
      show ∀ (e : Event) (l : List Event), e :: l = [e] ++ l from fun _ _ => rfl,
      eventsOfKind_append, eventsOfKind_diversionEvents _ (by decide) (by decide)]
    rfl
  · intro hmiss
    rw [scheduleCheck_miss cfg c f inp hne hen hmiss]
    split
    · obtain ⟨ss, -, hfin⟩ := selectNextInLoop_final c inp
      rw [hfin]
    · rfl
  · intro hafter
    rw [scheduleCheck_miss cfg c f inp hne hen (hnot_after hafter), if_pos hafter]
    obtain ⟨ss, hss, hfin⟩ := selectNextInLoop_final c inp
    exact ⟨ss, hss, by rw [hfin]⟩
  · intro hbefore
    rw [scheduleCheck_miss cfg c f inp hne hen (hnot_before hbefore)]
    have : ¬ frameAfterTask f c.sched.nextTask := by
      unfold frameBeforeTask at hbefore
      unfold frameAfterTask
      omega
    rw [if_neg this]

/-! ## A tick that misses the armed task -/

/-- A successfully grabbed tick of a live input with a non-empty, enabled schedule, every
diversion called in it being back in the loop after its last statement: if the time of
the frame is strictly later than the armed task, no scheduled
diversion is invoked and the schedule members after the tick are what
`selectNextAcquisitionSchedule` leaves when called on the unchanged ones; if it is
strictly earlier, the tick ends normally, no scheduled diversion is invoked and the
cursor and the armed task are unchanged. In both cases, with the regular acquisition
disabled, the tick sends no diversion command (stop, single shot, restart) to the device
at all. -/
theorem tick_missed_task (cfg : Config) (s : LoopState) (inp : TickInput) (f : Frame)
    (hne : s.sched.ACQ_SCHEDULE ≠ []) (hen : cfg.acqScheduleEnabled = true)
    (hlive : cfg.videoFramesInput = false) (hgrab : inp.grab = some f) :
    (frameAfterTask f s.sched.nextTask →
      eventsOfKind Kind.runScheduled (finalState (tick cfg s inp)).trace
        = eventsOfKind Kind.runScheduled s.trace ∧
      (∃ ss, (selectNextAcquisitionSchedule s.sched inp.clockH inp.clockM inp.clockS = .ok ss ∨
             selectNextAcquisitionSchedule s.sched inp.clockH inp.clockM inp.clockS
               = .error ss) ∧
        (finalState (tick cfg s inp)).sched = ss) ∧
      (cfg.acqRegularEnabled = false →
        eventsOfKind Kind.device (finalState (tick cfg s inp)).trace
          = eventsOfKind Kind.device s.trace)) ∧
    (frameBeforeTask f s.sched.nextTask →
      (∃ s1, tick cfg s inp = .ok s1) ∧
      eventsOfKind Kind.runScheduled (finalState (tick cfg s inp)).trace
        = eventsOfKind Kind.runScheduled s.trace ∧
      (finalState (tick cfg s inp)).sched = s.sched ∧
      (cfg.acqRegularEnabled = false →
        eventsOfKind Kind.device (finalState (tick cfg s inp)).trace
          = eventsOfKind Kind.device s.trace)) := by
  obtain ⟨c, hpre, hpost, hok, hquiet⟩ := tick_schedule_view cfg s inp f hlive hgrab
  have hsched : c.sched = s.sched := hpre.sched (by decide)
  obtain ⟨-, hmiss, hafter, hbefore⟩ :=
    scheduleCheck_final cfg c f inp (by rw [hsched]; exact hne) hen
  rw [hsched] at hmiss hafter hbefore
  have hev : eventsOfKind Kind.runScheduled c.trace = eventsOfKind Kind.runScheduled s.trace :=
    aside_eventsOfKind hpre _ (by decide)
  have hdev : ¬ frameAtTask f s.sched.nextTask → cfg.acqRegularEnabled = false →
      eventsOfKind Kind.device (finalState (tick cfg s inp)).trace
        = eventsOfKind Kind.device s.trace := by
    intro hno hreg
    rw [aside_eventsOfKind hpost _ (by decide), hmiss hno,
      aside_eventsOfKind (hquiet hreg) _ (by decide)]
  constructor
  · intro h
    have hno : ¬ frameAtTask f s.sched.nextTask := by
      unfold frameAfterTask at h; unfold frameAtTask; omega
    obtain ⟨ss, hss, hfin⟩ := hafter h
    exact ⟨by rw [aside_eventsOfKind hpost _ (by decide), hmiss hno, hev],
      ⟨ss, hss, by rw [hpost.sched (by decide), hfin]⟩, hdev hno⟩
  · intro h
    have hno : ¬ frameAtTask f s.sched.nextTask := by
      unfold frameBeforeTask at h; unfold frameAtTask; omega
    have hc := hbefore h
    refine ⟨hok c hc, by rw [aside_eventsOfKind hpost _ (by decide), hmiss hno, hev], ?_,
      hdev hno⟩
    rw [hpost.sched (by decide), hc]
    exact hsched

/-! ## The exposure controller without sunrise or sunset times -/

theorem inert_aside {ks : List Kind} {s s1 : LoopState} (h : Aside ks s s1)
    (hc : Kind.control ∉ ks) (he : Kind.exposure ∉ ks) (hi : Inert s) : Inert s1 := by
  obtain ⟨hw, ha, h1, h2⟩ := hi
  exact ⟨by rw [h.win, hw], by rw [h.active he, ha],
    by rw [aside_eventsOfKind h _ hc, h1], by rw [aside_eventsOfKind h _ he, h2]⟩

theorem exposureControl_inactive (s : LoopState) (f : Frame) (c : Bool)
    (ha : s.exposureControlActive = false) : exposureControl s f c = s := by
  unfold exposureControl
  simp [ha]

theorem exposureModeCheck_inert (cfg : Config) (s : LoopState) (t : Int) (hi : Inert s) :
    Inert (exposureModeCheck cfg s t) := by
  obtain ⟨hw, ha, h1, h2⟩ := hi
  have hno : sunriseSunsetTest s.win t = false := by
    rw [hw]
    unfold sunriseSunsetTest
    simp only [Bool.or_eq_false_iff, Bool.and_eq_false_iff, decide_eq_false_iff_not]
    omega
  unfold exposureModeCheck
  split
  · simp only [hno, ha, Bool.false_eq_true, if_false]
    exact ⟨hw, rfl, h1, h2⟩
  · exact ⟨hw, ha, h1, h2⟩

theorem tick_inert (cfg : Config) (s : LoopState) (inp : TickInput) (hi : Inert s) :
    Inert (finalState (tick cfg s inp)) := by
  cases hg : inp.grab with
  | none =>
    unfold tick
    rw [hg]
    exact hi
  | some f =>
    have ha : Inert (frameSharing cfg s f) :=
      inert_aside (frameSharing_aside cfg s f) (by decide) (by decide) hi
    have hb : exposureControl (frameSharing cfg s f) f inp.controlResult
        = frameSharing cfg s f := exposureControl_inactive _ f _ ha.2.1
    cases hv : cfg.videoFramesInput with
    | true =>
      unfold tick
      simp only [hg, hv, Bool.not_true, Bool.false_eq_true, if_false, hb]
      exact ha
    | false =>
      rw [tick_unfold cfg s inp f hv hg, hb]
      have hc : Inert (regularCheck cfg (frameSharing cfg s f) f.timeInSec inp.regularShots) :=
        inert_aside (regularCheck_aside cfg _ _ _) (by decide) (by decide) ha
      have hd := inert_aside (scheduleCheck_aside cfg
        (regularCheck cfg (frameSharing cfg s f) f.timeInSec inp.regularShots) f inp)
        (by decide) (by decide) hc
      cases hs : scheduleCheck cfg
          (regularCheck cfg (frameSharing cfg s f) f.timeInSec inp.regularShots) f inp with
      | error d => rw [hs] at hd; exact hd
      | ok d =>
        rw [hs] at hd
        exact inert_aside (stackCheck_aside cfg _ _) (by decide) (by decide)
          (exposureModeCheck_inert cfg d _ hd)

theorem startup_inert (cfg : Config) (index0 : Int) (task0 : AcqSchedule)
    (clockH clockM clockS : Int) (fb : CircularBuffer) (det stack : Bool) (s : LoopState)
    (habsent : cfg.sunriseTime = [] ∨ cfg.sunsetTime = [])
    (h : startup cfg index0 task0 clockH clockM clockS fb det stack = some s) : Inert s := by
  have hw : windowBoundaries cfg = some ⟨0, 0, 0, 0⟩ := by
    unfold windowBoundaries
    rcases habsent with h0 | h0 <;> simp [h0]
  unfold startup at h
  rw [hw] at h
  split at h
  · cases h
  · split at h
    · cases h
    · simp only [Option.some.injEq] at h
      subst h
      exact ⟨rfl, rfl, rfl, rfl⟩

theorem reachable_inert (cfg : Config) (s : LoopState)
    (habsent : cfg.sunriseTime = [] ∨ cfg.sunsetTime = []) (h : Reachable cfg s) :
    Inert s := by
  induction h with
  | start index0 task0 clockH clockM clockS fb det stack s hs =>
    exact startup_inert cfg index0 task0 clockH clockM clockS fb det stack s habsent hs
  | tick s s1 inp _ hok ih =>
    have := tick_inert cfg s inp ih
    rw [hok] at this
    exact this
  | dataset s _ ih =>
    exact inert_aside (resetFrameBuffer_aside [Kind.silence] s (by simp))
      (by decide) (by decide) ih

/-- C18: when the sunrise time or the sunset time is absent from the configuration, in
every state the loop reaches and after every further tick (however it ends) the four
window boundaries are 0, the metering-active flag is false, the metering collaborator
has never been called and no exposure or gain (day or night) has been written to the
device. -/
theorem controller_inert_without_sun_times (cfg : Config) (s : LoopState)
    (habsent : cfg.sunriseTime = [] ∨ cfg.sunsetTime = []) (hreach : Reachable cfg s) :
    (s.win = { timeStartSunrise := 0, timeStopSunrise := 0, timeStartSunset := 0,
               timeStopSunset := 0 } ∧
      s.exposureControlActive = false ∧
      eventsOfKind Kind.control s.trace = [] ∧ eventsOfKind Kind.exposure s.trace = []) ∧
    ∀ inp, (finalState (tick cfg s inp)).exposureControlActive = false ∧
      eventsOfKind Kind.control (finalState (tick cfg s inp)).trace = [] ∧
      eventsOfKind Kind.exposure (finalState (tick cfg s inp)).trace = [] := by
  have hi := reachable_inert cfg s habsent hreach
  refine ⟨hi, fun inp => ?_⟩
  exact (tick_inert cfg s inp hi).2

/-- Witness for C18: the sample station without sunrise time, at a frame stamped
06:10:00. -/
theorem controller_inert_without_sun_times_witness :
    (finalState (tick noSunriseConfig noSunriseStart
        (grabbed (frameAt 1 6 10 0) true))).exposureControlActive = false :=
  ((controller_inert_without_sun_times noSunriseConfig noSunriseStart (Or.inl rfl)
    (Reachable.start 0 (mkTask 0 0 0) 6 9 59 { capacity := 3, items := [] } false false
      noSunriseStart (by decide))).2 (grabbed (frameAt 1 6 10 0) true)).1

/-! ## The one-shot invalidation of withheld frames -/

theorem frameSharing_cleanStatus (cfg : Config) (s : LoopState) (f : Frame) :
    (frameSharing cfg s f).cleanStatus = s.exposureControlStatus := by
  unfold frameSharing
  cases hst : s.exposureControlStatus
  · simp only [Bool.not_false, if_true]
    unfold shareFrame
    simp only []
  · simp only [Bool.not_true, Bool.false_eq_true, if_false]
    unfold withholdFrame
    cases hc : s.cleanStatus
    · simp only [Bool.not_false, if_true]
    · simp only [Bool.not_true, Bool.false_eq_true, if_false, hc]

theorem withholdFrame_first (cfg : Config) (s : LoopState) (hc : s.cleanStatus = false) :
    withholdFrame cfg s = afterInvalidation cfg s := by
  cases s
  simp only at hc
  subst hc
  cases h1 : cfg.hasStackProcess <;> cases h2 : cfg.hasDetectionProcess <;>
    simp [withholdFrame, afterInvalidation, withholdEvents, silenceStack, silenceDetection,
      resetFrameBuffer, LoopState.emit, h1, h2]

/-- After a tick that grabbed a frame and ended normally, `cleanStatus` tells whether
that frame was withheld. -/
theorem tick_cleanStatus (cfg : Config) (s s1 : LoopState) (inp : TickInput) (f : Frame)
    (hgrab : inp.grab = some f) (hok : tick cfg s inp = .ok s1) :
    s1.cleanStatus = s.exposureControlStatus := by
  have hb : (exposureControl (frameSharing cfg s f) f inp.controlResult).cleanStatus
      = s.exposureControlStatus := by
    rw [(exposureControl_aside _ f _).cleanStatus (by decide)]
    exact frameSharing_cleanStatus cfg s f
  cases hv : cfg.videoFramesInput with
  | true =>
    unfold tick at hok
    simp only [hgrab, hv, Bool.not_true, Bool.false_eq_true, if_false] at hok
    cases hok
    exact hb
  | false =>
    rw [tick_unfold cfg s inp f hv hgrab] at hok
    have hc := regularCheck_aside cfg
      (exposureControl (frameSharing cfg s f) f inp.controlResult) f.timeInSec inp.regularShots
    have hd := scheduleCheck_aside cfg (regularCheck cfg
      (exposureControl (frameSharing cfg s f) f inp.controlResult)
      f.timeInSec inp.regularShots) f inp
    cases hs : scheduleCheck cfg (regularCheck cfg
        (exposureControl (frameSharing cfg s f) f inp.controlResult)
        f.timeInSec inp.regularShots) f inp with
    | error d => rw [hs] at hok; cases hok
    | ok d =>
      rw [hs] at hok hd
      simp only [finalState] at hd
      cases hok
      rw [(post_schedule_aside cfg d f.timeInSec).cleanStatus (by decide),
        hd.cleanStatus (by decide), hc.cleanStatus (by decide)]
      exact hb

/-- Ticks whose grab fails only count. -/
theorem runTicks_failed (cfg : Config) :
    ∀ (fails : List TickInput) (s s1 : LoopState), (∀ i ∈ fails, i.grab = none) →
      runTicks cfg s fails = .ok s1 →
      s1 = { s with nbFailGrabbedFrames := s.nbFailGrabbedFrames + fails.length } := by
  intro fails
  induction fails with
  | nil =>
    intro s s1 _ hrun
    unfold runTicks at hrun
    cases hrun
    rfl
  | cons i rest ih =>
    intro s s1 hall hrun
    unfold runTicks at hrun
    have hi : tick cfg s i = .ok { s with nbFailGrabbedFrames := s.nbFailGrabbedFrames + 1 } := by
      unfold tick
      rw [hall i (List.mem_cons_self _ _)]
    rw [hi] at hrun
    simp only [] at hrun
    rw [ih _ s1 (fun j hj => hall j (List.mem_cons_of_mem _ hj)) hrun]
    simp only [List.length_cons, LoopState.mk.injEq, true_and, and_true]
    omega

/-! ## Claims on the invalidation of withheld frames -/

/-- C20: take a successfully grabbed tick (from `s` to `s1`), then any number of ticks
whose grab fails (to `s2`), then the next successfully grabbed tick, on which the frame
is withheld (`exposureControlStatus` true in `s2`). If the earlier frame was shared, so
that a run of withheld frames begins, the frame-sharing step performs the invalidation:
existing consumers have their wake flag cleared and are interrupted, then the buffer is
cleared. If the earlier frame was withheld too, so that the run goes on, the step does
nothing at all. -/
theorem invalidation_once_per_withheld_run (cfg : Config) (s s1 s2 : LoopState)
    (inp1 : TickInput) (f1 f2 : Frame) (fails : List TickInput)
    (hgrab1 : inp1.grab = some f1) (hok1 : tick cfg s inp1 = .ok s1)
    (hfails : ∀ i ∈ fails, i.grab = none) (hrun : runTicks cfg s1 fails = .ok s2)
    (hwith : s2.exposureControlStatus = true) :
    (s.exposureControlStatus = false →
      frameSharing cfg s2 f2 = afterInvalidation cfg s2 ∧
      (frameSharing cfg s2 f2).trace = s2.trace
        ++ ((if cfg.hasStackProcess
              then [Event.setStackSignal false, Event.interruptStack] else [])
          ++ (if cfg.hasDetectionProcess
              then [Event.setDetSignal false, Event.interruptDetection] else [])
          ++ [Event.clearFrameBuffer]) ∧
      (frameSharing cfg s2 f2).frameBuffer.items = []) ∧
    (s.exposureControlStatus = true → frameSharing cfg s2 f2 = s2) := by
  have hclean1 := tick_cleanStatus cfg s s1 inp1 f1 hgrab1 hok1
  have hs2 := runTicks_failed cfg fails s1 s2 hfails hrun
  have hclean2 : s2.cleanStatus = s.exposureControlStatus := by rw [hs2]; exact hclean1
  have hfs : frameSharing cfg s2 f2 = withholdFrame cfg s2 := by
    unfold frameSharing
    simp [hwith]
  constructor
  · intro hshared
    have h := withholdFrame_first cfg s2 (by rw [hclean2, hshared])
    rw [hfs, h]
    exact ⟨rfl, rfl, rfl⟩
  · intro hwithheld
    rw [hfs]
    unfold withholdFrame
    simp [hclean2, hwithheld]

/-- Witness for C20: in the sunrise window of the sample station, metering is active and
answers true on a frame that is shared; the next frame opens a run of withheld frames
and the invalidation is performed. -/
theorem invalidation_once_per_withheld_run_witness :
    ∃ s1, tick sampleConfig { sampleStart with exposureControlActive := true }
        (grabbed (frameAt 1 6 10 0) true) = .ok s1 ∧
      (frameSharing sampleConfig s1 (frameAt 2 6 10 1)).trace
        = s1.trace ++ [Event.setStackSignal false, Event.interruptStack,
            Event.setDetSignal false, Event.interruptDetection, Event.clearFrameBuffer] :=
  ⟨_, rfl,
    ((invalidation_once_per_withheld_run sampleConfig
      { sampleStart with exposureControlActive := true } _ _
      (grabbed (frameAt 1 6 10 0) true) (frameAt 1 6 10 0) (frameAt 2 6 10 1) []
      rfl rfl (by simp) rfl (by decide)).1 (by decide)).2.1⟩

/-! ## The end of the thread body -/

/-- An exception that leaves the inner loop is either the one of the tick itself (a
`std::exception`) or one that a collaborator raised. -/
theorem innerLoop_raised (cfg : Config) :
    ∀ (its : List IterInput) (s s1 : LoopState) (r : Raised),
      innerLoop cfg s its = LoopOutcome.raised r s1 →
      r = Raised.stdException ∨ ∃ it ∈ its, it.raised = some r := by
  intro its
  induction its with
  | nil => intro s s1 r h; cases h
  | cons it rest ih =>
    intro s s1 r h
    unfold innerLoop at h
    cases hr : it.raised with
    | some r0 =>
      rw [hr] at h
      cases h
      exact Or.inr ⟨it, List.mem_cons_self _ _, hr⟩
    | none =>
      rw [hr] at h
      simp only [] at h
      cases ht : tick cfg s it.tick with
      | error e =>
        rw [ht] at h
        cases h
        exact Or.inl rfl
      | ok s2 =>
        rw [ht] at h
        simp only [] at h
        split at h
        · rcases ih s2 s1 r h with h1 | ⟨j, hj, hjr⟩
          · exact Or.inl h1
          · exact Or.inr ⟨j, List.mem_cons_of_mem _ hj, hjr⟩
        · cases h

theorem outerLoop_raised (cfg : Config) :
    ∀ (script : List DatasetInput) (s s1 : LoopState) (r : Raised),
      outerLoop cfg s script = LoopOutcome.raised r s1 →
      r = Raised.stdException ∨ ∃ d ∈ script, ∃ it ∈ d.iterations, it.raised = some r := by
  intro script
  induction script with
  | nil => intro s s1 r h; cases h
  | cons d ds ih =>
    intro s s1 r h
    unfold outerLoop at h
    split at h
    · cases h
    · cases hin : innerLoop cfg s d.iterations with
      | running => rw [hin] at h; cases h
      | raised r0 s0 =>
        rw [hin] at h
        cases h
        rcases innerLoop_raised cfg d.iterations s s1 r hin with h1 | ⟨it, hit, hr⟩
        · exact Or.inl h1
        · exact Or.inr ⟨d, List.mem_cons_self _ _, it, hit, hr⟩
      | ended s0 =>
        rw [hin] at h
        simp only [] at h
        split at h
        · cases h
        · split at h
          · rcases ih _ s1 r h with h1 | ⟨d2, hd2, it, hit, hr⟩
            · exact Or.inl h1
            · exact Or.inr ⟨d2, List.mem_cons_of_mem _ hd2, it, hit, hr⟩
          · cases h

/-- C17: whichever way the loops of the thread body are left, normally (stop flag or
device stop status observed and no further dataset, `loadDataset` failure, detection
thread not running, dataset exhausted) or by a `boost::thread_interrupted` or an
exception derived from `std::exception` raised inside them, the thread body returns (the
exception does not leave it), its last two actions on the device are `acqStop` and
`grabStop`, and `threadTerminated` is true. -/
theorem loop_end_shuts_down (cfg : Config) (s : LoopState) (script : List DatasetInput)
    (hno : ∀ d ∈ script, ∀ it ∈ d.iterations, it.raised ≠ some Raised.other) :
    (outerLoop cfg s script = LoopOutcome.running ∧
      threadBody cfg s script = ThreadResult.running) ∨
    ∃ s1, (outerLoop cfg s script = LoopOutcome.ended s1 ∨
        ∃ r, outerLoop cfg s script = LoopOutcome.raised r s1) ∧
      threadBody cfg s script
        = ThreadResult.returned
            { s1 with trace := s1.trace ++ [Event.acqStop, Event.grabStop] } true := by
  unfold threadBody
  cases h : outerLoop cfg s script with
  | running => exact Or.inl ⟨rfl, rfl⟩
  | ended s1 => exact Or.inr ⟨s1, Or.inl rfl, rfl⟩
  | raised r s1 =>
    refine Or.inr ⟨s1, Or.inr ⟨r, rfl⟩, ?_⟩
    cases r with
    | threadInterrupted => rfl
    | stdException => rfl
    | other =>
      rcases outerLoop_raised cfg script s s1 Raised.other h with h1 | ⟨d, hd, it, hit, hr⟩
      · cases h1
      · exact absurd hr (hno d hd it hit)

/-- Witness for C17: the sample station, one dataset, the stop flag is observed at the end
of the first pass and there is no further dataset. -/
theorem loop_end_shuts_down_witness :
    ∃ s1 : LoopState, threadBody sampleConfig sampleStart
        [{ loadDataset := true, iterations := [pass (frameAt 1 1 0 0) true false],
           detectionRunStatus := true, datasetStatus := false }]
      = ThreadResult.returned
          { s1 with trace := s1.trace ++ [Event.acqStop, Event.grabStop] } true := by
  rcases loop_end_shuts_down sampleConfig sampleStart
      [{ loadDataset := true, iterations := [pass (frameAt 1 1 0 0) true false],
         detectionRunStatus := true, datasetStatus := false }]
      (by
        intro d hd it hit
        simp only [List.mem_singleton] at hd
        subst hd
        simp only [List.mem_singleton] at hit
        subst hit
        simp [pass]) with ⟨h, -⟩ | ⟨s1, -, h⟩
  · have he : ∃ x, outerLoop sampleConfig sampleStart
        [{ loadDataset := true, iterations := [pass (frameAt 1 1 0 0) true false],
           detectionRunStatus := true, datasetStatus := false }] = LoopOutcome.ended x :=
      ⟨_, rfl⟩
    obtain ⟨x, hx⟩ := he
    rw [hx] at h
    cases h
  · exact ⟨s1, h⟩

/-- The ways out of the loops, each on a small run of the sample station: `loadDataset`
fails; the stop flag is observed; the device reports its stop status; the detection
thread is not running; a thread interruption is raised; a `std::exception` is raised. In
each case the thread body returns with `threadTerminated` true. -/
theorem thread_body_ways_out :
    (∃ s1, threadBody sampleConfig sampleStart
        [{ loadDataset := false, iterations := [], detectionRunStatus := true,
           datasetStatus := false }] = ThreadResult.returned s1 true) ∧
    (∃ s1, threadBody sampleConfig sampleStart
        [{ loadDataset := true, iterations := [pass (frameAt 1 1 0 0) true false],
           detectionRunStatus := true, datasetStatus := false }]
        = ThreadResult.returned s1 true) ∧
    (∃ s1, threadBody sampleConfig sampleStart
        [{ loadDataset := true, iterations := [pass (frameAt 1 1 0 0) false true],
           detectionRunStatus := true, datasetStatus := false }]
        = ThreadResult.returned s1 true) ∧
    (∃ s1, threadBody sampleConfig sampleStart
        [{ loadDataset := true, iterations := [pass (frameAt 1 1 0 0) true false],
           detectionRunStatus := false, datasetStatus := true }]
        = ThreadResult.returned s1 true) ∧
    (∃ s1, threadBody sampleConfig sampleStart
        [{ loadDataset := true,
           iterations := [pass (frameAt 1 1 0 0) false false,
                          passRaising (frameAt 2 1 0 1) Raised.threadInterrupted],
           detectionRunStatus := true, datasetStatus := true }]
        = ThreadResult.returned s1 true) ∧
    (∃ s1, threadBody sampleConfig sampleStart
        [{ loadDataset := true,
           iterations := [passRaising (frameAt 1 1 0 0) Raised.stdException],
           detectionRunStatus := true, datasetStatus := true }]
        = ThreadResult.returned s1 true) :=
  ⟨⟨_, rfl⟩, ⟨_, rfl⟩, ⟨_, rfl⟩, ⟨_, rfl⟩, ⟨_, rfl⟩, ⟨_, rfl⟩⟩

/-! ## Claims on saving a single shot and on the sort -/

/-- On every other well-formed directory state a `return` is reached, and the value
returned tells whether the captures directory exists afterwards. -/
theorem buildDirectory_returns (fs : Directories) (mk : CreateResults)
    (hwf : fs.WellFormed) (hmissing : fs.captures = false) :
    ∃ b, (buildRegularAcquisitionDirectory fs mk).1 = some b ∧
      b = (buildRegularAcquisitionDirectory fs mk).2.captures := by
  obtain ⟨a, b, c⟩ := fs
  obtain ⟨x, y, z⟩ := mk
  simp only at hmissing
  subst hmissing
  unfold Directories.WellFormed at hwf
  cases a <;> cases b <;> cases x <;> cases y <;> cases z <;>
    simp_all [buildRegularAcquisitionDirectory]

/-- C21 (evaluation at the failing input): when the data path, the station directory and
the captures directory all exist already, whatever the creation calls would answer, the
routine reaches the end of its body without a `return` statement, so it has no defined
result; the directories are untouched. -/
theorem buildDirectory_no_return_when_all_exist (mk : CreateResults) :
    buildRegularAcquisitionDirectory
        { dataPath := true, stationDir := true, captures := true } mk
      = (none, { dataPath := true, stationDir := true, captures := true }) := by
  rfl

/-- C22: for every schedule table `sortAcquisitionSchedule` ends (any iteration bound of at
least the table size is enough) and its result is a rearrangement of the input: same
length, and every entry, with all its fields, occurs in it as many times as in the
input; an empty table stays empty. -/
theorem sortAcquisitionSchedule_permutes (fuel : Nat) (sched : List AcqSchedule)
    (hfuel : sched.length ≤ fuel) :
    ∃ r, sortAcquisitionSchedule fuel sched = some r ∧ r.Perm sched ∧
      r.length = sched.length ∧ (∀ e, r.count e = sched.count e) ∧
      (sched = [] → r = []) := by
  unfold sortAcquisitionSchedule
  by_cases hne : sched.length ≠ 0
  · rw [if_pos hne]
    have hne2 : sched ≠ [] := by
      intro h; rw [h] at hne; simp at hne
    obtain ⟨r, hr, -, hperm⟩ := sortLoop_spec fuel sched [] hne2 hfuel
      List.Pairwise.nil (by intro x hx; simp at hx)
    rw [List.nil_append] at hperm
    exact ⟨r, hr, hperm, hperm.length_eq, fun e => hperm.count_eq e,
      fun h => absurd h hne2⟩
  · rw [if_neg hne]
    exact ⟨sched, rfl, List.Perm.refl _, rfl, fun _ => rfl, fun h => h⟩

/-- Witness for C22 on a table of three tasks. -/
theorem sortAcquisitionSchedule_permutes_witness :
    ∃ r, sortAcquisitionSchedule 3 [mkTask 6 0 0, mkTask 3 30 0, mkTask 3 10 5] = some r ∧
      r.Perm [mkTask 6 0 0, mkTask 3 30 0, mkTask 3 10 5] ∧
      r.length = [mkTask 6 0 0, mkTask 3 30 0, mkTask 3 10 5].length ∧
      (∀ e, r.count e = [mkTask 6 0 0, mkTask 3 30 0, mkTask 3 10 5].count e) ∧
      ([mkTask 6 0 0, mkTask 3 30 0, mkTask 3 10 5] = [] → r = []) :=
  sortAcquisitionSchedule_permutes 3 [mkTask 6 0 0, mkTask 3 30 0, mkTask 3 10 5] (by decide)

/-- C23: in the MONO_12 conversion, for every pixel value `v` of an `unsigned short`
(`v ≤ 65535`) the stored `short` is exactly `v - 32768`, it lies in -32768 .. 32767 (the
conversion to `short` does not wrap), the saturation branch is not taken, and
`bzero + bscale * stored` with `bzero = 32768`, `bscale = 1` gives back `v`. -/
theorem convertPixel_exact (v : Nat) (hv : v ≤ 65535) :
    convertPixel v = (v : Int) - 32768 ∧
    toShort ((v : Int) - 32768) = (v : Int) - 32768 ∧
    -32768 ≤ convertPixel v ∧ convertPixel v ≤ 32767 ∧
    saturationTaken v = false ∧
    physicalValue 32768 1 (convertPixel v) = (v : Int) := by
  have hsat : saturationTaken v = false := by
    unfold saturationTaken
    simp only [decide_eq_false_iff_not]
    omega
  have hshort : toShort ((v : Int) - 32768) = (v : Int) - 32768 := by
    unfold toShort
    omega
  have hpix : convertPixel v = (v : Int) - 32768 := by
    unfold convertPixel
    rw [hsat]
    simp only [Bool.false_eq_true, if_false]
    exact hshort
  refine ⟨hpix, hshort, ?_, ?_, hsat, ?_⟩
  · rw [hpix]; omega
  · rw [hpix]; omega
  · unfold physicalValue
    rw [hpix]; omega

/-- Witness for C23: the largest pixel value. -/
theorem convertPixel_exact_witness :
    convertPixel 65535 = ((65535 : Nat) : Int) - 32768 ∧
    toShort (((65535 : Nat) : Int) - 32768) = ((65535 : Nat) : Int) - 32768 ∧
    -32768 ≤ convertPixel 65535 ∧ convertPixel 65535 ≤ 32767 ∧
    saturationTaken 65535 = false ∧
    physicalValue 32768 1 (convertPixel 65535) = ((65535 : Nat) : Int) :=
  convertPixel_exact 65535 (by decide)

/-- The whole image is converted pixel by pixel without loss. -/
theorem convertImage_exact (img : List (List Nat))
    (himg : ∀ row ∈ img, ∀ v ∈ row, v ≤ 65535) :
    convertImage img
      = img.map (fun (row : List Nat) => row.map (fun (v : Nat) => (v : Int) - 32768)) := by
  unfold convertImage
  apply List.map_congr_left
  intro row hrow
  apply List.map_congr_left
  intro v hv
  unfold convertPixel saturationTaken toShort
  have := himg row hrow v hv
  have hno : ¬ ((v : Int) - 32768 > 32767) := by omega
  simp only [hno, decide_False, Bool.false_eq_true, if_false]
  omega

/-! ## The call of a diversion -/

/-- A call of a diversion never ends the way a returning call does. -/
theorem toOutcome_ne_ok (e : CallEnd) (s : LoopState) : e.toOutcome ≠ Outcome.ok s := by
  cases e <;> simp [CallEnd.toOutcome]

theorem toOutcome_state (e : CallEnd) : e.toOutcome.state = e.state := by
  cases e <;> rfl

theorem ofExcept_state (r : Except LoopState LoopState) :
    (Outcome.ofExcept r).state = finalState r := by
  cases r <;> rfl

theorem ofExcept_ok (r : Except LoopState LoopState) (s : LoopState)
    (h : Outcome.ofExcept r = Outcome.ok s) : r = .ok s := by
  cases r with
  | ok d => simp only [Outcome.ofExcept, Outcome.ok.injEq] at h; rw [h]
  | error d => simp [Outcome.ofExcept] at h

/-- However the capture loop ends, it has only added single-shot requests to the trace. -/
theorem captureLoop_aside (exposure gain format : Int) (shots : Nat → Bool)
    (saves : Nat → SaveInput) :
    ∀ (k i : Nat) (st : LoopState) (dirs : Directories),
      match captureLoop exposure gain format shots saves k i st dirs with
      | .ok (s1, _) => Aside [Kind.device] st s1
      | .error e => Aside [Kind.device] st e.state := by
  intro k
  induction k with
  | zero => intro i st dirs; exact aside_refl _ st
  | succ k ih =>
    intro i st dirs
    have h1 : Aside [Kind.device] st
        (st.emit [Event.grabSingleImage exposure gain format i (shots i)]) :=
      aside_emit _ _ _ (by simp [Event.kind])
    have step : ∀ d,
        match captureLoop exposure gain format shots saves k (i + 1)
            (st.emit [Event.grabSingleImage exposure gain format i (shots i)]) d with
        | .ok (s1, _) => Aside [Kind.device] st s1
        | .error e => Aside [Kind.device] st e.state := by
      intro d
      have h2 := ih (i + 1) (st.emit [Event.grabSingleImage exposure gain format i (shots i)]) d
      cases hr : captureLoop exposure gain format shots saves k (i + 1)
          (st.emit [Event.grabSingleImage exposure gain format i (shots i)]) d with
      | ok p => rw [hr] at h2; exact aside_then h1 h2
      | error e => rw [hr] at h2; exact aside_then h1 h2
    unfold captureLoop
    simp only []
    by_cases hs : shots i = true
    · rw [if_pos hs]
      by_cases hd : (saves i).hasData = true
      · rw [if_pos hd]
        rcases hb : buildRegularAcquisitionDirectory dirs (saves i).create with ⟨r, d1⟩
        cases r with
        | none => exact h1
        | some b =>
          cases b with
          | true =>
            simp only []
            by_cases hf : (saves i).dateFields < 6
            · rw [if_pos hf]; exact h1
            · rw [if_neg hf]; exact step d1
          | false => exact step d1
      · rw [if_neg hd]; exact step dirs
    · rw [if_neg hs]; exact step dirs

theorem stopAndInvalidate_aside (cfg : Config) (s : LoopState) :
    Aside [Kind.device, Kind.silence] s (stopAndInvalidate cfg s) := by
  rw [stopAndInvalidate_eq]
  apply aside_afterDiversion
  intro e he
  rcases stopEvents_kind cfg s.enableStackThread e he with h | h <;> simp [h]

/-- However a call of the regular diversion ends, it has left the members of the loop
alone and has added to the trace its entry, then device commands and silencing only. -/
theorem runRegularAcquisitionCall_aside (cfg : Config) (s : LoopState) (shots : Nat → Bool)
    (saves : Nat → SaveInput) (dirs : Directories) :
    Aside [Kind.device, Kind.silence] (s.emit [Event.runRegularAcquisition])
      (runRegularAcquisitionCall cfg s shots saves dirs).state := by
  unfold runRegularAcquisitionCall
  simp only []
  have h1 := stopAndInvalidate_aside cfg (s.emit [Event.runRegularAcquisition])
  have h2 := captureLoop_aside cfg.acqRegularExposure cfg.acqRegularGain cfg.acqRegularFormat
    shots saves cfg.acqRegularRepetition.toNat 0
    (stopAndInvalidate cfg (s.emit [Event.runRegularAcquisition])) dirs
  cases hr : captureLoop cfg.acqRegularExposure cfg.acqRegularGain cfg.acqRegularFormat
      shots saves cfg.acqRegularRepetition.toNat 0
      (stopAndInvalidate cfg (s.emit [Event.runRegularAcquisition])) dirs with
  | error e =>
    rw [hr] at h2
    exact aside_then h1 (aside_mono (by simp) h2)
  | ok p =>
    rw [hr] at h2
    exact aside_then h1 (aside_then (aside_mono (by simp) h2)
      (aside_emit _ _ _ (by simp [Event.kind])))

/-- However a call of the scheduled diversion ends, it has left the members of the loop
alone and has added to the trace its entry, then device commands and silencing only. -/
theorem runScheduledAcquisitionCall_aside (cfg : Config) (s : LoopState) (task : AcqSchedule)
    (shots : Nat → Bool) (saves : Nat → SaveInput) (dirs : Directories) :
    Aside [Kind.device, Kind.silence] (s.emit [Event.runScheduledAcquisition task])
      (runScheduledAcquisitionCall cfg s task shots saves dirs).state := by
  unfold runScheduledAcquisitionCall
  simp only []
  have h1 := stopAndInvalidate_aside cfg (s.emit [Event.runScheduledAcquisition task])
  have h2 := captureLoop_aside task.E task.G task.F shots saves task.N.toNat 0
    (stopAndInvalidate cfg (s.emit [Event.runScheduledAcquisition task])) dirs
  cases hr : captureLoop task.E task.G task.F shots saves task.N.toNat 0
      (stopAndInvalidate cfg (s.emit [Event.runScheduledAcquisition task])) dirs with
  | error e =>
    rw [hr] at h2
    exact aside_then h1 (aside_mono (by simp) h2)
  | ok p =>
    rw [hr] at h2
    exact aside_then h1 (aside_then (aside_mono (by simp) h2)
      (aside_emit _ _ _ (by simp [Event.kind])))

/-- A call of the regular diversion is one entry into it, however it ends. -/
theorem runRegularAcquisitionCall_entered (cfg : Config) (s : LoopState) (shots : Nat → Bool)
    (saves : Nat → SaveInput) (dirs : Directories) :
    eventsOfKind Kind.runRegular (runRegularAcquisitionCall cfg s shots saves dirs).state.trace
      = eventsOfKind Kind.runRegular s.trace ++ [Event.runRegularAcquisition] := by
  rw [aside_eventsOfKind (runRegularAcquisitionCall_aside cfg s shots saves dirs) _ (by decide)]
  show eventsOfKind Kind.runRegular (s.trace ++ _) = _
  rw [eventsOfKind_append]
  rfl

/-- A call of the scheduled diversion is one entry into it, however it ends. -/
theorem runScheduledAcquisitionCall_entered (cfg : Config) (s : LoopState)
    (task : AcqSchedule) (shots : Nat → Bool) (saves : Nat → SaveInput) (dirs : Directories) :
    eventsOfKind Kind.runScheduled
        (runScheduledAcquisitionCall cfg s task shots saves dirs).state.trace
      = eventsOfKind Kind.runScheduled s.trace ++ [Event.runScheduledAcquisition task] := by
  rw [aside_eventsOfKind (runScheduledAcquisitionCall_aside cfg s task shots saves dirs) _
    (by decide)]
  show eventsOfKind Kind.runScheduled (s.trace ++ _) = _
  rw [eventsOfKind_append]
  rfl

/-- A capture loop in which no single shot comes back with image data gets through all
its repetitions and leaves the directories alone. -/
theorem captureLoop_no_save (exposure gain format : Int) (shots : Nat → Bool)
    (saves : Nat → SaveInput)
    (hno : ∀ i, shots i = false ∨ (saves i).hasData = false) :
    ∀ (k i : Nat) (st : LoopState) (dirs : Directories),
      captureLoop exposure gain format shots saves k i st dirs
        = .ok (st.emit (singleShots exposure gain format shots k i), dirs) := by
  intro k
  induction k with
  | zero =>
    intro i st dirs
    simp [captureLoop, singleShots, LoopState.emit]
  | succ k ih =>
    intro i st dirs
    unfold captureLoop
    simp only []
    have e : (st.emit [Event.grabSingleImage exposure gain format i (shots i)]).emit
        (singleShots exposure gain format shots k (i + 1))
        = st.emit (singleShots exposure gain format shots (k + 1) i) := by
      simp [LoopState.emit, singleShots]
    rcases hno i with h | h
    · rw [if_neg (by simp [h]), ih, e]
    · by_cases hs : shots i = true
      · rw [if_pos hs, if_neg (by simp [h]), ih, e]
      · rw [if_neg hs, ih, e]

/-- When no single shot comes back with image data (for instance when every single shot
fails), a call of either diversion gets to the closing brace of the routine, with every
request and the restart sent. -/
theorem call_reaches_closingBrace (cfg : Config) (s : LoopState) (task : AcqSchedule)
    (shots : Nat → Bool) (saves : Nat → SaveInput) (dirs : Directories)
    (hno : ∀ i, shots i = false ∨ (saves i).hasData = false) :
    runScheduledAcquisitionCall cfg s task shots saves dirs
      = CallEnd.closingBrace (runScheduledAcquisition cfg s task shots) dirs ∧
    runRegularAcquisitionCall cfg s shots saves dirs
      = CallEnd.closingBrace (runRegularAcquisition cfg s shots) dirs := by
  unfold runScheduledAcquisitionCall runRegularAcquisitionCall runScheduledAcquisition
    runRegularAcquisition
  simp only [captureLoop_no_save _ _ _ _ _ hno]
  exact ⟨trivial, trivial⟩

/-- A capture loop that gets through all its repetitions has sent every single-shot
request, in order. -/
theorem captureLoop_ok (exposure gain format : Int) (shots : Nat → Bool)
    (saves : Nat → SaveInput) :
    ∀ (k i : Nat) (st : LoopState) (dirs : Directories) (s1 : LoopState) (d1 : Directories),
      captureLoop exposure gain format shots saves k i st dirs = .ok (s1, d1) →
      s1 = st.emit (singleShots exposure gain format shots k i) := by
  intro k
  induction k with
  | zero =>
    intro i st dirs s1 d1 h
    simp only [captureLoop, Except.ok.injEq, Prod.mk.injEq] at h
    simp [singleShots, LoopState.emit, ← h.1]
  | succ k ih =>
    intro i st dirs s1 d1 h
    have e : (st.emit [Event.grabSingleImage exposure gain format i (shots i)]).emit
        (singleShots exposure gain format shots k (i + 1))
        = st.emit (singleShots exposure gain format shots (k + 1) i) := by
      simp [LoopState.emit, singleShots]
    rw [← e]
    unfold captureLoop at h
    simp only [] at h
    by_cases hs : shots i = true
    · rw [if_pos hs] at h
      by_cases hd : (saves i).hasData = true
      · rw [if_pos hd] at h
        rcases hb : buildRegularAcquisitionDirectory dirs (saves i).create with ⟨r, d2⟩
        rw [hb] at h
        cases r with
        | none => cases h
        | some b =>
          cases b with
          | true =>
            simp only [] at h
            by_cases hf : (saves i).dateFields < 6
            · rw [if_pos hf] at h; cases h
            · rw [if_neg hf] at h; exact ih _ _ _ _ _ h
          | false => exact ih _ _ _ _ _ h
      · rw [if_neg hd] at h; exact ih _ _ _ _ _ h
    · rw [if_neg hs] at h; exact ih _ _ _ _ _ h

/-- A capture loop that does not get through all its repetitions has left the routine
from inside a save branch. -/
theorem captureLoop_leaves (exposure gain format : Int) (shots : Nat → Bool)
    (saves : Nat → SaveInput) :
    ∀ (k i : Nat) (st : LoopState) (dirs : Directories) (e : CallEnd),
      captureLoop exposure gain format shots saves k i st dirs = .error e →
      ∀ s d, e ≠ CallEnd.closingBrace s d := by
  intro k
  induction k with
  | zero =>
    intro i st dirs e h
    simp [captureLoop] at h
  | succ k ih =>
    intro i st dirs e h
    unfold captureLoop at h
    simp only [] at h
    by_cases hs : shots i = true
    · rw [if_pos hs] at h
      by_cases hd : (saves i).hasData = true
      · rw [if_pos hd] at h
        rcases hb : buildRegularAcquisitionDirectory dirs (saves i).create with ⟨r, d2⟩
        rw [hb] at h
        cases r with
        | none =>
          simp only [Except.error.injEq] at h
          intro s d h2
          rw [← h] at h2
          cases h2
        | some b =>
          cases b with
          | true =>
            simp only [] at h
            by_cases hf : (saves i).dateFields < 6
            · rw [if_pos hf] at h
              simp only [Except.error.injEq] at h
              intro s d h2
              rw [← h] at h2
              cases h2
            · rw [if_neg hf] at h; exact ih _ _ _ _ h
          | false => exact ih _ _ _ _ h
      · rw [if_neg hd] at h; exact ih _ _ _ _ h
    · rw [if_neg hs] at h; exact ih _ _ _ _ h

/-- Whenever control gets to the closing brace of a diversion, the loop state there is the
one given by `runScheduledAcquisition`, respectively `runRegularAcquisition`. -/
theorem closingBrace_state (cfg : Config) (s s1 : LoopState) (task : AcqSchedule)
    (shots : Nat → Bool) (saves : Nat → SaveInput) (dirs d1 : Directories) :
    (runScheduledAcquisitionCall cfg s task shots saves dirs = CallEnd.closingBrace s1 d1 →
      s1 = runScheduledAcquisition cfg s task shots) ∧
    (runRegularAcquisitionCall cfg s shots saves dirs = CallEnd.closingBrace s1 d1 →
      s1 = runRegularAcquisition cfg s shots) := by
  constructor
  · intro h
    unfold runScheduledAcquisitionCall at h
    simp only [] at h
    cases hr : captureLoop task.E task.G task.F shots saves task.N.toNat 0
        (stopAndInvalidate cfg (s.emit [Event.runScheduledAcquisition task])) dirs with
    | error e =>
      rw [hr] at h
      simp only [] at h
      exact absurd h (captureLoop_leaves task.E task.G task.F shots saves task.N.toNat 0
        (stopAndInvalidate cfg (s.emit [Event.runScheduledAcquisition task])) dirs e hr s1 d1)
    | ok p =>
      obtain ⟨s2, d2⟩ := p
      rw [hr] at h
      simp only [CallEnd.closingBrace.injEq] at h
      have := captureLoop_ok _ _ _ _ _ _ _ _ _ _ _ hr
      unfold runScheduledAcquisition
      rw [← h.1, this]
  · intro h
    unfold runRegularAcquisitionCall at h
    simp only [] at h
    cases hr : captureLoop cfg.acqRegularExposure cfg.acqRegularGain cfg.acqRegularFormat
        shots saves cfg.acqRegularRepetition.toNat 0
        (stopAndInvalidate cfg (s.emit [Event.runRegularAcquisition])) dirs with
    | error e =>
      rw [hr] at h
      simp only [] at h
      exact absurd h (captureLoop_leaves cfg.acqRegularExposure cfg.acqRegularGain
        cfg.acqRegularFormat shots saves cfg.acqRegularRepetition.toNat 0
        (stopAndInvalidate cfg (s.emit [Event.runRegularAcquisition])) dirs e hr s1 d1)
    | ok p =>
      obtain ⟨s2, d2⟩ := p
      rw [hr] at h
      simp only [CallEnd.closingBrace.injEq] at h
      have := captureLoop_ok _ _ _ _ _ _ _ _ _ _ _ hr
      unfold runRegularAcquisition
      rw [← h.1, this]

/-! ## A tick with the diversions called as the source has them -/

theorem regularCheckCall_quiet (cfg : Config) (b : LoopState) (t : Int) (inp : CallInput)
    (hq : ¬ (cfg.acqRegularEnabled = true ∧ regularNightTest b.win t = true ∧
      b.regularAcqFrameCounter ≥ b.regularAcqFrameInterval)) :
    regularCheckCall cfg b t inp = Outcome.ok (regularCheck cfg b t inp.base.regularShots) ∧
    (regularCheck cfg b t inp.base.regularShots).trace = b.trace ∧
    (regularCheck cfg b t inp.base.regularShots).sched = b.sched := by
  unfold regularCheckCall regularCheck
  by_cases h1 : cfg.acqRegularEnabled = true
  · rw [if_pos h1, if_pos h1]
    by_cases h2 : regularNightTest b.win t = true
    · rw [if_pos h2, if_pos h2]
      have h3 : ¬ b.regularAcqFrameCounter ≥ b.regularAcqFrameInterval :=
        fun h3 => hq ⟨h1, h2, h3⟩
      rw [if_neg h3, if_neg h3]
      exact ⟨rfl, rfl, rfl⟩
    · rw [if_neg h2, if_neg h2]
      exact ⟨rfl, rfl, rfl⟩
  · rw [if_neg h1, if_neg h1]
    exact ⟨rfl, rfl, rfl⟩

theorem regularCheckCall_due (cfg : Config) (b : LoopState) (t : Int) (inp : CallInput)
    (h1 : cfg.acqRegularEnabled = true) (h2 : regularNightTest b.win t = true)
    (h3 : b.regularAcqFrameCounter ≥ b.regularAcqFrameInterval) :
    regularCheckCall cfg b t inp
      = (runRegularAcquisitionCall cfg b inp.base.regularShots inp.regularSaves
          inp.dirs).toOutcome := by
  unfold regularCheckCall
  rw [if_pos h1, if_pos h2, if_pos h3]

theorem scheduleCheckCall_hit (cfg : Config) (c : LoopState) (f : Frame) (inp : CallInput)
    (hne : c.sched.ACQ_SCHEDULE ≠ []) (hen : cfg.acqScheduleEnabled = true)
    (hhit : frameAtTask f c.sched.nextTask) :
    scheduleCheckCall cfg c f inp
      = (runScheduledAcquisitionCall cfg
          { c with sched := { c.sched with nextTask := datedTask c f } }
          (datedTask c f) inp.base.scheduledShots inp.scheduledSaves inp.dirs).toOutcome := by
  have hlen : c.sched.ACQ_SCHEDULE.length ≠ 0 := fun h => hne (List.length_eq_zero.1 h)
  unfold scheduleCheckCall
  unfold frameAtTask at hhit
  simp only [hlen, hen, ne_eq, not_false_eq_true, decide_True, Bool.and_self, if_true]
  rw [if_pos hhit]
  rfl

theorem scheduleCheckCall_miss (cfg : Config) (c : LoopState) (f : Frame) (inp : CallInput)
    (hmiss : ¬ (c.sched.ACQ_SCHEDULE ≠ [] ∧ cfg.acqScheduleEnabled = true ∧
      frameAtTask f c.sched.nextTask)) :
    scheduleCheckCall cfg c f inp = Outcome.ofExcept (scheduleCheck cfg c f inp.base) := by
  unfold scheduleCheckCall scheduleCheck
  by_cases h0 : (decide (c.sched.ACQ_SCHEDULE.length ≠ 0) && cfg.acqScheduleEnabled) = true
  · rw [if_pos h0, if_pos h0]
    have hno : ¬ (c.sched.nextTask.H = f.hour ∧ c.sched.nextTask.M = f.minute
        ∧ f.second = c.sched.nextTask.S) := by
      intro hh
      apply hmiss
      simp only [Bool.and_eq_true, decide_eq_true_eq] at h0
      exact ⟨fun h => h0.1 (by rw [h]; rfl), h0.2, hh⟩
    rw [if_neg hno, if_neg hno]
    repeat' split
    all_goals rfl
  · rw [if_neg h0, if_neg h0]
    rfl

theorem tickCall_unfold (cfg : Config) (s : LoopState) (inp : CallInput) (f : Frame)
    (hlive : cfg.videoFramesInput = false) (hgrab : inp.base.grab = some f) :
    tickCall cfg s inp
      = timeChecksCall cfg (exposureControl (frameSharing cfg s f) f inp.base.controlResult)
          f inp := by
  unfold tickCall
  simp [hgrab, hlive]

/-- The tests of the regular check read values that the parts of the tick before it
leave alone. -/
theorem regularDue_pre (cfg : Config) (s : LoopState) (f : Frame) (c : Bool) :
    regularDue cfg (exposureControl (frameSharing cfg s f) f c) f ↔ regularDue cfg s f := by
  have hpre := pre_regular_aside cfg s f c
  unfold regularDue
  rw [hpre.win, hpre.counter (by decide), hpre.interval]

/-- A tick whose regular check hands control to `runRegularAcquisition` ends the way that
call ends. -/
theorem tickCall_regular_due (cfg : Config) (s : LoopState) (inp : CallInput) (f : Frame)
    (hlive : cfg.videoFramesInput = false) (hgrab : inp.base.grab = some f)
    (hdue : regularDue cfg s f) :
    tickCall cfg s inp
      = (runRegularAcquisitionCall cfg
          (exposureControl (frameSharing cfg s f) f inp.base.controlResult)
          inp.base.regularShots inp.regularSaves inp.dirs).toOutcome := by
  rw [tickCall_unfold cfg s inp f hlive hgrab]
  obtain ⟨h1, h2, h3⟩ := (regularDue_pre cfg s f inp.base.controlResult).2 hdue
  unfold timeChecksCall
  simp only []
  rw [regularCheckCall_due cfg _ _ inp h1 h2 h3]
  cases runRegularAcquisitionCall cfg
    (exposureControl (frameSharing cfg s f) f inp.base.controlResult)
    inp.base.regularShots inp.regularSaves inp.dirs <;> rfl

/-- A tick whose regular check calls no diversion and whose frame is stamped at the time
of the armed task ends the way the call of `runScheduledAcquisition` ends. -/
theorem tickCall_scheduled_hit (cfg : Config) (s : LoopState) (inp : CallInput) (f : Frame)
    (hlive : cfg.videoFramesInput = false) (hgrab : inp.base.grab = some f)
    (hquiet : ¬ regularDue cfg s f)
    (hne : s.sched.ACQ_SCHEDULE ≠ []) (hen : cfg.acqScheduleEnabled = true)
    (hhit : frameAtTask f s.sched.nextTask) :
    ∃ c : LoopState,
      (∀ k, k ∉ [Kind.share, Kind.silence, Kind.control] →
        eventsOfKind k c.trace = eventsOfKind k s.trace) ∧
      c.sched = s.sched ∧
      tickCall cfg s inp
        = (runScheduledAcquisitionCall cfg
            { c with sched := { c.sched with nextTask := datedTask s f } }
            (datedTask s f) inp.base.scheduledShots inp.scheduledSaves inp.dirs).toOutcome := by
  rw [tickCall_unfold cfg s inp f hlive hgrab]
  have hpre := pre_regular_aside cfg s f inp.base.controlResult
  have hq := fun h => hquiet ((regularDue_pre cfg s f inp.base.controlResult).1 h)
  generalize exposureControl (frameSharing cfg s f) f inp.base.controlResult = b at hpre hq
  obtain ⟨e1, e2, e3⟩ := regularCheckCall_quiet cfg b f.timeInSec inp hq
  have hsched : (regularCheck cfg b f.timeInSec inp.base.regularShots).sched = s.sched := by
    rw [e3, hpre.sched (by decide)]
  refine ⟨regularCheck cfg b f.timeInSec inp.base.regularShots, ?_, hsched, ?_⟩
  · intro k hk
    rw [e2]
    exact aside_eventsOfKind hpre k hk
  · unfold timeChecksCall
    simp only []
    rw [e1]
    simp only []
    rw [scheduleCheckCall_hit cfg _ f inp (by rw [hsched]; exact hne) hen
      (by rw [hsched]; exact hhit)]
    have hd : datedTask (regularCheck cfg b f.timeInSec inp.base.regularShots) f
        = datedTask s f := by
      unfold datedTask; rw [hsched]
    rw [hd]
    cases runScheduledAcquisitionCall cfg _ (datedTask s f) inp.base.scheduledShots
      inp.scheduledSaves inp.dirs <;> rfl

/-- A tick in which no diversion is called is the tick of the loop. -/
theorem tickCall_quiet (cfg : Config) (s : LoopState) (inp : CallInput) (f : Frame)
    (hlive : cfg.videoFramesInput = false) (hgrab : inp.base.grab = some f)
    (hquiet : ¬ regularDue cfg s f)
    (hmiss : ¬ (s.sched.ACQ_SCHEDULE ≠ [] ∧ cfg.acqScheduleEnabled = true ∧
      frameAtTask f s.sched.nextTask)) :
    tickCall cfg s inp = Outcome.ofExcept (tick cfg s inp.base) := by
  rw [tickCall_unfold cfg s inp f hlive hgrab, tick_unfold cfg s inp.base f hlive hgrab]
  have hpre := pre_regular_aside cfg s f inp.base.controlResult
  have hq := fun h => hquiet ((regularDue_pre cfg s f inp.base.controlResult).1 h)
  generalize exposureControl (frameSharing cfg s f) f inp.base.controlResult = b at hpre hq
  obtain ⟨e1, -, e3⟩ := regularCheckCall_quiet cfg b f.timeInSec inp hq
  have hsched : (regularCheck cfg b f.timeInSec inp.base.regularShots).sched = s.sched := by
    rw [e3, hpre.sched (by decide)]
  unfold timeChecksCall
  simp only []
  rw [e1]
  simp only []
  rw [scheduleCheckCall_miss cfg _ f inp (by rw [hsched]; exact hmiss)]
  cases scheduleCheck cfg (regularCheck cfg b f.timeInSec inp.base.regularShots) f inp.base
    <;> rfl

/-- A tick that ends normally has called no diversion, and is the tick of the loop. -/
theorem tickCall_ok (cfg : Config) (s s1 : LoopState) (inp : CallInput)
    (hok : tickCall cfg s inp = Outcome.ok s1) :
    tick cfg s inp.base = .ok s1 ∧
    (∀ f, inp.base.grab = some f → cfg.videoFramesInput = false → ¬ regularDue cfg s f) := by
  cases hg : inp.base.grab with
  | none =>
    refine ⟨?_, fun f hf => by cases hf⟩
    unfold tickCall at hok
    unfold tick
    rw [hg] at hok ⊢
    simp only [Outcome.ok.injEq] at hok
    simp only []
    rw [hok]
  | some f =>
    cases hv : cfg.videoFramesInput with
    | true =>
      refine ⟨?_, fun _ _ h => by cases h⟩
      unfold tickCall at hok
      unfold tick
      rw [hg] at hok ⊢
      simp only [hv, Bool.not_true, Bool.false_eq_true, if_false, Outcome.ok.injEq] at hok ⊢
      rw [hok]
    | false =>
      have hnd : ¬ regularDue cfg s f := by
        intro hdue
        rw [tickCall_regular_due cfg s inp f hv hg hdue] at hok
        exact toOutcome_ne_ok _ _ hok
      refine ⟨?_, fun f2 hf2 _ => by cases hf2; exact hnd⟩
      by_cases hhit : s.sched.ACQ_SCHEDULE ≠ [] ∧ cfg.acqScheduleEnabled = true ∧
          frameAtTask f s.sched.nextTask
      · obtain ⟨c, -, -, hc⟩ := tickCall_scheduled_hit cfg s inp f hv hg hnd hhit.1 hhit.2.1
          hhit.2.2
        rw [hc] at hok
        exact absurd hok (toOutcome_ne_ok _ _)
      · rw [tickCall_quiet cfg s inp f hv hg hnd hhit] at hok
        exact ofExcept_ok _ _ hok

/-- A run that ends normally has called no diversion, and is the run of the loop. -/
theorem runTicksCall_ok (cfg : Config) :
    ∀ (inps : List CallInput) (s s1 : LoopState),
      runTicksCall cfg s inps = Outcome.ok s1 →
      runTicks cfg s (inps.map CallInput.base) = .ok s1 := by
  intro inps
  induction inps with
  | nil =>
    intro s s1 h
    simp only [runTicksCall, Outcome.ok.injEq] at h
    simp [runTicks, h]
  | cons inp rest ih =>
    intro s s1 h
    unfold runTicksCall at h
    cases ht : tickCall cfg s inp with
    | ok s2 =>
      rw [ht] at h
      simp only [List.map_cons, runTicks]
      rw [(tickCall_ok cfg s s2 inp ht).1]
      exact ih s2 s1 h
    | error s2 => rw [ht] at h; cases h
    | undefined s2 => rw [ht] at h; cases h

/-- Over night ticks that end normally the regular check only counts: one more frame per
tick, never beyond the interval, and no entry into the diversion. -/
theorem runTicksCall_counts (cfg : Config)
    (hreg : cfg.acqRegularEnabled = true) (hlive : cfg.videoFramesInput = false) :
    ∀ (inps : List CallInput) (s sn : LoopState),
      s.regularAcqFrameCounter ≤ s.regularAcqFrameInterval →
      (∀ inp ∈ inps, ∃ f, inp.base.grab = some f ∧
        regularNightTest s.win f.timeInSec = true) →
      runTicksCall cfg s inps = Outcome.ok sn →
      sn.regularAcqFrameCounter = s.regularAcqFrameCounter + (inps.length : Int) ∧
      sn.regularAcqFrameCounter ≤ s.regularAcqFrameInterval ∧
      eventsOfKind Kind.runRegular sn.trace = eventsOfKind Kind.runRegular s.trace ∧
      sn.regularAcqFrameInterval = s.regularAcqFrameInterval ∧ sn.win = s.win := by
  intro inps
  induction inps with
  | nil =>
    intro s sn hle _ hrun
    simp only [runTicksCall, Outcome.ok.injEq] at hrun
    subst hrun
    simp [hle]
  | cons inp rest ih =>
    intro s sn hle hin hrun
    obtain ⟨f, hgrab, hnight⟩ := hin inp (List.mem_cons_self _ _)
    unfold runTicksCall at hrun
    cases ht : tickCall cfg s inp with
    | error e => rw [ht] at hrun; cases hrun
    | undefined e => rw [ht] at hrun; cases hrun
    | ok s2 =>
      rw [ht] at hrun
      simp only [] at hrun
      obtain ⟨htick, hnd⟩ := tickCall_ok cfg s s2 inp ht
      have hlt : ¬ s.regularAcqFrameCounter ≥ s.regularAcqFrameInterval :=
        fun h => hnd f hgrab hlive ⟨hreg, hnight, h⟩
      obtain ⟨hcnt, hev, hint, hwin⟩ :=
        tick_regular cfg s s2 inp.base f hreg hlive hgrab hnight htick
      rw [if_neg hlt] at hcnt hev
      rw [List.append_nil] at hev
      obtain ⟨h1, h2, h3, h4, h5⟩ := ih s2 sn (by rw [hcnt, hint]; omega)
        (fun i hi => by rw [hwin]; exact hin i (List.mem_cons_of_mem _ hi)) hrun
      refine ⟨?_, by rw [← hint]; exact h2, h3.trans hev, h4.trans hint, h5.trans hwin⟩
      rw [h1, hcnt]
      simp only [List.length_cons]
      push_cast
      omega

/-- A tick whose frame is stamped at the time of the armed task, on a live input with a
non-empty, enabled schedule, when the regular check calls no diversion: the scheduled
diversion is entered once, with the armed task stamped with the date of the frame, and
the tick does not end normally. -/
theorem tickCall_scheduled_entered (cfg : Config) (s : LoopState) (inp : CallInput)
    (f : Frame)
    (hlive : cfg.videoFramesInput = false) (hgrab : inp.base.grab = some f)
    (hquiet : ¬ regularDue cfg s f)
    (hne : s.sched.ACQ_SCHEDULE ≠ []) (hen : cfg.acqScheduleEnabled = true)
    (hhit : frameAtTask f s.sched.nextTask) :
    (∀ s1, tickCall cfg s inp ≠ Outcome.ok s1) ∧
    eventsOfKind Kind.runScheduled (tickCall cfg s inp).state.trace
      = eventsOfKind Kind.runScheduled s.trace
          ++ [Event.runScheduledAcquisition (datedTask s f)] := by
  obtain ⟨c, hev, -, hc⟩ := tickCall_scheduled_hit cfg s inp f hlive hgrab hquiet hne hen hhit
  rw [hc]
  refine ⟨fun s1 => toOutcome_ne_ok _ _, ?_⟩
  rw [toOutcome_state, runScheduledAcquisitionCall_entered]
  show eventsOfKind Kind.runScheduled c.trace ++ _ = _
  rw [hev _ (by decide)]

theorem regularCheck_quiet (cfg : Config) (b : LoopState) (t : Int) (shots : Nat → Bool)
    (hq : ¬ (cfg.acqRegularEnabled = true ∧ regularNightTest b.win t = true ∧
      b.regularAcqFrameCounter ≥ b.regularAcqFrameInterval)) :
    (regularCheck cfg b t shots).trace = b.trace ∧
    (regularCheck cfg b t shots).sched = b.sched := by
  unfold regularCheck
  by_cases h1 : cfg.acqRegularEnabled = true
  · rw [if_pos h1]
    by_cases h2 : regularNightTest b.win t = true
    · rw [if_pos h2, if_neg (fun h3 => hq ⟨h1, h2, h3⟩)]
      exact ⟨rfl, rfl⟩
    · rw [if_neg h2]
      exact ⟨rfl, rfl⟩
  · rw [if_neg h1]
    exact ⟨rfl, rfl⟩

/-- A live tick whose regular check calls no diversion and whose frame is not stamped at
the time of the armed task adds no entry into a diversion and no device command to the
trace. -/
theorem tick_miss_events (cfg : Config) (s : LoopState) (inp : TickInput) (f : Frame)
    (hne : s.sched.ACQ_SCHEDULE ≠ []) (hen : cfg.acqScheduleEnabled = true)
    (hlive : cfg.videoFramesInput = false) (hgrab : inp.grab = some f)
    (hquiet : ¬ regularDue cfg s f) (hmiss : ¬ frameAtTask f s.sched.nextTask)
    (k : Kind) (hk : k ∉ [Kind.share, Kind.silence, Kind.control, Kind.exposure]) :
    eventsOfKind k (finalState (tick cfg s inp)).trace = eventsOfKind k s.trace := by
  rw [tick_unfold cfg s inp f hlive hgrab]
  have hpre := pre_regular_aside cfg s f inp.controlResult
  have hq := fun h => hquiet ((regularDue_pre cfg s f inp.controlResult).1 h)
  generalize exposureControl (frameSharing cfg s f) f inp.controlResult = b at hpre hq
  obtain ⟨e2, e3⟩ := regularCheck_quiet cfg b f.timeInSec inp.regularShots hq
  have hsched : (regularCheck cfg b f.timeInSec inp.regularShots).sched = s.sched := by
    rw [e3, hpre.sched (by decide)]
  obtain ⟨-, hm, -, -⟩ := scheduleCheck_final cfg
    (regularCheck cfg b f.timeInSec inp.regularShots) f inp (by rw [hsched]; exact hne) hen
  have htr := hm (by rw [hsched]; exact hmiss)
  have hks : k ∉ [Kind.share, Kind.silence, Kind.control] := by
    intro h; apply hk; simp only [List.mem_cons] at h ⊢; tauto
  have hke : k ∉ [Kind.exposure, Kind.silence] := by
    intro h; apply hk; simp only [List.mem_cons] at h ⊢; tauto
  have hbase : eventsOfKind k (finalState (scheduleCheck cfg
      (regularCheck cfg b f.timeInSec inp.regularShots) f inp)).trace
      = eventsOfKind k s.trace := by
    rw [htr, e2]
    exact aside_eventsOfKind hpre k hks
  cases hd : scheduleCheck cfg (regularCheck cfg b f.timeInSec inp.regularShots) f inp with
  | ok d =>
    rw [hd] at hbase
    simp only [finalState] at hbase ⊢
    rw [aside_eventsOfKind (post_schedule_aside cfg d f.timeInSec) k hke]
    exact hbase
  | error d =>
    rw [hd] at hbase
    exact hbase

/-! ## Claims on the regular check, the schedule check and the diversions -/

set_option maxRecDepth 8000 in
/-- C11 (counterexample): frame interval 10, counter 0, frames in the night window, live
input. The first 10 ticks end normally and the regular diversion has not been invoked
(the claim has it invoked at frame 10), the counter being 10; the diversion is invoked on
tick 11. On a video input with the same settings 25 such ticks invoke nothing. -/
theorem regular_not_invoked_at_frame_ten :
    (∃ s10, runTicksCall regularConfig regularStart (nightCalls 10) = Outcome.ok s10 ∧
      eventsOfKind Kind.runRegular s10.trace = [] ∧
      s10.regularAcqFrameCounter = 10 ∧
      eventsOfKind Kind.runRegular
          (tickCall regularConfig s10 (withSaves (grabbed (frameAt 1 1 0 0) false))).state.trace
        = [Event.runRegularAcquisition]) ∧
    (∃ s25, runTicksCall videoRegularConfig regularStart (nightCalls 25) = Outcome.ok s25 ∧
      eventsOfKind Kind.runRegular s25.trace = []) :=
  ⟨⟨_, rfl, by decide, by decide, by decide⟩, ⟨_, rfl, rfl⟩⟩

/-- C11 (amended): with regular acquisition enabled on a live input, frame interval `K`
and the frame counter at 0, over consecutive successfully grabbed ticks in the night
window of the regular test that end normally: there are at most `K` of them, none of
them invokes the regular diversion, and the counter is `n` after `n` of them; after `K`
of them, the next such tick (tick `K + 1`) invokes the regular diversion, once, and does
not end normally. Nothing is said of what follows the invocation. -/
theorem regular_first_invoked_after_interval (cfg : Config) (s sn : LoopState)
    (inps : List CallInput) (K : Nat)
    (hreg : cfg.acqRegularEnabled = true) (hlive : cfg.videoFramesInput = false)
    (hint : s.regularAcqFrameInterval = (K : Int)) (hc : s.regularAcqFrameCounter = 0)
    (hin : ∀ inp ∈ inps, ∃ f, inp.base.grab = some f ∧
      regularNightTest s.win f.timeInSec = true)
    (hrun : runTicksCall cfg s inps = Outcome.ok sn) :
    inps.length ≤ K ∧
    eventsOfKind Kind.runRegular sn.trace = eventsOfKind Kind.runRegular s.trace ∧
    sn.regularAcqFrameCounter = (inps.length : Int) ∧
    (inps.length = K → ∀ (inp : CallInput) (f : Frame), inp.base.grab = some f →
      regularNightTest s.win f.timeInSec = true →
      (∀ s1, tickCall cfg sn inp ≠ Outcome.ok s1) ∧
      eventsOfKind Kind.runRegular (tickCall cfg sn inp).state.trace
        = eventsOfKind Kind.runRegular s.trace ++ [Event.runRegularAcquisition]) := by
  obtain ⟨h1, h2, h3, h4, h5⟩ := runTicksCall_counts cfg hreg hlive inps s sn
    (by rw [hc, hint]; omega) hin hrun
  rw [hc, Int.zero_add] at h1
  rw [h1, hint] at h2
  refine ⟨by omega, h3, h1, ?_⟩
  intro hK inp f hgrab hnight
  have hdue : regularDue cfg sn f :=
    ⟨hreg, by rw [h5]; exact hnight, by rw [h1, h4, hint, hK]⟩
  rw [tickCall_regular_due cfg sn inp f hlive hgrab hdue]
  refine ⟨fun s1 => toOutcome_ne_ok _ _, ?_⟩
  rw [toOutcome_state, runRegularAcquisitionCall_entered,
    aside_eventsOfKind (pre_regular_aside cfg sn f inp.base.controlResult) _ (by decide), h3]

/-- Witness for C11 (amended): interval 10 and 10 night frames; the counter is 10 and the
11th frame invokes the diversion. -/
theorem regular_first_invoked_after_interval_witness :
    (nightCalls 10).length ≤ 10 ∧
    eventsOfKind Kind.runRegular
        (runTicksCall regularConfig regularStart (nightCalls 10)).state.trace
      = eventsOfKind Kind.runRegular regularStart.trace ∧
    (runTicksCall regularConfig regularStart (nightCalls 10)).state.regularAcqFrameCounter
      = ((nightCalls 10).length : Int) ∧
    ((nightCalls 10).length = 10 → ∀ (inp : CallInput) (f : Frame), inp.base.grab = some f →
      regularNightTest regularStart.win f.timeInSec = true →
      (∀ s1, tickCall regularConfig
          (runTicksCall regularConfig regularStart (nightCalls 10)).state inp
        ≠ Outcome.ok s1) ∧
      eventsOfKind Kind.runRegular (tickCall regularConfig
          (runTicksCall regularConfig regularStart (nightCalls 10)).state inp).state.trace
        = eventsOfKind Kind.runRegular regularStart.trace ++ [Event.runRegularAcquisition]) :=
  regular_first_invoked_after_interval regularConfig regularStart
    (runTicksCall regularConfig regularStart (nightCalls 10)).state (nightCalls 10) 10
    rfl rfl rfl rfl
    (by
      intro inp hinp
      have := List.eq_of_mem_replicate hinp
      subst this
      exact ⟨_, rfl, by decide⟩)
    rfl

/-- C12 (evaluation): schedule 06:00:00 with exposure 5000, gain 10, one repetition, and
a frame stamped 06:00:00 on 21 January 2015, the save going through. The scheduled
diversion is entered once with the armed task and sends stop, one single shot and the
restart to the device; control then reaches the closing brace of
`runScheduledAcquisition`, which has no `return` statement, and the tick ends there
without defined behaviour: the armed task still carries the date of the frame, whereas
the re-selection of line 374 would re-arm the entry of the table (empty date). -/
theorem scheduled_call_never_returns :
    ∃ s1, tickCall scheduleConfig scheduleStart (withSaves (grabbed (frameOn 1 6 0 0) false))
        = Outcome.undefined s1 ∧
      eventsOfKind Kind.runScheduled s1.trace
        = [Event.runScheduledAcquisition
            { H := 6, M := 0, S := 0, E := 5000, G := 10, F := 8, N := 1,
              date := "2015-01-21" }] ∧
      deviceCommands s1.trace
        = [Event.acqStop, Event.grabStop, Event.grabSingleImage 5000 10 8 0 true,
            Event.acqRestart] ∧
      s1.sched.nextTask.date = "2015-01-21" ∧
      (finalState (selectNextInLoop s1
        (grabbed (frameOn 1 6 0 0) false))).sched.nextTask.date = "" :=
  ⟨_, rfl, by decide, by decide, by decide, by decide⟩

/-- C13 (counterexample): two ticks whose frame is stamped later than the armed task, on
a non-empty, enabled schedule. On a video input (tasks 06:00:00 and 07:00:00, the first
armed, frame 06:00:01) the tick ends normally with the cursor still 0, whereas
`selectNextAcquisitionSchedule` would move it to 1. On a live input with the regular
acquisition due (tasks 00:30:00 and 02:00:00, the first armed, frame 01:00:00) the tick
invokes the regular diversion and ends inside it, the cursor still 0. -/
theorem later_frame_without_reselection :
    (∃ s1, tickCall videoScheduleConfig videoScheduleStart
          (withSaves (grabbed (frameAt 1 6 0 1) false)) = Outcome.ok s1 ∧
      frameAfterTask (frameAt 1 6 0 1) videoScheduleStart.sched.nextTask ∧
      s1.sched.indexNextTask = 0 ∧
      ∃ ss, selectNextAcquisitionSchedule videoScheduleStart.sched 6 0 1 = .ok ss ∧
        ss.indexNextTask = 1) ∧
    (∃ s1, tickCall regularScheduleConfig regularScheduleDue
          (withSaves (grabbed (frameAt 1 1 0 0) false)) = Outcome.undefined s1 ∧
      frameAfterTask (frameAt 1 1 0 0) regularScheduleDue.sched.nextTask ∧
      eventsOfKind Kind.runRegular s1.trace = [Event.runRegularAcquisition] ∧
      s1.sched.indexNextTask = 0 ∧
      ∃ ss, selectNextAcquisitionSchedule regularScheduleDue.sched 1 0 0 = .ok ss ∧
        ss.indexNextTask = 1) :=
  ⟨⟨_, rfl, by decide, by decide, _, rfl, by decide⟩,
    ⟨_, rfl, by decide, by decide, by decide, _, rfl, by decide⟩⟩

/-- C13 (amended): on a successfully grabbed tick of a live input with a non-empty,
enabled schedule, when the regular check of the tick calls no diversion: if the time of
the frame is strictly later than the armed task, no diversion is invoked (no entry into
either diversion, no device command) and the schedule members after the tick are what
`selectNextAcquisitionSchedule` leaves when called on the unchanged ones; if it is
strictly earlier, the tick ends normally, no diversion is invoked and the cursor and the
armed task are unchanged. -/
theorem missed_task_skipped_without_diversion (cfg : Config) (s : LoopState)
    (inp : CallInput) (f : Frame)
    (hne : s.sched.ACQ_SCHEDULE ≠ []) (hen : cfg.acqScheduleEnabled = true)
    (hlive : cfg.videoFramesInput = false) (hgrab : inp.base.grab = some f)
    (hquiet : ¬ regularDue cfg s f) :
    (frameAfterTask f s.sched.nextTask →
      (∀ k ∈ [Kind.runScheduled, Kind.runRegular, Kind.device],
        eventsOfKind k (tickCall cfg s inp).state.trace = eventsOfKind k s.trace) ∧
      ∃ ss, (selectNextAcquisitionSchedule s.sched inp.base.clockH inp.base.clockM
                inp.base.clockS = .ok ss ∨
             selectNextAcquisitionSchedule s.sched inp.base.clockH inp.base.clockM
                inp.base.clockS = .error ss) ∧
        (tickCall cfg s inp).state.sched = ss) ∧
    (frameBeforeTask f s.sched.nextTask →
      (∃ s1, tickCall cfg s inp = Outcome.ok s1) ∧
      (∀ k ∈ [Kind.runScheduled, Kind.runRegular, Kind.device],
        eventsOfKind k (tickCall cfg s inp).state.trace = eventsOfKind k s.trace) ∧
      (tickCall cfg s inp).state.sched = s.sched) := by
  obtain ⟨hafter, hbefore⟩ := tick_missed_task cfg s inp.base f hne hen hlive hgrab
  have hev : ¬ frameAtTask f s.sched.nextTask →
      tickCall cfg s inp = Outcome.ofExcept (tick cfg s inp.base) ∧
      ∀ k ∈ [Kind.runScheduled, Kind.runRegular, Kind.device],
        eventsOfKind k (finalState (tick cfg s inp.base)).trace = eventsOfKind k s.trace := by
    intro hmiss
    refine ⟨tickCall_quiet cfg s inp f hlive hgrab hquiet (fun h => hmiss h.2.2), ?_⟩
    intro k hk
    apply tick_miss_events cfg s inp.base f hne hen hlive hgrab hquiet hmiss k
    simp only [List.mem_cons, List.mem_singleton, List.not_mem_nil, or_false] at hk ⊢
    rcases hk with rfl | rfl | rfl <;> decide
  constructor
  · intro h
    have hmiss : ¬ frameAtTask f s.sched.nextTask := by
      unfold frameAfterTask at h; unfold frameAtTask; omega
    obtain ⟨e, hk⟩ := hev hmiss
    obtain ⟨-, hss, -⟩ := hafter h
    rw [e, ofExcept_state]
    exact ⟨hk, hss⟩
  · intro h
    have hmiss : ¬ frameAtTask f s.sched.nextTask := by
      unfold frameBeforeTask at h; unfold frameAtTask; omega
    obtain ⟨e, hk⟩ := hev hmiss
    obtain ⟨⟨s1, hs1⟩, -, hsched, -⟩ := hbefore h
    rw [e, ofExcept_state]
    exact ⟨⟨s1, by rw [hs1]; rfl⟩, hk, hsched⟩

/-- Witness for C13 (amended): the task of 06:00:00 is armed, no regular acquisition, and
a frame stamped 06:00:01 arrives: no diversion is invoked. -/
theorem missed_task_skipped_without_diversion_witness :
    eventsOfKind Kind.runScheduled
        (tickCall scheduleConfig scheduleStart
          (withSaves (grabbed (frameAt 1 6 0 1) false))).state.trace
      = eventsOfKind Kind.runScheduled scheduleStart.trace ∧
    eventsOfKind Kind.device
        (tickCall scheduleConfig scheduleStart
          (withSaves (grabbed (frameAt 1 6 0 1) false))).state.trace
      = eventsOfKind Kind.device scheduleStart.trace ∧
    ∃ ss, (selectNextAcquisitionSchedule scheduleStart.sched 6 0 1 = .ok ss ∨
           selectNextAcquisitionSchedule scheduleStart.sched 6 0 1 = .error ss) ∧
      (tickCall scheduleConfig scheduleStart
        (withSaves (grabbed (frameAt 1 6 0 1) false))).state.sched = ss :=
  have h := (missed_task_skipped_without_diversion scheduleConfig scheduleStart
    (withSaves (grabbed (frameAt 1 6 0 1) false)) (frameAt 1 6 0 1)
    (by decide) rfl rfl rfl (by decide)).1 (by decide)
  ⟨h.1 _ (by decide), h.1 _ (by decide), h.2⟩

/-- C14 (evaluation): a task with three repetitions, every single shot succeeding with
image data, on a station whose data directory exists and whose directory of the day does
not. The first save creates the directories; in the second repetition
`buildRegularAcquisitionDirectory` finds all three and reaches its closing brace without
a `return`: two of the three requests have been sent and no `acqRestart`. Likewise the
regular diversion with one repetition, when the three directories exist already, ends
after its only request without the restart. -/
theorem restart_missing_after_second_save :
    (∃ s1 d1, runScheduledAcquisitionCall sampleConfig sampleStart threeShotTask
          (fun _ => true) (fun _ => smoothSave)
          { dataPath := true, stationDir := false, captures := false }
        = CallEnd.builderClosingBrace s1 d1 ∧
      deviceCommands s1.trace
        = [Event.acqStop, Event.grabStop, Event.grabSingleImage 5000 10 8 0 true,
            Event.grabSingleImage 5000 10 8 1 true]) ∧
    (∃ s1 d1, runRegularAcquisitionCall regularConfig regularStart
          (fun _ => true) (fun _ => smoothSave)
          { dataPath := true, stationDir := true, captures := true }
        = CallEnd.builderClosingBrace s1 d1 ∧
      deviceCommands s1.trace
        = [Event.acqStop, Event.grabStop, Event.grabSingleImage 5000 10 8 0 true]) :=
  ⟨⟨_, _, rfl, by decide⟩, ⟨_, _, rfl, by decide⟩⟩

end Freeture
